import Mathlib

/-!
Cluster-unit analysis (`cost-model/include/dataflow-analysis/DFA_cluster-unit.hpp`)

A shallow embedding of `maestro::DFA::ClusterUnit` and theorems about it.

Conventions of the embedding.

* A C++ `int` is a 32-bit and a `long` a 64-bit two's complement integer.  Values are
  carried as `Int`; the `+`, `-` and `*` of the iteration, edge and partial-output
  computations wrap their result into the range of their type (`wrapInt`, `wrapLong`),
  as the compiled code does.  `/` and `%` on `int` truncate toward zero (`Int.tdiv`,
  `Int.tmod`) and stop the run with an arithmetic fault when the divisor is zero or the
  quotient is not representable (`intDiv`, `intMod`).
* Two kinds of `int` arithmetic are carried without wrapping, because their results
  cannot leave the range of `int`: the position counters of the loops over the directive
  table, which stay below its length, and the differences of lines 262-263 of
  `AnalyzeMappingSizes`, whose operands are a tile size and a stride or zero (at least
  `1` by the invariant of `Directive`; see `mappingSizes_differences_representable`).
* The member functions of `ClusterUnit` mutate the object; here every one of them is a
  function from the state before the call to the state after it.
* `error_handler_->TerminateProgram()` ends the run: the stage returns `Except.error`.
* The classes `Directive`, `DirectiveTable`, `DimensionTable` and the error handler are
  declared in headers that are not part of the analysed source file; they are modelled
  from the interface the specification gives for them.
* The handles `noc_` and `tensors_` are stored and handed out unchanged and are never
  inspected by the analysis; they are left out of the state.
-/

namespace maestro

namespace TL

/-- Modelled from the spec: the two configuration errors of `TL::ErrorCode` that the
cluster analysis reports (`TL_error-handler.hpp` is not part of the source file). -/
inductive ErrorCode where
  | NoSpatialMap
  | MultiParallelismInSingleCluster
  deriving DecidableEq, Repr

end TL

namespace DFA

/-- The constant `invalid_map_pos` (line 48). -/
def invalid_map_pos : Int := -1

/-- Ways in which a member function can stop without returning. -/
inductive Abort where
  /-- `PrintErrorMsg(code, ...)` followed by `TerminateProgram()`. -/
  | terminated (code : TL.ErrorCode)
  /-- `dataflow_->at(idx)` with `idx` outside the table. -/
  | outOfRange
  /-- a failed `assert`. -/
  | assertion
  /-- an arithmetic fault: division by zero, or `INT_MIN / -1`. -/
  | arithmetic
  deriving DecidableEq, Repr

/-- Modelled from the spec: the class tag of a directive, `{Spatial, Temporal}`
(`directive::DirectiveClass` of `DFA_directives.hpp`, which is not part of the source
file). -/
inductive DirectiveClass where
  | TemporalMap
  | SpatialMap
  deriving DecidableEq, Repr

/-- Modelled from the spec: a directive exposes `{variable, class, tileSize, stride}`
(`DFA_directives.hpp` is not part of the source file). -/
structure Directive where
  var : String
  cls : DirectiveClass
  size : Int
  ofs : Int
  deriving DecidableEq, Repr

namespace Directive

/-- The accessor `GetVariable()`. -/
def GetVariable (d : Directive) : String := d.var

/-- The accessor `GetClass()`. -/
def GetClass (d : Directive) : DirectiveClass := d.cls

/-- The accessor `GetSize()`: the tile size. -/
def GetSize (d : Directive) : Int := d.size

/-- The accessor `GetOfs()`: the stride. -/
def GetOfs (d : Directive) : Int := d.ofs

end Directive

/-- Modelled from the spec: a directive sequence is an ordered list of directives, with
ordered iteration, indexed access, length and `findByVariable`
(`DFA_directive-table.hpp` is not part of the source file). -/
abbrev DirectiveTable := List Directive

namespace DirectiveTable

/-- Modelled from the spec: indexed access `dataflow_->at(idx)`; absent outside
`0 .. size-1`. -/
def at? (t : DirectiveTable) (idx : Int) : Option Directive :=
  if idx < 0 then none else t[idx.toNat]?

/-- Modelled from the spec: `findByVariable(name) -> Directive | absent`
(`FindDirective`): the first directive that maps `name`. -/
def FindDirective (t : DirectiveTable) (name : String) : Option Directive :=
  t.find? (fun d => decide (d.GetVariable = name))

end DirectiveTable

/-- One entry of the dimension table, as seen by the loop over `*dimensions_`:
`GetName()` and `GetSize()`. -/
structure Dimension where
  name : String
  size : Int
  deriving DecidableEq, Repr

/-- Modelled from the spec: the dimension registry offers `size(name)`,
`isOverlapped(name)`, `isSlidingDim(name)`, `overlappingDim(name)` and iteration over
all dimensions (`DFA_dimension-table.hpp` is not part of the source file).  The four
queries are taken as they are, without assuming how the table answers them. -/
structure DimensionTable where
  dims : List Dimension
  GetSize : String → Int
  IsOverlapped : String → Bool
  IsSlidingDim : String → Bool
  GetOverlappingDim : String → String

/-- Modelled from the spec: the names of the output-width and output-height dimensions
(`DFSL::layer_dim_output_width_`, `DFSL::layer_dim_output_height_`), declared outside
the source file. -/
structure LayerDimNames where
  layer_dim_output_width_ : String
  layer_dim_output_height_ : String

/-- A `std::map<std::string, int>`: a finite map, here the function that gives the
value stored under each key, if any. -/
abbrev ElementMap := String → Option Int

namespace ElementMap

/-- The map after `std::make_unique<std::map<std::string, int>>()`. -/
def empty : ElementMap := fun _ => none

/-- The assignment `(*m)[k] = v`. -/
def set (m : ElementMap) (k : String) (v : Int) : ElementMap :=
  fun k' => if k' = k then some v else m k'

/-- The value read by `(*m)[k]`: the stored value, `0` for a key not yet present. -/
def get (m : ElementMap) (k : String) : Int :=
  match m k with
  | some v => v
  | none => 0

end ElementMap

/-- The data members of `ClusterUnit` (lines 149-177). -/
structure ClusterUnit where
  cluster_level_ : Int
  cluster_size_ : Int
  upper_spatial_map_idx_ : Int
  lower_spatial_map_idx_ : Int
  outer_temporal_map_idx_ : Int
  inner_temporal_map_idx_ : Int
  num_spatial_iterations_ : Int
  num_spatial_edge_clusters_ : Int
  num_steady_spatial_iterations_ : Int
  num_edge_spatial_iterations_ : Int
  num_pouts_ : Int
  dimensions_ : DimensionTable
  dataflow_ : DirectiveTable
  num_mapped_elements_ : ElementMap
  sp_mapped_unique_elements_ : ElementMap
  tp_mapped_unique_elements_ : ElementMap
  sp_mapped_reused_elements_ : ElementMap
  tp_mapped_reused_elements_ : ElementMap

namespace ClusterUnit

/-- The object after the member initialisers and the five `make_unique` calls of the
constructor (lines 57-70), before `Preprocess()`. -/
def init (cluster_level cluster_size : Int) (dataflow : DirectiveTable)
    (dimensions : DimensionTable) : ClusterUnit where
  cluster_level_ := cluster_level
  cluster_size_ := cluster_size
  upper_spatial_map_idx_ := invalid_map_pos
  lower_spatial_map_idx_ := invalid_map_pos
  outer_temporal_map_idx_ := invalid_map_pos
  inner_temporal_map_idx_ := invalid_map_pos
  num_spatial_iterations_ := 1
  num_spatial_edge_clusters_ := 1
  num_steady_spatial_iterations_ := 1
  num_edge_spatial_iterations_ := 0
  num_pouts_ := 0
  dimensions_ := dimensions
  dataflow_ := dataflow
  num_mapped_elements_ := ElementMap.empty
  sp_mapped_unique_elements_ := ElementMap.empty
  tp_mapped_unique_elements_ := ElementMap.empty
  sp_mapped_reused_elements_ := ElementMap.empty
  tp_mapped_reused_elements_ := ElementMap.empty

/-- `GetClusterLevel()` (lines 75-77). -/
def GetClusterLevel (cu : ClusterUnit) : Int := cu.cluster_level_

/-- `GetNumClusters(bool is_spatial_edge)` (lines 137-144). -/
def GetNumClusters (cu : ClusterUnit) (is_spatial_edge : Bool) : Int :=
  if !is_spatial_edge then cu.cluster_size_ else cu.num_spatial_edge_clusters_

/-- The call `GetNumClusters()`: the parameter takes its default value `false`
(line 137). -/
def GetNumClustersDefault (cu : ClusterUnit) : Int := cu.GetNumClusters false

/-- The `int` that an integer result wraps to: the value in `-2^31 .. 2^31 - 1`
congruent to it modulo `2^32`. -/
def wrapInt (x : Int) : Int := (x + 2147483648) % 4294967296 - 2147483648

/-- The `long` that an integer result wraps to: the value in `-2^63 .. 2^63 - 1`
congruent to it modulo `2^64`. -/
def wrapLong (x : Int) : Int :=
  (x + 9223372036854775808) % 18446744073709551616 - 9223372036854775808

/-- The quotient `a / b` of two `int`: truncated toward zero; an arithmetic fault when
`b` is zero or when the quotient `INT_MIN / -1` is not representable. -/
def intDiv (a b : Int) : Except Abort Int :=
  if b = 0 ∨ (a = -2147483648 ∧ b = -1) then .error .arithmetic else .ok (a.tdiv b)

/-- The remainder `a % b` of two `int`, with the sign of `a`; an arithmetic fault in the
cases in which `a / b` is one. -/
def intMod (a b : Int) : Except Abort Int :=
  if b = 0 ∨ (a = -2147483648 ∧ b = -1) then .error .arithmetic else .ok (a.tmod b)

/-- The quotient `a / b` followed by `if (a % b != 0) q++`, the idiom of lines
116-119, 122-125 and 237-242, on `int`. -/
def divRoundUp (a b : Int) : Except Abort Int :=
  match intDiv a b with
  | .error e => .error e
  | .ok q =>
    match intMod a b with
    | .error e => .error e
    | .ok r => if r ≠ 0 then .ok (wrapInt (q + 1)) else .ok q

/-- The size of the dimension of one directive after lines 98-113 of
`GetNumTotalIterations`.  The directive looked up on line 104 is the one of
`directive_dim`. -/
def effectiveDimSize (cu : ClusterUnit) (directive : Directive) : Except Abort Int :=
  let directive_dim := directive.GetVariable
  let dim_size := cu.dimensions_.GetSize directive_dim
  if cu.dimensions_.IsOverlapped directive_dim then
    if !cu.dimensions_.IsSlidingDim directive_dim then
      let sliding_dim := cu.dimensions_.GetOverlappingDim directive_dim
      match DirectiveTable.FindDirective cu.dataflow_ directive_dim with
      | none => .error .assertion
      | some sliding_dim_directive =>
        let sliding_dim_map_size := sliding_dim_directive.GetSize
        let sliding_dim_size := cu.dimensions_.GetSize sliding_dim
        if sliding_dim_map_size = sliding_dim_size then
          .ok (wrapInt (wrapInt (dim_size - sliding_dim_size) + 1))
        else .ok dim_size
    else .ok dim_size
  else .ok dim_size

/-- The value of `num_iter_this_dim` at line 131, for one directive. -/
def numIterThisDim (cu : ClusterUnit) (directive : Directive) : Except Abort Int :=
  match effectiveDimSize cu directive with
  | .error e => .error e
  | .ok dim_size =>
    match directive.GetClass with
    | .TemporalMap => divRoundUp dim_size directive.GetOfs
    | .SpatialMap => divRoundUp dim_size (wrapInt (directive.GetOfs * cu.cluster_size_))

/-- The loop of `GetNumTotalIterations` (lines 94-132) over the directives still to
visit, with the running value of the `long ret`. -/
def totalIterationsLoop (cu : ClusterUnit) : List Directive → Int → Except Abort Int
  | [], ret => .ok ret
  | directive :: rest, ret =>
    match numIterThisDim cu directive with
    | .error e => .error e
    | .ok num_iter_this_dim =>
      totalIterationsLoop cu rest (wrapLong (ret * num_iter_this_dim))

/-- `GetNumTotalIterations()` (lines 91-134). -/
def GetNumTotalIterations (cu : ClusterUnit) : Except Abort Int :=
  totalIterationsLoop cu cu.dataflow_ 1

/-- The loop of `AnalyzeSpatialMapIdx` (lines 184-198) over the directives still to
visit; `idx` is the position of the first of them. -/
def spatialMapIdxLoop : List Directive → Int → ClusterUnit → Except Abort ClusterUnit
  | [], _, cu => .ok cu
  | it :: rest, idx, cu =>
    if it.GetClass = DirectiveClass.SpatialMap then
      if cu.upper_spatial_map_idx_ = invalid_map_pos then
        spatialMapIdxLoop rest (idx + 1) { cu with upper_spatial_map_idx_ := idx }
      else if cu.lower_spatial_map_idx_ = invalid_map_pos then
        spatialMapIdxLoop rest (idx + 1) { cu with lower_spatial_map_idx_ := idx }
      else
        .error (.terminated TL.ErrorCode.MultiParallelismInSingleCluster)
    else spatialMapIdxLoop rest (idx + 1) cu

/-- `AnalyzeSpatialMapIdx()` (lines 181-207). -/
def AnalyzeSpatialMapIdx (cu : ClusterUnit) : Except Abort ClusterUnit :=
  match spatialMapIdxLoop cu.dataflow_ 0 cu with
  | .error e => .error e
  | .ok cu1 =>
    if cu1.upper_spatial_map_idx_ = invalid_map_pos then
      .error (.terminated TL.ErrorCode.NoSpatialMap)
    else .ok cu1

/-- The test of lines 219-221: the directive is a temporal map and is not unrolled. -/
def isIteratedTemporal (dimensions : DimensionTable) (d : Directive) : Bool :=
  if d.GetClass = DirectiveClass.TemporalMap then
    let isUnrolled := decide (d.GetSize ≥ dimensions.GetSize d.GetVariable)
    !isUnrolled
  else false

/-- The loop of `AnalyzeInnerTemporalMapIdx` (lines 218-225) over the directives still
to visit; `idx` is the position of the first of them. -/
def innerTemporalLoop (dimensions : DimensionTable) : List Directive → Int → Int → Int
  | [], _, inner_temporal_map_index => inner_temporal_map_index
  | d :: rest, idx, inner_temporal_map_index =>
    if isIteratedTemporal dimensions d then innerTemporalLoop dimensions rest (idx + 1) idx
    else innerTemporalLoop dimensions rest (idx + 1) inner_temporal_map_index

/-- `AnalyzeInnerTemporalMapIdx()` (lines 212-228).  The loop starts at
`upper_spatial_map_idx_`; a negative start index would make the first `at(idx)` leave
the table (it cannot occur after `AnalyzeSpatialMapIdx` has returned). -/
def AnalyzeInnerTemporalMapIdx (cu : ClusterUnit) : Except Abort ClusterUnit :=
  if cu.upper_spatial_map_idx_ < 0 then .error .outOfRange
  else
    .ok { cu with
      inner_temporal_map_idx_ :=
        innerTemporalLoop cu.dimensions_ (cu.dataflow_.drop cu.upper_spatial_map_idx_.toNat)
          cu.upper_spatial_map_idx_ cu.upper_spatial_map_idx_ }

/-- `AnalyzeNumSpatialIterations()` (lines 230-243). -/
def AnalyzeNumSpatialIterations (cu : ClusterUnit) : Except Abort ClusterUnit :=
  match DirectiveTable.at? cu.dataflow_ cu.upper_spatial_map_idx_ with
  | none => .error .outOfRange
  | some upper_spatial_map_directive =>
    let spatially_mapped_dimension := upper_spatial_map_directive.GetVariable
    let sp_dim_size := cu.dimensions_.GetSize spatially_mapped_dimension
    let sp_map_ofs := upper_spatial_map_directive.GetOfs
    match divRoundUp sp_dim_size (wrapInt (sp_map_ofs * cu.cluster_size_)) with
    | .error e => .error e
    | .ok num_spatial_iterations => .ok { cu with num_spatial_iterations_ := num_spatial_iterations }

/-- One pass of the loop body of `AnalyzeMappingSizes` (lines 249-265).  The differences
of lines 262-263 are between a tile size and a stride, a tile size or zero; for tile
sizes and strides in `1 .. INT_MAX` they are representable and are carried as they
are. -/
def mappingSizesStep (cu : ClusterUnit) (directive : Directive) (idx : Int) : ClusterUnit :=
  let loop_var := directive.GetVariable
  let mapped := cu.num_mapped_elements_.set loop_var directive.GetSize
  let sp_unique :=
    if directive.GetClass = DirectiveClass.SpatialMap then
      cu.sp_mapped_unique_elements_.set loop_var directive.GetOfs
    else cu.sp_mapped_unique_elements_.set loop_var 0
  let tp_unique :=
    if directive.GetClass = DirectiveClass.SpatialMap then
      cu.tp_mapped_unique_elements_.set loop_var directive.GetSize
    else
      cu.tp_mapped_unique_elements_.set loop_var
        (if idx = cu.inner_temporal_map_idx_ then directive.GetOfs else directive.GetSize)
  { cu with
    num_mapped_elements_ := mapped
    sp_mapped_unique_elements_ := sp_unique
    tp_mapped_unique_elements_ := tp_unique
    sp_mapped_reused_elements_ :=
      cu.sp_mapped_reused_elements_.set loop_var (mapped.get loop_var - sp_unique.get loop_var)
    tp_mapped_reused_elements_ :=
      cu.tp_mapped_reused_elements_.set loop_var (mapped.get loop_var - tp_unique.get loop_var) }

/-- The loop of `AnalyzeMappingSizes` (lines 248-266) over the directives still to
visit; `idx` is the position of the first of them. -/
def mappingSizesLoop : List Directive → Int → ClusterUnit → ClusterUnit
  | [], _, cu => cu
  | directive :: rest, idx, cu => mappingSizesLoop rest (idx + 1) (mappingSizesStep cu directive idx)

/-- `AnalyzeMappingSizes()` (lines 245-267). -/
def AnalyzeMappingSizes (cu : ClusterUnit) : ClusterUnit :=
  mappingSizesLoop cu.dataflow_ 0 cu

/-- The local `each_sp_iter_base_coverage` (line 287). -/
def each_sp_iter_base_coverage (map_ofs cluster_size : Int) : Int :=
  wrapInt (map_ofs * cluster_size)

/-- The local `each_sp_iter_full_coverage` (line 288). -/
def each_sp_iter_full_coverage (map_size map_ofs cluster_size : Int) : Int :=
  wrapInt (wrapInt (map_ofs * wrapInt (cluster_size - 1)) + map_size)

/-- The value given to `num_steady_spatial_iterations_` on line 293. -/
def steadyMultiSweep (sp_dim_sz map_size map_ofs cluster_size : Int) : Except Abort Int :=
  match intDiv (wrapInt (sp_dim_sz - map_size)) map_ofs with
  | .error e => .error e
  | .ok q =>
    match intDiv (wrapInt (q + 1)) cluster_size with
    | .error e => .error e
    | .ok a => .ok (wrapInt (a - 1))

/-- The local `remaining_items` (line 296), from the steady count of line 293. -/
def remaining_items (sp_dim_sz map_ofs cluster_size steady : Int) : Int :=
  wrapInt (sp_dim_sz - wrapInt (wrapInt (wrapInt (steady + 1) * map_ofs) * cluster_size))

/-- The three results of `AnalyzeSpatialEdgeCase`. -/
structure EdgeCase where
  num_steady_spatial_iterations : Int
  num_edge_spatial_iterations : Int
  num_spatial_edge_clusters : Int
  deriving DecidableEq, Repr

/-- The multi-sweep branch of `AnalyzeSpatialEdgeCase` (lines 291-303).  The unused local
of line 291 is a subtraction, which cannot fault, and is left out. -/
def multiSweepCase (sp_dim_sz map_size map_ofs cluster_size : Int) : Except Abort EdgeCase :=
  match steadyMultiSweep sp_dim_sz map_size map_ofs cluster_size with
  | .error e => .error e
  | .ok steady =>
    let edge : Int :=
      if wrapInt (wrapInt (wrapInt (steady + 1) * wrapInt (map_ofs * cluster_size)) +
          each_sp_iter_full_coverage map_size map_ofs cluster_size) > sp_dim_sz then 1 else 0
    let remaining := remaining_items sp_dim_sz map_ofs cluster_size steady
    if remaining < map_size then
      .ok { num_steady_spatial_iterations := steady
            num_edge_spatial_iterations := edge
            num_spatial_edge_clusters := 1 }
    else
      match intDiv (wrapInt (remaining - map_size)) map_ofs with
      | .error e => .error e
      | .ok q =>
        .ok { num_steady_spatial_iterations := steady
              num_edge_spatial_iterations := edge
              num_spatial_edge_clusters := wrapInt (q + 1) }

/-- The single-sweep branch of `AnalyzeSpatialEdgeCase` (lines 306-315). -/
def singleSweepCase (sp_dim_sz map_size map_ofs : Int) : Except Abort EdgeCase :=
  if sp_dim_sz > map_size then
    match intDiv (wrapInt (sp_dim_sz - map_size)) map_ofs with
    | .error e => .error e
    | .ok q =>
      let edge_clusters := wrapInt (q + 1)
      let sp_edge_clsuter_coverage :=
        wrapInt (wrapInt (map_ofs * wrapInt (edge_clusters - 1)) + map_size)
      .ok { num_steady_spatial_iterations := 0
            num_edge_spatial_iterations := 1
            num_spatial_edge_clusters :=
              if sp_edge_clsuter_coverage < sp_dim_sz then wrapInt (edge_clusters + 1)
              else edge_clusters }
  else
    .ok { num_steady_spatial_iterations := 0
          num_edge_spatial_iterations := 1
          num_spatial_edge_clusters := 1 }

/-- Lines 287-319 of `AnalyzeSpatialEdgeCase`, as a function of `sp_dim_sz`, the tile
size `map_size`, the stride `map_ofs` and `cluster_size_`.  Every path that returns
assigns all three members, so the values do not depend on the state before the call. -/
def spatialEdgeCase (sp_dim_sz map_size map_ofs cluster_size : Int) : Except Abort EdgeCase :=
  let branch : Except Abort EdgeCase :=
    if sp_dim_sz > each_sp_iter_full_coverage map_size map_ofs cluster_size then
      multiSweepCase sp_dim_sz map_size map_ofs cluster_size
    else singleSweepCase sp_dim_sz map_size map_ofs
  match branch with
  | .error e => .error e
  | .ok r => if sp_dim_sz ≤ map_size then .ok { r with num_spatial_edge_clusters := 1 } else .ok r

/-- `AnalyzeSpatialEdgeCase()` (lines 269-329). -/
def AnalyzeSpatialEdgeCase (cu : ClusterUnit) : Except Abort ClusterUnit :=
  match DirectiveTable.at? cu.dataflow_ cu.upper_spatial_map_idx_ with
  | none => .error .outOfRange
  | some sp_map_directive =>
    let sp_var := sp_map_directive.GetVariable
    let sp_dim_sz := cu.dimensions_.GetSize sp_var
    let map_size := sp_map_directive.GetSize
    let map_ofs := sp_map_directive.GetOfs
    match spatialEdgeCase sp_dim_sz map_size map_ofs cu.cluster_size_ with
    | .error e => .error e
    | .ok r =>
      .ok { cu with
        num_steady_spatial_iterations_ := r.num_steady_spatial_iterations
        num_edge_spatial_iterations_ := r.num_edge_spatial_iterations
        num_spatial_edge_clusters_ := r.num_spatial_edge_clusters }

/-- The contribution of one dimension to the local `num_pouts` of
`AnalyzeNumPartialOutputs` (lines 342-355). -/
def partialOutputFactor (dimensions : DimensionTable) (dim : Dimension) : Int :=
  let dim_name := dim.name
  if dimensions.IsOverlapped dim_name then
    if dimensions.IsSlidingDim dim_name then dim.size
    else
      let sliding_dim_name := dimensions.GetOverlappingDim dim_name
      let sliding_dim_size := dimensions.GetSize sliding_dim_name
      let adjusted_size := wrapInt (wrapInt (dim.size - sliding_dim_size) + 1)
      if adjusted_size > 0 then wrapInt (wrapInt (dim.size - sliding_dim_size) + 1)
      else dim.size
  else dim.size

/-- The loop of `AnalyzeNumPartialOutputs` (lines 335-357) over the dimensions still to
visit, with the running value of the local `long num_pouts`. -/
def partialOutputsLoop (names : LayerDimNames) (dimensions : DimensionTable) :
    List Dimension → Int → Int
  | [], num_pouts => num_pouts
  | dim :: rest, num_pouts =>
    if dim.name = names.layer_dim_output_width_ ∨ dim.name = names.layer_dim_output_height_ then
      partialOutputsLoop names dimensions rest num_pouts
    else
      partialOutputsLoop names dimensions rest
        (wrapLong (num_pouts * partialOutputFactor dimensions dim))

/-- The final value of the local `num_pouts` of `AnalyzeNumPartialOutputs`
(line 333 and the loop of lines 335-357). -/
def localNumPouts (names : LayerDimNames) (cu : ClusterUnit) : Int :=
  partialOutputsLoop names cu.dimensions_ cu.dimensions_.dims 1

/-- `AnalyzeNumPartialOutputs()` (lines 332-358): the product is built in the local
`num_pouts` and the function ends; no member is assigned. -/
def AnalyzeNumPartialOutputs (names : LayerDimNames) (cu : ClusterUnit) : ClusterUnit :=
  let _num_pouts := localNumPouts names cu
  cu

/-- `Preprocess()` (lines 360-368). -/
def Preprocess (names : LayerDimNames) (cu : ClusterUnit) : Except Abort ClusterUnit :=
  match AnalyzeSpatialMapIdx cu with
  | .error e => .error e
  | .ok cu1 =>
    match AnalyzeInnerTemporalMapIdx cu1 with
    | .error e => .error e
    | .ok cu2 =>
      match AnalyzeNumSpatialIterations cu2 with
      | .error e => .error e
      | .ok cu3 =>
        match AnalyzeSpatialEdgeCase cu3 with
        | .error e => .error e
        | .ok cu4 => .ok (AnalyzeNumPartialOutputs names (AnalyzeMappingSizes cu4))

/-- The constructor (lines 52-73).  `ConvertToInputCentric` is defined outside the
source file and is a parameter: it turns the directive table it is called on into its
input-centric form, and the analysis runs on the converted table. -/
def construct (ConvertToInputCentric : DirectiveTable → DirectiveTable)
    (names : LayerDimNames) (cluster_level cluster_size : Int)
    (dataflow : DirectiveTable) (dimensions : DimensionTable) : Except Abort ClusterUnit :=
  Preprocess names (init cluster_level cluster_size (ConvertToInputCentric dataflow) dimensions)

/-! ## Quantities used to state the properties -/

/-- The number of directives of class `SpatialMap` in a sequence. -/
def numSpatial (l : List Directive) : Nat :=
  l.countP (fun d => decide (d.GetClass = DirectiveClass.SpatialMap))

/-- How many of the two spatial indices of the state have been found so far. -/
def numFound (cu : ClusterUnit) : Nat :=
  if cu.upper_spatial_map_idx_ = invalid_map_pos then 0
  else if cu.lower_spatial_map_idx_ = invalid_map_pos then 1
  else 2

/-- The reuse invariant for one variable `v`: reused plus unique elements make up the
mapped elements, spatially and temporally. -/
def reuseInvariant (cu : ClusterUnit) (v : String) : Prop :=
  cu.sp_mapped_reused_elements_.get v + cu.sp_mapped_unique_elements_.get v =
      cu.num_mapped_elements_.get v ∧
    cu.tp_mapped_reused_elements_.get v + cu.tp_mapped_unique_elements_.get v =
      cu.num_mapped_elements_.get v

/-- The effective dimension size of section 4.5 of the specification, in its words: for
a dimension flagged overlapped and not sliding, if the tile size of the directive that
maps the overlapping (sliding/filter) dimension equals that filter dimension's full size,
the size is `size - filterSize + 1`; otherwise it is the raw size.  It is undefined when
the filter dimension is not mapped by any directive. -/
def specEffectiveSize (dataflow : DirectiveTable) (dimensions : DimensionTable)
    (directive : Directive) : Option Int :=
  let dim := directive.GetVariable
  if dimensions.IsOverlapped dim && !dimensions.IsSlidingDim dim then
    let filterDim := dimensions.GetOverlappingDim dim
    match DirectiveTable.FindDirective dataflow filterDim with
    | none => none
    | some filterDirective =>
      if filterDirective.GetSize = dimensions.GetSize filterDim then
        some (dimensions.GetSize dim - dimensions.GetSize filterDim + 1)
      else some (dimensions.GetSize dim)
  else some (dimensions.GetSize dim)

/-- The per-directive iteration count of section 4.5 of the specification:
`ceil(E / stride)` for a temporal directive and `ceil(E / (stride * clusterWidth))` for a
spatial one, `E` being the effective dimension size. -/
def specIterations (cluster_size : Int) (dataflow : DirectiveTable)
    (dimensions : DimensionTable) (directive : Directive) : Option Int :=
  match specEffectiveSize dataflow dimensions directive with
  | none => none
  | some E =>
    match directive.GetClass with
    | .TemporalMap => some ⌈(E : ℚ) / (directive.GetOfs : ℚ)⌉
    | .SpatialMap => some ⌈(E : ℚ) / ((directive.GetOfs : ℚ) * (cluster_size : ℚ))⌉

/-- The product of the per-directive iteration counts of the specification over the
directives of `l`. -/
def specTotalIterations (cluster_size : Int) (dataflow : DirectiveTable)
    (dimensions : DimensionTable) : List Directive → Option Int
  | [] => some 1
  | directive :: rest =>
    match specIterations cluster_size dataflow dimensions directive,
      specTotalIterations cluster_size dataflow dimensions rest with
    | some n, some p => some (n * p)
    | _, _ => none

/-- Validity of a directive sequence: cluster width, tile sizes and strides are at least
one, and every overlapped non-sliding dimension that is mapped has its overlapping
dimension mapped by a directive. -/
def validSequence (cluster_size : Int) (dataflow : DirectiveTable)
    (dimensions : DimensionTable) : Prop :=
  1 ≤ cluster_size ∧
    ∀ d ∈ dataflow, 1 ≤ d.GetSize ∧ 1 ≤ d.GetOfs ∧
      (dimensions.IsOverlapped d.GetVariable = true →
        dimensions.IsSlidingDim d.GetVariable = false →
        (DirectiveTable.FindDirective dataflow
          (dimensions.GetOverlappingDim d.GetVariable)).isSome = true)


/-! ## The same expressions over the integers

The quantities below are the expressions of the source read over the integers, with no
wrap-around and no fault.  They are what the code computes whenever no intermediate
value leaves the range of its type, and are used to derive the properties of the
wrapping definitions above. -/

/-- The rounded-up quotient over the integers. -/
def divRoundUpExact (a b : Int) : Int :=
  let q := a.tdiv b
  if a.tmod b ≠ 0 then q + 1 else q

/-- The span `O * (C - 1) + T` of one sweep (line 288) over the integers. -/
def fullCoverageExact (map_size map_ofs cluster_size : Int) : Int :=
  map_ofs * (cluster_size - 1) + map_size

/-- The steady count of line 293 over the integers. -/
def steadyExact (sp_dim_sz map_size map_ofs cluster_size : Int) : Int :=
  (((sp_dim_sz - map_size).tdiv map_ofs + 1).tdiv cluster_size) - 1

/-- The remaining items of line 296 over the integers. -/
def remainingExact (sp_dim_sz map_ofs cluster_size steady : Int) : Int :=
  sp_dim_sz - (steady + 1) * map_ofs * cluster_size

/-- Lines 287-319 over the integers. -/
def spatialEdgeCaseExact (sp_dim_sz map_size map_ofs cluster_size : Int) : EdgeCase :=
  let full_coverage := fullCoverageExact map_size map_ofs cluster_size
  let r : EdgeCase :=
    if sp_dim_sz > full_coverage then
      let steady := steadyExact sp_dim_sz map_size map_ofs cluster_size
      let edge : Int :=
        if (steady + 1) * (map_ofs * cluster_size) + full_coverage > sp_dim_sz then 1 else 0
      let remaining := remainingExact sp_dim_sz map_ofs cluster_size steady
      if remaining < map_size then
        { num_steady_spatial_iterations := steady
          num_edge_spatial_iterations := edge
          num_spatial_edge_clusters := 1 }
      else
        { num_steady_spatial_iterations := steady
          num_edge_spatial_iterations := edge
          num_spatial_edge_clusters := (remaining - map_size).tdiv map_ofs + 1 }
    else
      if sp_dim_sz > map_size then
        let edge_clusters := (sp_dim_sz - map_size).tdiv map_ofs + 1
        let sp_edge_clsuter_coverage := map_ofs * (edge_clusters - 1) + map_size
        { num_steady_spatial_iterations := 0
          num_edge_spatial_iterations := 1
          num_spatial_edge_clusters :=
            if sp_edge_clsuter_coverage < sp_dim_sz then edge_clusters + 1 else edge_clusters }
      else
        { num_steady_spatial_iterations := 0
          num_edge_spatial_iterations := 1
          num_spatial_edge_clusters := 1 }
  if sp_dim_sz ≤ map_size then { r with num_spatial_edge_clusters := 1 } else r

/-! ## Sample inputs -/

/-- A registry with an output-channel dimension `K`, an input-row dimension `Y` and a
filter-row dimension `R`; `Y` is overlapped by the sliding dimension `R`. -/
def sampleDims (k y r : Int) : DimensionTable where
  dims := [⟨"K", k⟩, ⟨"Y", y⟩, ⟨"R", r⟩]
  GetSize := fun n => if n = "K" then k else if n = "Y" then y else if n = "R" then r else 0
  IsOverlapped := fun n => decide (n = "Y") || decide (n = "R")
  IsSlidingDim := fun n => decide (n = "R")
  GetOverlappingDim := fun n => if n = "Y" then "R" else if n = "R" then "Y" else ""

/-- The names of the output dimensions used with the sample inputs. -/
def sampleNames : LayerDimNames := ⟨"X'", "Y'"⟩

/-- An analyzer state just after index discovery: one spatial map over `K` with tile
size `t` and stride `o`, `K` of size `s`, cluster width `c`. -/
def sampleSpatialState (s t o c : Int) : ClusterUnit :=
  { init 0 c [⟨"K", .SpatialMap, t, o⟩] (sampleDims s 9 3) with
    upper_spatial_map_idx_ := 0
    inner_temporal_map_idx_ := 0 }

/-- A sequence with three spatial maps. -/
def threeSpatialDataflow : DirectiveTable :=
  [⟨"K", .SpatialMap, 1, 1⟩, ⟨"Y", .SpatialMap, 3, 1⟩, ⟨"R", .SpatialMap, 3, 3⟩]

/-- A sequence with temporal maps only. -/
def temporalOnlyDataflow : DirectiveTable :=
  [⟨"K", .TemporalMap, 1, 1⟩, ⟨"Y", .TemporalMap, 3, 1⟩, ⟨"R", .TemporalMap, 3, 3⟩]

/-- A sequence that maps `K` twice: once spatially, once temporally. -/
def repeatedVariableDataflow : DirectiveTable :=
  [⟨"K", .SpatialMap, 4, 2⟩, ⟨"Y", .TemporalMap, 3, 1⟩, ⟨"K", .TemporalMap, 2, 1⟩]

/-- A spatial map over `K` followed by an unrolled temporal map over `R` (tile size 3,
dimension size 3): the analyzer state just after `AnalyzeSpatialMapIdx`. -/
def unrolledTemporalState : ClusterUnit :=
  { init 0 4 [⟨"K", .SpatialMap, 1, 1⟩, ⟨"R", .TemporalMap, 3, 3⟩] (sampleDims 16 9 3) with
    upper_spatial_map_idx_ := 0 }

/-- A spatial map over the input rows `Y` with tile size 4 and stride 2, and a temporal
map that keeps the whole filter-row dimension `R` (size 3) resident. -/
def residentFilterDataflow : DirectiveTable :=
  [⟨"Y", .SpatialMap, 4, 2⟩, ⟨"R", .TemporalMap, 3, 3⟩]


/-- Position `i` of the sequence holds a directive of class `SpatialMap`. -/
def isSpatialAt (l : List Directive) (i : Nat) : Prop :=
  ∃ d, l[i]? = some d ∧ d.GetClass = DirectiveClass.SpatialMap

/-- No position `j` with `a <= j < b` of the sequence holds a directive of class
`SpatialMap`. -/
def noSpatialBetween (l : List Directive) (a b : Nat) : Prop :=
  ∀ (j : Nat) (d : Directive), a ≤ j → j < b → l[j]? = some d →
    d.GetClass ≠ DirectiveClass.SpatialMap

/-- The per-directive iteration count of section 4.5 of the specification on the raw
dimension size: `ceil(size / stride)` for a temporal directive and
`ceil(size / (stride * clusterWidth))` for a spatial one. -/
def rawIterations (cluster_size : Int) (dimensions : DimensionTable) (d : Directive) : Int :=
  match d.GetClass with
  | .TemporalMap => ⌈(dimensions.GetSize d.GetVariable : ℚ) / (d.GetOfs : ℚ)⌉
  | .SpatialMap =>
    ⌈(dimensions.GetSize d.GetVariable : ℚ) / ((d.GetOfs : ℚ) * (cluster_size : ℚ))⌉

/-- The advance of one iteration of a directive: its stride for a temporal directive,
its stride times the cluster width for a spatial one. -/
def iterationAdvance (cluster_size : Int) (d : Directive) : Int :=
  match d.GetClass with
  | .TemporalMap => d.GetOfs
  | .SpatialMap => d.GetOfs * cluster_size

/-- An analyzer over the three sample dimensions, none of them flagged overlapped, with
a spatial map over `K` and temporal maps over `Y` and `R`. -/
def plainState : ClusterUnit :=
  init 0 2 [⟨"K", .SpatialMap, 4, 3⟩, ⟨"Y", .TemporalMap, 3, 2⟩, ⟨"R", .TemporalMap, 3, 3⟩]
    { sampleDims 16 9 3 with IsOverlapped := fun _ => false }

/-- The dimension is one of the two designated output dimensions (output width, output
height). -/
def isOutputDim (names : LayerDimNames) (dim : Dimension) : Bool :=
  decide (dim.name = names.layer_dim_output_width_) ||
    decide (dim.name = names.layer_dim_output_height_)

/-- The contribution of a dimension to the partial-output count as the specification
words it: `size - partnerSize + 1` when the dimension is overlapped, not sliding and that
value is positive, and the raw size in every other case. -/
def specContribution (dimensions : DimensionTable) (dim : Dimension) : Int :=
  if dimensions.IsOverlapped dim.name = true ∧ dimensions.IsSlidingDim dim.name = false ∧
      0 < dim.size - dimensions.GetSize (dimensions.GetOverlappingDim dim.name) + 1 then
    dim.size - dimensions.GetSize (dimensions.GetOverlappingDim dim.name) + 1
  else dim.size

/-- A sequence with a temporal map followed by two spatial maps. -/
def twoSpatialDataflow : DirectiveTable :=
  [⟨"K", .TemporalMap, 1, 1⟩, ⟨"Y", .SpatialMap, 3, 1⟩, ⟨"R", .SpatialMap, 3, 3⟩]

/-- An analyzer state just before `AnalyzeMappingSizes`: a spatial map over `K`, an
iterated temporal map over `Y` (position 1, the inner temporal index) and an unrolled
temporal map over `R`. -/
def sampleMappingState : ClusterUnit :=
  { init 0 4 [⟨"K", .SpatialMap, 4, 2⟩, ⟨"Y", .TemporalMap, 3, 1⟩, ⟨"R", .TemporalMap, 3, 3⟩]
      (sampleDims 16 9 3) with
    upper_spatial_map_idx_ := 0
    inner_temporal_map_idx_ := 1 }

/-- The hypotheses on one directive under which its iteration count is computed without
overflow: its dimension is not flagged overlapped, the dimension size lies in
`0 .. INT_MAX`, the stride is at least `1`, and for a spatial directive the `int` product
`stride * clusterWidth` is at most `INT_MAX`. -/
def plainDirective (cu : ClusterUnit) (d : Directive) : Prop :=
  cu.dimensions_.IsOverlapped d.GetVariable = false ∧
    0 ≤ cu.dimensions_.GetSize d.GetVariable ∧
    cu.dimensions_.GetSize d.GetVariable ≤ 2147483647 ∧ 1 ≤ d.GetOfs ∧
    (d.GetClass = DirectiveClass.SpatialMap → d.GetOfs * cu.cluster_size_ ≤ 2147483647)

/-- Three dimensions of size `2^21` each, none flagged overlapped: the product of their
sizes is `2^63`. -/
def largeDims : DimensionTable :=
  { sampleDims 2097152 2097152 2097152 with IsOverlapped := fun _ => false }

/-- An analyzer over `largeDims` with cluster width 1 and unit strides. -/
def largeState : ClusterUnit :=
  { init 0 1 [⟨"K", .SpatialMap, 1, 1⟩, ⟨"Y", .TemporalMap, 1, 1⟩, ⟨"R", .TemporalMap, 1, 1⟩]
      largeDims with
    upper_spatial_map_idx_ := 0 }

/-- A registry that lists the single dimension `Y` of size `INT_MAX`, overlapped by a
dimension `R` whose size is looked up as `0`. -/
def edgeDims : DimensionTable :=
  { sampleDims 1 2147483647 0 with dims := [⟨"Y", 2147483647⟩] }

/-! ## The rounded-up quotient over the integers -/

theorem divRoundUpExact_eq_ediv {a b : Int} (ha : 0 ≤ a) (hb : 0 < b) :
    divRoundUpExact a b = if a % b ≠ 0 then a / b + 1 else a / b := by
  unfold divRoundUpExact
  simp only [Int.tdiv_eq_ediv ha hb.le, Int.tmod_eq_emod ha hb.le]

theorem divRoundUpExact_mul_ge {a b : Int} (ha : 0 ≤ a) (hb : 0 < b) :
    a ≤ divRoundUpExact a b * b := by
  rw [divRoundUpExact_eq_ediv ha hb]
  have h1 := Int.ediv_add_emod a b
  have h2 := Int.emod_nonneg a hb.ne'
  have h3 := Int.emod_lt_of_pos a hb
  split_ifs with h
  · have h4 : (a / b + 1) * b = b * (a / b) + b := by ring
    omega
  · have h0 : a % b = 0 := by simpa using h
    have h4 : a / b * b = b * (a / b) := by ring
    omega

theorem divRoundUpExact_least {a b : Int} (ha : 0 ≤ a) (hb : 0 < b) (m : Int)
    (hm : a ≤ m * b) : divRoundUpExact a b ≤ m := by
  rw [divRoundUpExact_eq_ediv ha hb]
  have h1 := Int.ediv_add_emod a b
  have h2 := Int.emod_nonneg a hb.ne'
  have h3 := Int.emod_lt_of_pos a hb
  split_ifs with h
  · by_contra hlt
    push_neg at hlt
    have h4 : m ≤ a / b := by omega
    have h5 : m * b ≤ a / b * b := Int.mul_le_mul_of_nonneg_right h4 hb.le
    have h6 : a % b ≠ 0 := h
    have : 0 < a % b := lt_of_le_of_ne h2 (Ne.symm h6)
    nlinarith
  · by_contra hlt
    push_neg at hlt
    have h4 : m + 1 ≤ a / b := by omega
    have h5 : (m + 1) * b ≤ a / b * b := Int.mul_le_mul_of_nonneg_right h4 hb.le
    nlinarith

theorem divRoundUpExact_nonneg {a b : Int} (ha : 0 ≤ a) (hb : 0 < b) : 0 ≤ divRoundUpExact a b := by
  rw [divRoundUpExact_eq_ediv ha hb]
  have := Int.ediv_nonneg ha hb.le
  split_ifs <;> omega

theorem divRoundUpExact_eq_ceil {a b : Int} (ha : 0 ≤ a) (hb : 0 < b) :
    divRoundUpExact a b = ⌈(a : ℚ) / (b : ℚ)⌉ := by
  symm
  have hbq : (0 : ℚ) < (b : ℚ) := by exact_mod_cast hb
  apply le_antisymm
  · rw [Int.ceil_le, div_le_iff₀ hbq]
    exact_mod_cast divRoundUpExact_mul_ge ha hb
  · apply divRoundUpExact_least ha hb
    have h := Int.le_ceil ((a : ℚ) / (b : ℚ))
    rw [div_le_iff₀ hbq] at h
    exact_mod_cast h


/-! ## The spatial edge analysis over the integers -/

theorem ediv_eq_of_bounds {x O k : Int} (hO : 0 < O) (h1 : O * k ≤ x) (h2 : x < O * (k + 1)) :
    x / O = k := by
  apply le_antisymm
  · have : x / O < k + 1 := by
      rw [Int.ediv_lt_iff_lt_mul hO]
      linarith [mul_comm O (k + 1)]
    omega
  · rw [Int.le_ediv_iff_mul_le hO]
    linarith [mul_comm O k]

/-- In the multi-sweep branch (`sp_dim_sz > fullCoverageExact`) the three
results are given in closed form by the number `n = (S - T) / O + 1` of tile positions. -/
theorem spatialEdgeCaseExact_multi_sweep {S T O C : Int} (hO : 1 ≤ O) (hC : 1 ≤ C)
    (h : fullCoverageExact T O C < S) :
    spatialEdgeCaseExact S T O C =
      { num_steady_spatial_iterations := ((S - T) / O + 1) / C - 1
        num_edge_spatial_iterations := 1
        num_spatial_edge_clusters :=
          if ((S - T) / O + 1) % C = 0 then 1 else ((S - T) / O + 1) % C } := by
  have hO0 : (0 : Int) < O := by omega
  have hC0 : (0 : Int) < C := by omega
  unfold fullCoverageExact at h
  have hOC : 0 ≤ O * (C - 1) := Int.mul_nonneg hO0.le (by omega)
  have hST : 0 ≤ S - T := by omega
  have e1 : O * ((S - T) / O) + (S - T) % O = S - T := Int.ediv_add_emod (S - T) O
  have r0 : 0 ≤ (S - T) % O := Int.emod_nonneg _ hO0.ne'
  have r1 : (S - T) % O < O := Int.emod_lt_of_pos _ hO0
  have hq : C - 1 ≤ (S - T) / O := by
    rw [Int.le_ediv_iff_mul_le hO0]
    linarith [mul_comm O (C - 1)]
  have e2 : C * (((S - T) / O + 1) / C) + ((S - T) / O + 1) % C = (S - T) / O + 1 :=
    Int.ediv_add_emod _ C
  have b0 : 0 ≤ ((S - T) / O + 1) % C := Int.emod_nonneg _ hC0.ne'
  have b1 : ((S - T) / O + 1) % C < C := Int.emod_lt_of_pos _ hC0
  have ha : 1 ≤ ((S - T) / O + 1) / C := by
    rw [Int.le_ediv_iff_mul_le hC0]
    omega
  have hq0 : 0 ≤ (S - T) / O := by omega
  generalize hqd : (S - T) / O = q at *
  generalize hrd : (S - T) % O = r at *
  generalize had : (q + 1) / C = a at *
  generalize hbd : (q + 1) % C = b at *
  have hsteady : steadyExact S T O C = a - 1 := by
    unfold steadyExact
    rw [Int.tdiv_eq_ediv hST hO0.le, hqd, Int.tdiv_eq_ediv (by omega) hC0.le, had]
  have hrem : remainingExact S O C (a - 1) - T = O * (b - 1) + r := by
    unfold remainingExact
    linear_combination (-1) * e1 + (-O) * e2
  have hedge : (a - 1 + 1) * (O * C) + (O * (C - 1) + T) > S := by
    have h3 : O * b ≤ O * (C - 1) := Int.mul_le_mul_of_nonneg_left (by omega) hO0.le
    have h4 : S = a * (O * C) + O * (b - 1) + r + T := by
      linear_combination (-1) * e1 + (-O) * e2
    have h5 : O * (b - 1) = O * b - O := by ring
    have h6 : (a - 1 + 1) * (O * C) = a * (O * C) := by ring
    omega
  unfold spatialEdgeCaseExact
  simp only [fullCoverageExact, hsteady]
  rw [if_pos (by omega : S > O * (C - 1) + T), if_pos hedge, if_neg (by omega : ¬ S ≤ T)]
  by_cases hb : b = 0
  · have h7 : remainingExact S O C (a - 1) < T := by
      have : O * (b - 1) = -O := by rw [hb]; ring
      omega
    rw [if_pos h7, if_pos hb]
  · have hb1 : 1 ≤ b := by omega
    have h8 : 0 ≤ O * (b - 1) := Int.mul_nonneg hO0.le (by omega)
    have h7 : ¬ remainingExact S O C (a - 1) < T := by omega
    rw [if_neg h7, if_neg hb, hrem, Int.tdiv_eq_ediv (by omega) hO0.le]
    have h9 : (O * (b - 1) + r) / O = b - 1 := by
      apply ediv_eq_of_bounds hO0
      · omega
      · have : O * (b - 1 + 1) = O * (b - 1) + O := by ring
        omega
    rw [h9]
    congr 1
    omega

/-- In the single-sweep branch (`sp_dim_sz <= fullCoverageExact`) the three
results are given in closed form. -/
theorem spatialEdgeCaseExact_single_sweep {S T O C : Int} (hO : 1 ≤ O)
    (h : S ≤ fullCoverageExact T O C) :
    spatialEdgeCaseExact S T O C =
      { num_steady_spatial_iterations := 0
        num_edge_spatial_iterations := 1
        num_spatial_edge_clusters :=
          if S ≤ T then 1
          else if (S - T) % O = 0 then (S - T) / O + 1 else (S - T) / O + 2 } := by
  have hO0 : (0 : Int) < O := by omega
  unfold spatialEdgeCaseExact
  dsimp only
  rw [if_neg (by omega : ¬ S > fullCoverageExact T O C)]
  by_cases hST : S ≤ T
  · rw [if_neg (by omega : ¬ S > T), if_pos hST, if_pos hST]
  · rw [if_pos (by omega : S > T), if_neg hST, if_neg hST]
    have e1 : O * ((S - T) / O) + (S - T) % O = S - T := Int.ediv_add_emod (S - T) O
    have r0 : 0 ≤ (S - T) % O := Int.emod_nonneg _ hO0.ne'
    simp only [Int.tdiv_eq_ediv (by omega : 0 ≤ S - T) hO0.le]
    have e3 : O * ((S - T) / O + 1 - 1) = O * ((S - T) / O) := by ring_nf
    rw [e3]
    by_cases hr : (S - T) % O = 0
    · rw [if_neg (by omega), if_pos hr]
    · rw [if_pos (by omega), if_neg hr]
      congr 1
      omega


theorem spatialEdgeCaseExact_clusters_bounds {S T O C : Int} (hO : 1 ≤ O) (hC : 1 ≤ C) :
    1 ≤ (spatialEdgeCaseExact S T O C).num_spatial_edge_clusters ∧
      (spatialEdgeCaseExact S T O C).num_spatial_edge_clusters ≤ C := by
  have hO0 : (0 : Int) < O := by omega
  have hC0 : (0 : Int) < C := by omega
  by_cases h : fullCoverageExact T O C < S
  · rw [spatialEdgeCaseExact_multi_sweep hO hC h]
    have b0 : 0 ≤ ((S - T) / O + 1) % C := Int.emod_nonneg _ hC0.ne'
    have b1 : ((S - T) / O + 1) % C < C := Int.emod_lt_of_pos _ hC0
    dsimp only
    split_ifs <;> omega
  · rw [spatialEdgeCaseExact_single_sweep hO (by omega)]
    dsimp only
    unfold fullCoverageExact at h
    by_cases hST : S ≤ T
    · rw [if_pos hST]
      omega
    · rw [if_neg hST]
      have e1 : O * ((S - T) / O) + (S - T) % O = S - T := Int.ediv_add_emod (S - T) O
      have r0 : 0 ≤ (S - T) % O := Int.emod_nonneg _ hO0.ne'
      have q0 : 0 ≤ (S - T) / O := Int.ediv_nonneg (by omega) hO0.le
      have hle : S - T ≤ O * (C - 1) := by omega
      by_cases hr : (S - T) % O = 0
      · rw [if_pos hr]
        have : (S - T) / O < C := by
          rw [Int.ediv_lt_iff_lt_mul hO0]
          have : C * O = O * (C - 1) + O := by ring
          omega
        omega
      · rw [if_neg hr]
        have hne : S - T ≠ O * (C - 1) := by
          intro heq
          apply hr
          rw [heq]
          exact Int.mul_emod_right O (C - 1)
        have : (S - T) / O < C - 1 := by
          rw [Int.ediv_lt_iff_lt_mul hO0]
          have : (C - 1) * O = O * (C - 1) := by ring
          omega
        omega

theorem spatialEdgeCaseExact_clamp {S T : Int} (O C : Int) (h : S ≤ T) :
    (spatialEdgeCaseExact S T O C).num_spatial_edge_clusters = 1 := by
  unfold spatialEdgeCaseExact
  dsimp only
  rw [if_pos h]

theorem spatialEdgeCaseExact_exact_tiling {O C : Int} (hO : 1 ≤ O) (hC : 1 ≤ C) :
    spatialEdgeCaseExact (O * C) O O C =
      { num_steady_spatial_iterations := 0
        num_edge_spatial_iterations := 1
        num_spatial_edge_clusters := C } := by
  have hO0 : (0 : Int) < O := by omega
  have hfull : fullCoverageExact O O C = O * C := by
    unfold fullCoverageExact
    ring
  rw [spatialEdgeCaseExact_single_sweep hO (by rw [hfull])]
  have hsub : O * C - O = O * (C - 1) := by ring
  by_cases hC1 : C = 1
  · subst hC1
    simp
  · have hlt : ¬ O * C ≤ O := by
      have : O * 1 < O * C := Int.mul_lt_mul_of_pos_left (by omega) hO0
      omega
    rw [if_neg hlt, hsub, Int.mul_emod_right, if_pos rfl, Int.mul_ediv_cancel_left _ hO0.ne']
    congr 1
    omega

theorem divRoundUpExact_self {b : Int} (hb : 1 ≤ b) : divRoundUpExact b b = 1 := by
  rw [divRoundUpExact_eq_ediv (by omega) (by omega), Int.emod_self, Int.ediv_self (by omega)]
  simp



theorem spatialEdgeCaseExact_edge_iterations {S T O C : Int} (hO : 1 ≤ O) (hC : 1 ≤ C) :
    (spatialEdgeCaseExact S T O C).num_edge_spatial_iterations = 1 := by
  by_cases h : fullCoverageExact T O C < S
  · rw [spatialEdgeCaseExact_multi_sweep hO hC h]
  · rw [spatialEdgeCaseExact_single_sweep hO (by omega)]

theorem steadyExact_eq_floor {S T O C : Int} (hO : 1 ≤ O) (hC : 1 ≤ C)
    (h : fullCoverageExact T O C < S) :
    steadyExact S T O C = ((S - T) / O + 1) / C - 1 := by
  unfold fullCoverageExact at h
  have hOC : 0 ≤ O * (C - 1) := Int.mul_nonneg (by omega) (by omega)
  have hq : 0 ≤ (S - T) / O := Int.ediv_nonneg (by omega) (by omega)
  have e1 : (S - T).tdiv O = (S - T) / O := Int.tdiv_eq_ediv (by omega) (by omega)
  unfold steadyExact
  rw [e1, Int.tdiv_eq_ediv (by omega) (by omega)]

/-- Over the integers, in the multi-sweep branch the test of line 294 holds. -/
theorem multi_sweep_edge_test {S T O C : Int} (hO : 1 ≤ O) (hC : 1 ≤ C)
    (h : fullCoverageExact T O C < S) :
    (steadyExact S T O C + 1) * (O * C) + fullCoverageExact T O C > S := by
  by_contra hneg
  have h1 := spatialEdgeCaseExact_edge_iterations (S := S) (T := T) hO hC
  unfold spatialEdgeCaseExact at h1
  dsimp only at h1
  rw [if_pos h, if_neg hneg] at h1
  have hST : ¬ S ≤ T := by
    unfold fullCoverageExact at h
    have hOC : 0 ≤ O * (C - 1) := Int.mul_nonneg (by omega) (by omega)
    omega
  rw [if_neg hST] at h1
  split_ifs at h1 <;> simp at h1


/-- The steady count against the rounded-up number of sweeps, for `S, T, O, C >= 1`. -/
theorem spatialEdgeCaseExact_steady_bounds {S T O C : Int} (hS : 1 ≤ S) (hT : 1 ≤ T)
    (hO : 1 ≤ O) (hC : 1 ≤ C) :
    0 ≤ (spatialEdgeCaseExact S T O C).num_steady_spatial_iterations ∧
      (spatialEdgeCaseExact S T O C).num_steady_spatial_iterations ≤ divRoundUpExact S (O * C) - 1 := by
  have hO0 : (0 : Int) < O := by omega
  have hC0 : (0 : Int) < C := by omega
  have hOC : 0 < O * C := Int.mul_pos hO0 hC0
  have hN := divRoundUpExact_mul_ge (by omega : 0 ≤ S) hOC
  by_cases h : fullCoverageExact T O C < S
  · rw [spatialEdgeCaseExact_multi_sweep hO hC h]
    dsimp only
    unfold fullCoverageExact at h
    have hOC1 : 0 ≤ O * (C - 1) := Int.mul_nonneg hO0.le (by omega)
    have e1 : O * ((S - T) / O) + (S - T) % O = S - T := Int.ediv_add_emod (S - T) O
    have r0 : 0 ≤ (S - T) % O := Int.emod_nonneg _ hO0.ne'
    have hq : C - 1 ≤ (S - T) / O := by
      rw [Int.le_ediv_iff_mul_le hO0]
      linarith [mul_comm O (C - 1)]
    have e2 : C * (((S - T) / O + 1) / C) + ((S - T) / O + 1) % C = (S - T) / O + 1 :=
      Int.ediv_add_emod _ C
    have b0 : 0 ≤ ((S - T) / O + 1) % C := Int.emod_nonneg _ hC0.ne'
    have ha : 1 ≤ ((S - T) / O + 1) / C := by
      rw [Int.le_ediv_iff_mul_le hC0]
      omega
    generalize (S - T) / O = q at *
    generalize (S - T) % O = r at *
    generalize (q + 1) / C = a at *
    generalize (q + 1) % C = b at *
    generalize divRoundUpExact S (O * C) = N at *
    refine ⟨by omega, ?_⟩
    by_contra hlt
    have haN : N + 1 ≤ a := by omega
    have h1 : C * (N + 1) ≤ C * a := Int.mul_le_mul_of_nonneg_left haN hC0.le
    have h2 : O * (C * (N + 1) - 1) ≤ O * q :=
      Int.mul_le_mul_of_nonneg_left (by omega) hO0.le
    have h3 : O * (C * (N + 1) - 1) = N * (O * C) + O * (C - 1) := by ring
    omega
  · rw [spatialEdgeCaseExact_single_sweep hO (by omega)]
    dsimp only
    refine ⟨le_refl 0, ?_⟩
    by_contra hlt
    have hN0 : divRoundUpExact S (O * C) ≤ 0 := by omega
    have : divRoundUpExact S (O * C) * (O * C) ≤ 0 * (O * C) :=
      Int.mul_le_mul_of_nonneg_right hN0 hOC.le
    omega


/-! ## Wrap-around and faults -/

theorem wrapInt_of_range {x : Int} (h1 : -2147483648 ≤ x) (h2 : x ≤ 2147483647) :
    wrapInt x = x := by
  unfold wrapInt
  omega

theorem wrapInt_ge (x : Int) : -2147483648 ≤ wrapInt x := by
  unfold wrapInt
  omega

theorem wrapInt_le (x : Int) : wrapInt x ≤ 2147483647 := by
  unfold wrapInt
  omega

theorem wrapInt_congr {x y : Int} (h : x % 4294967296 = y % 4294967296) :
    wrapInt x = wrapInt y := by
  unfold wrapInt
  omega

theorem wrapInt_emod (x : Int) : wrapInt x % 4294967296 = x % 4294967296 := by
  unfold wrapInt
  omega

theorem wrapInt_mul_left (a b : Int) : wrapInt (wrapInt a * b) = wrapInt (a * b) := by
  apply wrapInt_congr
  rw [Int.mul_emod, wrapInt_emod, ← Int.mul_emod]

theorem wrapInt_mul_right (a b : Int) : wrapInt (a * wrapInt b) = wrapInt (a * b) := by
  apply wrapInt_congr
  rw [Int.mul_emod, wrapInt_emod, ← Int.mul_emod]

theorem wrapInt_add_left (a b : Int) : wrapInt (wrapInt a + b) = wrapInt (a + b) := by
  unfold wrapInt
  omega

theorem wrapInt_sub_right (a b : Int) : wrapInt (a - wrapInt b) = wrapInt (a - b) := by
  unfold wrapInt
  omega

theorem wrapInt_sub_left (a b : Int) : wrapInt (wrapInt a - b) = wrapInt (a - b) := by
  unfold wrapInt
  omega

theorem wrapLong_of_range {x : Int} (h1 : -9223372036854775808 ≤ x)
    (h2 : x ≤ 9223372036854775807) : wrapLong x = x := by
  unfold wrapLong
  omega

theorem wrapLong_congr {x y : Int}
    (h : x % 18446744073709551616 = y % 18446744073709551616) :
    wrapLong x = wrapLong y := by
  unfold wrapLong
  omega

theorem wrapLong_emod (x : Int) :
    wrapLong x % 18446744073709551616 = x % 18446744073709551616 := by
  unfold wrapLong
  omega

theorem wrapLong_mul_left (a b : Int) : wrapLong (wrapLong a * b) = wrapLong (a * b) := by
  apply wrapLong_congr
  rw [Int.mul_emod, wrapLong_emod, ← Int.mul_emod]

theorem intDiv_of_pos (a : Int) {b : Int} (hb : 1 ≤ b) : intDiv a b = .ok (a.tdiv b) := by
  unfold intDiv
  rw [if_neg (by omega)]

theorem intMod_of_pos (a : Int) {b : Int} (hb : 1 ≤ b) : intMod a b = .ok (a.tmod b) := by
  unfold intMod
  rw [if_neg (by omega)]

/-- A truncated quotient by a positive divisor lies between zero and the dividend. -/
theorem tdiv_between (x : Int) {y : Int} (hy : 1 ≤ y) :
    (0 ≤ x → 0 ≤ x.tdiv y ∧ x.tdiv y ≤ x) ∧ (x ≤ 0 → x ≤ x.tdiv y ∧ x.tdiv y ≤ 0) := by
  have key : ∀ z : Int, 0 ≤ z → 0 ≤ z.tdiv y ∧ z.tdiv y ≤ z := by
    intro z hz
    rw [Int.tdiv_eq_ediv hz (by omega)]
    exact ⟨Int.ediv_nonneg hz (by omega), Int.ediv_le_self y hz⟩
  refine ⟨key x, fun hx => ?_⟩
  have h := key (-x) (by omega)
  rw [Int.neg_tdiv] at h
  omega

/-- With a dividend in `0 .. INT_MAX` and a positive divisor the rounded-up quotient of
the code is the one over the integers. -/
theorem divRoundUp_eq_exact {a b : Int} (ha : 0 ≤ a) (ha' : a ≤ 2147483647) (hb : 1 ≤ b) :
    divRoundUp a b = .ok (divRoundUpExact a b) := by
  have hq := (tdiv_between a hb).1 ha
  have h1 : b * a.tdiv b + a.tmod b = a := Int.tdiv_add_tmod a b
  have hr : 0 ≤ a.tmod b := by
    rw [Int.tmod_eq_emod ha (by omega)]
    exact Int.emod_nonneg a (by omega)
  have hbq : a.tdiv b ≤ b * a.tdiv b := by
    have := Int.mul_le_mul_of_nonneg_right hb hq.1
    omega
  unfold divRoundUp divRoundUpExact
  rw [intDiv_of_pos a hb, intMod_of_pos a hb]
  dsimp only
  by_cases hne : a.tmod b ≠ 0
  · rw [if_pos hne, if_pos hne, wrapInt_of_range (by omega) (by omega)]
  · rw [if_neg hne, if_neg hne]

/-- The differences of lines 262-263 of `AnalyzeMappingSizes` do not wrap: for a tile
size and a stride in `1 .. INT_MAX`, `T - O`, `T - T` and `T - 0` are their own `int`
values. -/
theorem mappingSizes_differences_representable {T O : Int} (hT : 1 ≤ T)
    (hT' : T ≤ 2147483647) (hO : 1 ≤ O) (hO' : O ≤ 2147483647) :
    wrapInt (T - O) = T - O ∧ wrapInt (T - T) = T - T ∧ wrapInt (T - 0) = T - 0 :=
  ⟨wrapInt_of_range (by omega) (by omega), wrapInt_of_range (by omega) (by omega),
    wrapInt_of_range (by omega) (by omega)⟩


/-! ## The spatial edge analysis of the code against the integers -/

theorem wrapInt_add_right (a b : Int) : wrapInt (a + wrapInt b) = wrapInt (a + b) := by
  unfold wrapInt
  omega

theorem wrapInt_wrapInt (a : Int) : wrapInt (wrapInt a) = wrapInt a := by
  unfold wrapInt
  omega

theorem emod_wrapInt_mul (a b : Int) :
    (wrapInt a * b) % 4294967296 = (a * b) % 4294967296 := by
  rw [Int.mul_emod, wrapInt_emod, ← Int.mul_emod]

theorem emod_mul_wrapInt (a b : Int) :
    (a * wrapInt b) % 4294967296 = (a * b) % 4294967296 := by
  rw [Int.mul_emod, wrapInt_emod, ← Int.mul_emod]

theorem each_sp_iter_full_coverage_eq_wrap (T O C : Int) :
    each_sp_iter_full_coverage T O C = wrapInt (fullCoverageExact T O C) := by
  unfold each_sp_iter_full_coverage fullCoverageExact
  rw [wrapInt_add_left]
  apply wrapInt_congr
  have h1 := emod_mul_wrapInt O (C - 1)
  omega

theorem steadyMultiSweep_eq_exact {S T O C : Int} (hS : 1 ≤ S) (hS' : S ≤ 2147483647)
    (hT : 1 ≤ T) (hT' : T ≤ 2147483647) (hO : 1 ≤ O) (hC : 1 ≤ C) :
    steadyMultiSweep S T O C = .ok (steadyExact S T O C) := by
  have hq := tdiv_between (S - T) hO
  have ha := tdiv_between ((S - T).tdiv O + 1) hC
  unfold steadyMultiSweep steadyExact
  rw [wrapInt_of_range (by omega : -2147483648 ≤ S - T) (by omega), intDiv_of_pos _ hO]
  dsimp only
  rw [wrapInt_of_range (by omega : -2147483648 ≤ (S - T).tdiv O + 1) (by omega),
    intDiv_of_pos _ hC]
  dsimp only
  rw [wrapInt_of_range (by omega) (by omega)]

theorem steadyExact_range {S T O C : Int} (hS : 1 ≤ S) (hS' : S ≤ 2147483647)
    (hT : 1 ≤ T) (hT' : T ≤ 2147483647) (hO : 1 ≤ O) (hC : 1 ≤ C) :
    -2147483648 ≤ steadyExact S T O C ∧ steadyExact S T O C + 1 ≤ 2147483647 := by
  have hq := tdiv_between (S - T) hO
  have ha := tdiv_between ((S - T).tdiv O + 1) hC
  unfold steadyExact
  omega

theorem remaining_items_eq_wrap (S O C steady : Int) :
    remaining_items S O C steady = wrapInt (remainingExact S O C steady) := by
  unfold remaining_items remainingExact
  rw [wrapInt_sub_right, wrapInt_mul_left]
  apply wrapInt_congr
  have h := emod_wrapInt_mul ((steady + 1) * O) C
  omega

theorem edge_test_eq_wrap (T O C steady : Int) :
    wrapInt (wrapInt (wrapInt (steady + 1) * wrapInt (O * C)) +
        each_sp_iter_full_coverage T O C) =
      wrapInt ((steady + 1) * (O * C) + fullCoverageExact T O C) := by
  rw [each_sp_iter_full_coverage_eq_wrap, wrapInt_add_right, wrapInt_add_left]
  apply wrapInt_congr
  have h1 := emod_mul_wrapInt (wrapInt (steady + 1)) (O * C)
  have h2 := emod_wrapInt_mul (steady + 1) (O * C)
  omega

/-- The multi-sweep branch of the code for `S, T` in `1 .. INT_MAX` and `O, C >= 1`: no
fault; the steady count is the one over the integers; the remaining items and the sum of
line 294 are the wrapped values of the ones over the integers. -/
theorem multiSweepCase_eq {S T O C : Int} (hS : 1 ≤ S) (hS' : S ≤ 2147483647)
    (hT : 1 ≤ T) (hT' : T ≤ 2147483647) (hO : 1 ≤ O) (hC : 1 ≤ C) :
    multiSweepCase S T O C =
      .ok { num_steady_spatial_iterations := steadyExact S T O C
            num_edge_spatial_iterations :=
              if wrapInt ((steadyExact S T O C + 1) * (O * C) + fullCoverageExact T O C) > S
              then 1 else 0
            num_spatial_edge_clusters :=
              if wrapInt (remainingExact S O C (steadyExact S T O C)) < T then 1
              else (wrapInt (remainingExact S O C (steadyExact S T O C)) - T).tdiv O + 1 } := by
  unfold multiSweepCase
  rw [steadyMultiSweep_eq_exact hS hS' hT hT' hO hC]
  dsimp only
  rw [edge_test_eq_wrap, remaining_items_eq_wrap]
  have hR1 := wrapInt_ge (remainingExact S O C (steadyExact S T O C))
  have hR2 := wrapInt_le (remainingExact S O C (steadyExact S T O C))
  generalize wrapInt (remainingExact S O C (steadyExact S T O C)) = R at *
  by_cases hlt : R < T
  · rw [if_pos hlt, if_pos hlt]
  · rw [if_neg hlt, if_neg hlt, wrapInt_of_range (by omega : -2147483648 ≤ R - T) (by omega),
      intDiv_of_pos _ hO]
    dsimp only
    have hq := (tdiv_between (R - T) hO).1 (by omega)
    rw [wrapInt_of_range (x := (R - T).tdiv O + 1) (by omega) (by omega)]

/-- The single-sweep branch of the code for `T >= 1`, `S <= INT_MAX`, `O >= 1`: no
fault, and the count of the integers. -/
theorem singleSweepCase_eq {S T O : Int} (hS' : S ≤ 2147483647) (hT : 1 ≤ T) (hO : 1 ≤ O) :
    singleSweepCase S T O =
      .ok { num_steady_spatial_iterations := 0
            num_edge_spatial_iterations := 1
            num_spatial_edge_clusters :=
              if S ≤ T then 1
              else if (S - T) % O = 0 then (S - T) / O + 1 else (S - T) / O + 2 } := by
  have hO0 : (0 : Int) < O := by omega
  unfold singleSweepCase
  by_cases hST : S ≤ T
  · rw [if_neg (by omega : ¬ S > T), if_pos hST]
  · rw [if_pos (by omega : S > T), if_neg hST,
      wrapInt_of_range (by omega : -2147483648 ≤ S - T) (by omega), intDiv_of_pos _ hO]
    dsimp only
    have e1 : O * ((S - T) / O) + (S - T) % O = S - T := Int.ediv_add_emod (S - T) O
    have r0 : 0 ≤ (S - T) % O := Int.emod_nonneg _ hO0.ne'
    have q0 : 0 ≤ (S - T) / O := Int.ediv_nonneg (by omega) hO0.le
    have hqle : (S - T) / O ≤ O * ((S - T) / O) := by
      have := Int.mul_le_mul_of_nonneg_right hO q0
      omega
    rw [Int.tdiv_eq_ediv (by omega : 0 ≤ S - T) hO0.le,
      wrapInt_of_range (by omega : -2147483648 ≤ (S - T) / O + 1) (by omega)]
    have e3 : (S - T) / O + 1 - 1 = (S - T) / O := by ring
    rw [e3, wrapInt_of_range (by omega : -2147483648 ≤ (S - T) / O) (by omega),
      wrapInt_of_range (by omega : -2147483648 ≤ O * ((S - T) / O)) (by omega),
      wrapInt_of_range (by omega : -2147483648 ≤ O * ((S - T) / O) + T) (by omega)]
    by_cases hr : (S - T) % O = 0
    · rw [if_neg (by omega), if_pos hr]
    · rw [if_pos (by omega), if_neg hr, wrapInt_of_range (by omega) (by omega)]
      congr 2
      omega


theorem fullCoverageExact_pos (T : Int) {O C : Int} (hO : 1 ≤ O) (hC : 1 ≤ C) :
    T ≤ fullCoverageExact T O C := by
  unfold fullCoverageExact
  have : 0 ≤ O * (C - 1) := Int.mul_nonneg (by omega) (by omega)
  omega

/-- The code takes the single-sweep branch only when the dimension fits the span of one
sweep over the integers. -/
theorem le_fullCoverageExact_of_single_branch {S T O C : Int} (hS' : S ≤ 2147483647)
    (hT : 1 ≤ T) (hO : 1 ≤ O) (hC : 1 ≤ C)
    (hbr : ¬ S > each_sp_iter_full_coverage T O C) : S ≤ fullCoverageExact T O C := by
  rw [each_sp_iter_full_coverage_eq_wrap] at hbr
  have hF := fullCoverageExact_pos T hO hC
  by_cases hfit : fullCoverageExact T O C ≤ 2147483647
  · rw [wrapInt_of_range (by omega) hfit] at hbr
    omega
  · omega

/-- With `O, C >= 1` no division of `AnalyzeSpatialEdgeCase` faults. -/
theorem spatialEdgeCase_returns (S T : Int) {O C : Int} (hO : 1 ≤ O) (hC : 1 ≤ C) :
    ∃ r, spatialEdgeCase S T O C = .ok r ∧
      (S ≤ T → r.num_spatial_edge_clusters = 1) := by
  have hbranch : ∃ r, (if S > each_sp_iter_full_coverage T O C then multiSweepCase S T O C
      else singleSweepCase S T O) = .ok r := by
    by_cases hbr : S > each_sp_iter_full_coverage T O C
    · rw [if_pos hbr]
      unfold multiSweepCase steadyMultiSweep
      rw [intDiv_of_pos _ hO]
      dsimp only
      rw [intDiv_of_pos _ hC]
      dsimp only
      split_ifs
      all_goals first
        | exact ⟨_, rfl⟩
        | (rw [intDiv_of_pos _ hO]; exact ⟨_, rfl⟩)
    · rw [if_neg hbr]
      unfold singleSweepCase
      split_ifs
      all_goals first
        | exact ⟨_, rfl⟩
        | (rw [intDiv_of_pos _ hO]; exact ⟨_, rfl⟩)
  obtain ⟨r, hr⟩ := hbranch
  unfold spatialEdgeCase
  dsimp only
  rw [hr]
  dsimp only
  by_cases hST : S ≤ T
  · rw [if_pos hST]
    exact ⟨_, rfl, fun _ => rfl⟩
  · rw [if_neg hST]
    exact ⟨_, rfl, fun h => absurd h hST⟩

/-- The result of the code when it takes the single-sweep branch. -/
theorem spatialEdgeCase_single_branch {S T O C : Int} (hS' : S ≤ 2147483647) (hT : 1 ≤ T)
    (hO : 1 ≤ O) (hC : 1 ≤ C) (hbr : ¬ S > each_sp_iter_full_coverage T O C) :
    spatialEdgeCase S T O C = .ok (spatialEdgeCaseExact S T O C) := by
  have hle := le_fullCoverageExact_of_single_branch hS' hT hO hC hbr
  unfold spatialEdgeCase
  dsimp only
  rw [if_neg hbr, singleSweepCase_eq hS' hT hO, spatialEdgeCaseExact_single_sweep hO hle]
  dsimp only
  by_cases hST : S ≤ T
  · simp only [if_pos hST]
  · simp only [if_neg hST]

/-- Over the integers, in the multi-sweep branch the remaining items lie between
`T - O` and `S`. -/
theorem remainingExact_between {S T O C : Int} (hO : 1 ≤ O) (hC : 1 ≤ C)
    (h : fullCoverageExact T O C < S) :
    T - O ≤ remainingExact S O C (steadyExact S T O C) ∧
      remainingExact S O C (steadyExact S T O C) ≤ S := by
  have hO0 : (0 : Int) < O := by omega
  have hC0 : (0 : Int) < C := by omega
  rw [steadyExact_eq_floor hO hC h]
  unfold fullCoverageExact at h
  have hOC : 0 ≤ O * (C - 1) := Int.mul_nonneg hO0.le (by omega)
  have hq0 : 0 ≤ (S - T) / O := Int.ediv_nonneg (by omega) hO0.le
  have ha0 : 0 ≤ ((S - T) / O + 1) / C := Int.ediv_nonneg (by omega) hC0.le
  have h1 : ((S - T) / O + 1) / C * C ≤ (S - T) / O + 1 := Int.ediv_mul_le _ hC0.ne'
  have h2 : (S - T) / O * O ≤ S - T := Int.ediv_mul_le _ hO0.ne'
  have h3 : ((S - T) / O + 1) / C * C * O ≤ ((S - T) / O + 1) * O :=
    Int.mul_le_mul_of_nonneg_right h1 hO0.le
  have h4 : ((S - T) / O + 1) * O = (S - T) / O * O + O := by ring
  have h5 : 0 ≤ ((S - T) / O + 1) / C * C * O :=
    Int.mul_nonneg (Int.mul_nonneg ha0 hC0.le) hO0.le
  have h6 : remainingExact S O C (((S - T) / O + 1) / C - 1) =
      S - ((S - T) / O + 1) / C * C * O := by
    unfold remainingExact
    ring
  rw [h6]
  omega

/-- The result of the code when the dimension exceeds the span of one sweep over the
integers: the steady count and the edge-cluster count are those over the integers; the
edge-iteration flag is decided by the wrapped sum of line 294. -/
theorem spatialEdgeCase_true_multi {S T O C : Int} (hS' : S ≤ 2147483647) (hT : 1 ≤ T)
    (hO : 1 ≤ O) (hO' : O ≤ 2147483647) (hC : 1 ≤ C) (h : fullCoverageExact T O C < S) :
    spatialEdgeCase S T O C =
      .ok { num_steady_spatial_iterations :=
              (spatialEdgeCaseExact S T O C).num_steady_spatial_iterations
            num_edge_spatial_iterations :=
              if wrapInt ((steadyExact S T O C + 1) * (O * C) + fullCoverageExact T O C) > S
              then 1 else 0
            num_spatial_edge_clusters :=
              (spatialEdgeCaseExact S T O C).num_spatial_edge_clusters } := by
  have hF := fullCoverageExact_pos T hO hC
  have hST : ¬ S ≤ T := by omega
  have hrem := remainingExact_between hO hC h
  have hfull : each_sp_iter_full_coverage T O C = fullCoverageExact T O C := by
    rw [each_sp_iter_full_coverage_eq_wrap, wrapInt_of_range (by omega) (by omega)]
  have hR : wrapInt (remainingExact S O C (steadyExact S T O C)) =
      remainingExact S O C (steadyExact S T O C) :=
    wrapInt_of_range (by omega) (by omega)
  unfold spatialEdgeCase spatialEdgeCaseExact
  dsimp only
  rw [hfull, if_pos h, if_pos h,
    multiSweepCase_eq (by omega) hS' hT (by omega) hO hC, hR]
  dsimp only
  rw [if_neg hST, if_neg hST]
  split_ifs <;> rfl

/-- The edge-cluster count of the code for `S, T, O, C` in `1 .. INT_MAX`. -/
theorem spatialEdgeCase_clusters_bounds {S T O C : Int} (hS : 1 ≤ S) (hS' : S ≤ 2147483647)
    (hT : 1 ≤ T) (hT' : T ≤ 2147483647) (hO : 1 ≤ O) (hO' : O ≤ 2147483647) (hC : 1 ≤ C) :
    ∃ r, spatialEdgeCase S T O C = .ok r ∧ 1 ≤ r.num_spatial_edge_clusters ∧
      r.num_spatial_edge_clusters ≤ C := by
  have hO0 : (0 : Int) < O := by omega
  by_cases hbr : S > each_sp_iter_full_coverage T O C
  · by_cases hST : S ≤ T
    · obtain ⟨r, hr, h1⟩ := spatialEdgeCase_returns S T hO hC
      exact ⟨r, hr, by rw [h1 hST], by rw [h1 hST]; exact hC⟩
    · by_cases htrue : fullCoverageExact T O C < S
      · refine ⟨_, spatialEdgeCase_true_multi hS' hT hO hO' hC htrue, ?_, ?_⟩
        · exact (spatialEdgeCaseExact_clusters_bounds hO hC).1
        · exact (spatialEdgeCaseExact_clusters_bounds hO hC).2
      · -- the span of one sweep is not representable: its wrapped value is below `S`
        have hres : spatialEdgeCase S T O C =
            .ok { num_steady_spatial_iterations := steadyExact S T O C
                  num_edge_spatial_iterations :=
                    if wrapInt ((steadyExact S T O C + 1) * (O * C) +
                        fullCoverageExact T O C) > S then 1 else 0
                  num_spatial_edge_clusters :=
                    if wrapInt (remainingExact S O C (steadyExact S T O C)) < T then 1
                    else (wrapInt (remainingExact S O C (steadyExact S T O C)) - T).tdiv O +
                      1 } := by
          unfold spatialEdgeCase
          dsimp only
          rw [if_pos hbr, multiSweepCase_eq hS hS' hT hT' hO hC]
          dsimp only
          rw [if_neg hST]
        refine ⟨_, hres, ?_, ?_⟩
        · dsimp only
          split_ifs with hlt
          · omega
          · have := (tdiv_between (wrapInt (remainingExact S O C (steadyExact S T O C)) - T)
              hO).1 (by omega)
            omega
        · dsimp only
          split_ifs with hlt
          · exact hC
          · by_cases hOC : O * C ≤ 2147483647
            · -- the steady count is -1 and nothing has been subtracted from `S`
              have hFS : S ≤ fullCoverageExact T O C := by omega
              unfold fullCoverageExact at hFS
              have e1 : O * ((S - T) / O) + (S - T) % O = S - T := Int.ediv_add_emod (S - T) O
              have r0 : 0 ≤ (S - T) % O := Int.emod_nonneg _ hO0.ne'
              have q0 : 0 ≤ (S - T) / O := Int.ediv_nonneg (by omega) hO0.le
              have hfullwrap : ¬ fullCoverageExact T O C ≤ 2147483647 := by
                intro hfit
                rw [each_sp_iter_full_coverage_eq_wrap,
                  wrapInt_of_range (by have := fullCoverageExact_pos T hO hC; omega) hfit] at hbr
                omega
              unfold fullCoverageExact at hfullwrap
              have hqlt : (S - T) / O < C - 1 := by
                rw [Int.ediv_lt_iff_lt_mul hO0]
                have : (C - 1) * O = O * (C - 1) := by ring
                omega
              have ha : ((S - T) / O + 1).tdiv C = 0 :=
                Int.tdiv_eq_zero_of_lt (by omega) (by omega)
              have hsteady : steadyExact S T O C = -1 := by
                unfold steadyExact
                rw [Int.tdiv_eq_ediv (by omega) hO0.le, ha]
                rfl
              have hrem : remainingExact S O C (steadyExact S T O C) = S := by
                rw [hsteady]
                unfold remainingExact
                ring
              rw [hrem, wrapInt_of_range (by omega) (by omega),
                Int.tdiv_eq_ediv (by omega) hO0.le]
              omega
            · -- the advance of one sweep exceeds every `int`
              have hR2 := wrapInt_le (remainingExact S O C (steadyExact S T O C))
              generalize wrapInt (remainingExact S O C (steadyExact S T O C)) = R at *
              rw [Int.tdiv_eq_ediv (by omega) hO0.le]
              have : (R - T) / O < C := by
                rw [Int.ediv_lt_iff_lt_mul hO0]
                have : C * O = O * C := by ring
                omega
              omega
  · refine ⟨_, spatialEdgeCase_single_branch hS' hT hO hC hbr, ?_, ?_⟩
    · exact (spatialEdgeCaseExact_clusters_bounds hO hC).1
    · exact (spatialEdgeCaseExact_clusters_bounds hO hC).2


/-! ## Spatial iteration count and edge analysis on the analyzer state -/

theorem AnalyzeNumSpatialIterations_eq (cu : ClusterUnit) (d : Directive)
    (hat : DirectiveTable.at? cu.dataflow_ cu.upper_spatial_map_idx_ = some d) (n : Int)
    (hn : divRoundUp (cu.dimensions_.GetSize d.GetVariable)
      (wrapInt (d.GetOfs * cu.cluster_size_)) = .ok n) :
    AnalyzeNumSpatialIterations cu = .ok { cu with num_spatial_iterations_ := n } := by
  simp only [AnalyzeNumSpatialIterations, hat, hn]

theorem AnalyzeSpatialEdgeCase_eq (cu : ClusterUnit) (d : Directive)
    (hat : DirectiveTable.at? cu.dataflow_ cu.upper_spatial_map_idx_ = some d) (r : EdgeCase)
    (hr : spatialEdgeCase (cu.dimensions_.GetSize d.GetVariable) d.GetSize d.GetOfs
      cu.cluster_size_ = .ok r) :
    AnalyzeSpatialEdgeCase cu =
      .ok { cu with
        num_steady_spatial_iterations_ := r.num_steady_spatial_iterations
        num_edge_spatial_iterations_ := r.num_edge_spatial_iterations
        num_spatial_edge_clusters_ := r.num_spatial_edge_clusters } := by
  simp only [AnalyzeSpatialEdgeCase, hat, hr]

/-- With a representable product `O * C` the stored count is the rounded-up quotient
over the integers. -/
theorem AnalyzeNumSpatialIterations_eq_exact (cu : ClusterUnit) (d : Directive)
    (hat : DirectiveTable.at? cu.dataflow_ cu.upper_spatial_map_idx_ = some d)
    (hS : 0 ≤ cu.dimensions_.GetSize d.GetVariable)
    (hS' : cu.dimensions_.GetSize d.GetVariable ≤ 2147483647)
    (hO : 1 ≤ d.GetOfs) (hC : 1 ≤ cu.cluster_size_)
    (hOC : d.GetOfs * cu.cluster_size_ ≤ 2147483647) :
    AnalyzeNumSpatialIterations cu =
      .ok { cu with
        num_spatial_iterations_ :=
          divRoundUpExact (cu.dimensions_.GetSize d.GetVariable)
            (d.GetOfs * cu.cluster_size_) } := by
  have hb : 1 ≤ d.GetOfs * cu.cluster_size_ := Int.mul_pos (by omega) (by omega)
  apply AnalyzeNumSpatialIterations_eq cu d hat
  rw [wrapInt_of_range (by omega) hOC]
  exact divRoundUp_eq_exact hS hS' hb

/-- C10 (as amended): for `0 <= S <= INT_MAX`, `O >= 1`, `C >= 1` with a product
`O * C <= INT_MAX` (the `int` product of line 237 does not overflow)
`AnalyzeNumSpatialIterations` returns and sets `num_spatial_iterations_` to
`ceil(S / (O*C))`: it is the truncating quotient plus one exactly when the remainder is
non-zero, it is a natural number `n` with `n*O*C >= S`, and no smaller integer has that
property. -/
theorem AnalyzeNumSpatialIterations_ceil (cu : ClusterUnit) (d : Directive)
    (hat : DirectiveTable.at? cu.dataflow_ cu.upper_spatial_map_idx_ = some d)
    (hS : 0 ≤ cu.dimensions_.GetSize d.GetVariable)
    (hS' : cu.dimensions_.GetSize d.GetVariable ≤ 2147483647)
    (hO : 1 ≤ d.GetOfs) (hC : 1 ≤ cu.cluster_size_)
    (hOC : d.GetOfs * cu.cluster_size_ ≤ 2147483647) :
    ∃ cu', AnalyzeNumSpatialIterations cu = .ok cu' ∧
      cu'.num_spatial_iterations_ =
        ⌈(cu.dimensions_.GetSize d.GetVariable : ℚ) / ((d.GetOfs : ℚ) * (cu.cluster_size_ : ℚ))⌉ ∧
      cu'.num_spatial_iterations_ =
        (cu.dimensions_.GetSize d.GetVariable).tdiv (d.GetOfs * cu.cluster_size_) +
          (if (cu.dimensions_.GetSize d.GetVariable).tmod (d.GetOfs * cu.cluster_size_) ≠ 0
            then 1 else 0) ∧
      0 ≤ cu'.num_spatial_iterations_ ∧
      cu.dimensions_.GetSize d.GetVariable ≤
        cu'.num_spatial_iterations_ * d.GetOfs * cu.cluster_size_ ∧
      ∀ n : Int, cu.dimensions_.GetSize d.GetVariable ≤ n * d.GetOfs * cu.cluster_size_ →
        cu'.num_spatial_iterations_ ≤ n := by
  have hb : 0 < d.GetOfs * cu.cluster_size_ := Int.mul_pos (by omega) (by omega)
  refine ⟨_, AnalyzeNumSpatialIterations_eq_exact cu d hat hS hS' hO hC hOC, ?_, ?_, ?_, ?_, ?_⟩
  · dsimp only
    rw [divRoundUpExact_eq_ceil hS hb]
    push_cast
    rfl
  · dsimp only [divRoundUpExact]
    split_ifs <;> simp
  · exact divRoundUpExact_nonneg hS hb
  · dsimp only
    rw [mul_assoc]
    exact divRoundUpExact_mul_ge hS hb
  · intro n hn
    dsimp only
    rw [mul_assoc] at hn
    exact divRoundUpExact_least hS hb n hn

/-- C10 (counterexample): at `S = 1000000`, `O = C = 65537` the product `O * C` wraps to
`131073`, and `AnalyzeNumSpatialIterations` stores `8`, while
`ceil(1000000 / (65537 * 65537)) = 1`. -/
theorem AnalyzeNumSpatialIterations_wrapped_product :
    DirectiveTable.at? (sampleSpatialState 1000000 1 65537 65537).dataflow_
        (sampleSpatialState 1000000 1 65537 65537).upper_spatial_map_idx_ =
        some ⟨"K", .SpatialMap, 1, 65537⟩ ∧
      (sampleSpatialState 1000000 1 65537 65537).dimensions_.GetSize "K" = 1000000 ∧
      (sampleSpatialState 1000000 1 65537 65537).cluster_size_ = 65537 ∧
      (∃ cu', AnalyzeNumSpatialIterations (sampleSpatialState 1000000 1 65537 65537) = .ok cu' ∧
        cu'.num_spatial_iterations_ = 8) ∧
      ⌈((1000000 : Int) : ℚ) / (((65537 : Int) : ℚ) * ((65537 : Int) : ℚ))⌉ = 1 := by
  refine ⟨by decide, by decide, rfl, ⟨_, rfl, rfl⟩, ?_⟩
  rw [Int.ceil_eq_iff]
  norm_num

/-- C2: for `S, T, O, C` in `1 .. INT_MAX` (size, tile size and stride of the upper
spatial directive, cluster width) `AnalyzeSpatialEdgeCase` returns, and the edge-cluster
count it stores, which is what `GetNumClusters(true)` returns, lies between `1` and `C`,
also when intermediate values wrap. -/
theorem AnalyzeSpatialEdgeCase_clusters_bounds (cu : ClusterUnit) (d : Directive)
    (hat : DirectiveTable.at? cu.dataflow_ cu.upper_spatial_map_idx_ = some d)
    (hS : 1 ≤ cu.dimensions_.GetSize d.GetVariable)
    (hS' : cu.dimensions_.GetSize d.GetVariable ≤ 2147483647)
    (hT : 1 ≤ d.GetSize) (hT' : d.GetSize ≤ 2147483647)
    (hO : 1 ≤ d.GetOfs) (hO' : d.GetOfs ≤ 2147483647)
    (hC : 1 ≤ cu.cluster_size_) :
    ∃ cu', AnalyzeSpatialEdgeCase cu = .ok cu' ∧
      cu'.GetNumClusters true = cu'.num_spatial_edge_clusters_ ∧
      1 ≤ cu'.GetNumClusters true ∧ cu'.GetNumClusters true ≤ cu.cluster_size_ := by
  obtain ⟨r, hr, h1, h2⟩ := spatialEdgeCase_clusters_bounds hS hS' hT hT' hO hO' hC
  exact ⟨_, AnalyzeSpatialEdgeCase_eq cu d hat r hr, rfl, h1, h2⟩

/-- C5: for `O >= 1` and `C >= 1`, when the size `S` of the upper spatial directive's
dimension is at most its tile size `T`, `AnalyzeSpatialEdgeCase` returns with
`num_spatial_edge_clusters_ = 1` whatever `O` and `C` are, also when intermediate values
wrap.  When moreover `1 <= T` and the span `O*(C-1) + T` of one sweep is representable,
it does so on the single-sweep path, with no steady iteration and one edge iteration. -/
theorem AnalyzeSpatialEdgeCase_tile_covers (cu : ClusterUnit) (d : Directive)
    (hat : DirectiveTable.at? cu.dataflow_ cu.upper_spatial_map_idx_ = some d)
    (hO : 1 ≤ d.GetOfs) (hC : 1 ≤ cu.cluster_size_)
    (hST : cu.dimensions_.GetSize d.GetVariable ≤ d.GetSize) :
    ∃ cu', AnalyzeSpatialEdgeCase cu = .ok cu' ∧
      cu'.num_spatial_edge_clusters_ = 1 ∧
      (1 ≤ d.GetSize → d.GetOfs * (cu.cluster_size_ - 1) + d.GetSize ≤ 2147483647 →
        cu'.num_steady_spatial_iterations_ = 0 ∧ cu'.num_edge_spatial_iterations_ = 1) := by
  obtain ⟨r, hr, h1⟩ :=
    spatialEdgeCase_returns (cu.dimensions_.GetSize d.GetVariable) d.GetSize hO hC
  refine ⟨_, AnalyzeSpatialEdgeCase_eq cu d hat r hr, h1 hST, ?_⟩
  intro hT hfit
  have hF := fullCoverageExact_pos d.GetSize hO hC
  have hfit' : fullCoverageExact d.GetSize d.GetOfs cu.cluster_size_ ≤ 2147483647 := hfit
  have hbr : ¬ cu.dimensions_.GetSize d.GetVariable >
      each_sp_iter_full_coverage d.GetSize d.GetOfs cu.cluster_size_ := by
    rw [each_sp_iter_full_coverage_eq_wrap, wrapInt_of_range (by omega) hfit']
    omega
  have hsingle := spatialEdgeCase_single_branch (by omega) hT hO hC hbr
  rw [hsingle, Except.ok.injEq] at hr
  subst hr
  dsimp only
  rw [spatialEdgeCaseExact_single_sweep hO (by omega)]
  exact ⟨rfl, rfl⟩

/-- C7: exact tiling in one sweep.  When `S = O*C` and `T = O` with `O, C >= 1` (`S` an
`int`, so `S <= INT_MAX`), `AnalyzeNumSpatialIterations` followed by
`AnalyzeSpatialEdgeCase` returns with `num_spatial_iterations_ = 1`,
`num_spatial_edge_clusters_ = C`, `num_steady_spatial_iterations_ = 0` and
`num_edge_spatial_iterations_ = 1`. -/
theorem exact_tiling_single_sweep (cu : ClusterUnit) (d : Directive)
    (hat : DirectiveTable.at? cu.dataflow_ cu.upper_spatial_map_idx_ = some d)
    (hO : 1 ≤ d.GetOfs) (hC : 1 ≤ cu.cluster_size_)
    (hS : cu.dimensions_.GetSize d.GetVariable = d.GetOfs * cu.cluster_size_)
    (hS' : cu.dimensions_.GetSize d.GetVariable ≤ 2147483647)
    (hT : d.GetSize = d.GetOfs) :
    ∃ cu1 cu2, AnalyzeNumSpatialIterations cu = .ok cu1 ∧
      AnalyzeSpatialEdgeCase cu1 = .ok cu2 ∧
      cu2.num_spatial_iterations_ = 1 ∧
      cu2.num_spatial_edge_clusters_ = cu.cluster_size_ ∧
      cu2.num_steady_spatial_iterations_ = 0 ∧
      cu2.num_edge_spatial_iterations_ = 1 := by
  have hb : 1 ≤ d.GetOfs * cu.cluster_size_ := Int.mul_pos (by omega) (by omega)
  have hedge := spatialEdgeCaseExact_exact_tiling hO hC
  have hfullE : fullCoverageExact d.GetOfs d.GetOfs cu.cluster_size_ =
      d.GetOfs * cu.cluster_size_ := by
    unfold fullCoverageExact
    ring
  have hbr : ¬ d.GetOfs * cu.cluster_size_ >
      each_sp_iter_full_coverage d.GetOfs d.GetOfs cu.cluster_size_ := by
    rw [each_sp_iter_full_coverage_eq_wrap, hfullE, wrapInt_of_range (by omega) (by omega)]
    omega
  have hr : spatialEdgeCase (cu.dimensions_.GetSize d.GetVariable) d.GetSize d.GetOfs
      cu.cluster_size_ = .ok ⟨0, 1, cu.cluster_size_⟩ := by
    rw [hS, hT, spatialEdgeCase_single_branch (by omega) hO hO hC hbr, hedge]
  have h2 := AnalyzeSpatialEdgeCase_eq
    { cu with
      num_spatial_iterations_ :=
        divRoundUpExact (cu.dimensions_.GetSize d.GetVariable)
          (d.GetOfs * cu.cluster_size_) } d hat _ hr
  refine ⟨_, _,
    AnalyzeNumSpatialIterations_eq_exact cu d hat (by omega) hS' hO hC (by omega),
    h2, ?_, rfl, rfl, rfl⟩
  dsimp only
  rw [hS]
  exact divRoundUpExact_self hb

/-- C8: non-exact tiling.  For `S = 18`, `T = 4`, `O = 4`, `C = 4` the full coverage of
one sweep is `16 < 18`, so `AnalyzeSpatialEdgeCase` takes the multi-sweep branch; it
returns with `num_steady_spatial_iterations_ = 0`, `num_edge_spatial_iterations_ = 1`,
`remaining_items = 2` and `num_spatial_edge_clusters_ = 1`. -/
theorem non_exact_tiling_scenario (cu : ClusterUnit) (d : Directive)
    (hat : DirectiveTable.at? cu.dataflow_ cu.upper_spatial_map_idx_ = some d)
    (hS : cu.dimensions_.GetSize d.GetVariable = 18) (hT : d.GetSize = 4)
    (hO : d.GetOfs = 4) (hC : cu.cluster_size_ = 4) :
    each_sp_iter_full_coverage d.GetSize d.GetOfs cu.cluster_size_ = 16 ∧
      cu.dimensions_.GetSize d.GetVariable >
        each_sp_iter_full_coverage d.GetSize d.GetOfs cu.cluster_size_ ∧
      ∃ cu', AnalyzeSpatialEdgeCase cu = .ok cu' ∧
        cu'.num_steady_spatial_iterations_ = 0 ∧
        cu'.num_edge_spatial_iterations_ = 1 ∧
        remaining_items (cu.dimensions_.GetSize d.GetVariable) d.GetOfs cu.cluster_size_
          cu'.num_steady_spatial_iterations_ = 2 ∧
        cu'.num_spatial_edge_clusters_ = 1 := by
  have hcase : spatialEdgeCase (cu.dimensions_.GetSize d.GetVariable) d.GetSize d.GetOfs
      cu.cluster_size_ = .ok ⟨0, 1, 1⟩ := by
    rw [hS, hT, hO, hC]
    rfl
  refine ⟨by rw [hT, hO, hC]; decide, by rw [hS, hT, hO, hC]; decide, _,
    AnalyzeSpatialEdgeCase_eq cu d hat _ hcase, rfl, rfl, ?_, rfl⟩
  dsimp only
  rw [hS, hO, hC]
  decide

/-- The spatial iteration count at `S = 18`, `O = 4`, `C = 4`. -/
theorem AnalyzeNumSpatialIterations_ceil_witness :
    ∃ cu', AnalyzeNumSpatialIterations (sampleSpatialState 18 4 4 4) = .ok cu' ∧
      cu'.num_spatial_iterations_ = ⌈((18 : Int) : ℚ) / (((4 : Int) : ℚ) * ((4 : Int) : ℚ))⌉ ∧
      cu'.num_spatial_iterations_ =
        (18 : Int).tdiv (4 * 4) + (if (18 : Int).tmod (4 * 4) ≠ 0 then 1 else 0) ∧
      0 ≤ cu'.num_spatial_iterations_ ∧
      (18 : Int) ≤ cu'.num_spatial_iterations_ * 4 * 4 ∧
      ∀ n : Int, 18 ≤ n * 4 * 4 → cu'.num_spatial_iterations_ ≤ n :=
  AnalyzeNumSpatialIterations_ceil (sampleSpatialState 18 4 4 4) ⟨"K", .SpatialMap, 4, 4⟩
    (by decide) (by decide) (by decide) (by decide) (by decide) (by decide)

/-- The bounds on the edge-cluster count at `S = 30`, `T = 4`, `O = 2`, `C = 4`. -/
theorem AnalyzeSpatialEdgeCase_clusters_bounds_witness :
    ∃ cu', AnalyzeSpatialEdgeCase (sampleSpatialState 30 4 2 4) = .ok cu' ∧
      cu'.GetNumClusters true = cu'.num_spatial_edge_clusters_ ∧
      1 ≤ cu'.GetNumClusters true ∧ cu'.GetNumClusters true ≤ 4 :=
  AnalyzeSpatialEdgeCase_clusters_bounds (sampleSpatialState 30 4 2 4)
    ⟨"K", .SpatialMap, 4, 2⟩ (by decide) (by decide) (by decide) (by decide) (by decide)
    (by decide) (by decide) (by decide)

/-- A tile that covers its dimension: `S = 3`, `T = 4`, `O = 2`, `C = 8`. -/
theorem AnalyzeSpatialEdgeCase_tile_covers_witness :
    ∃ cu', AnalyzeSpatialEdgeCase (sampleSpatialState 3 4 2 8) = .ok cu' ∧
      cu'.num_spatial_edge_clusters_ = 1 ∧
      cu'.num_steady_spatial_iterations_ = 0 ∧
      cu'.num_edge_spatial_iterations_ = 1 := by
  obtain ⟨cu', h1, h2, h3⟩ := AnalyzeSpatialEdgeCase_tile_covers (sampleSpatialState 3 4 2 8)
    ⟨"K", .SpatialMap, 4, 2⟩ (by decide) (by decide) (by decide) (by decide)
  exact ⟨cu', h1, h2, h3 (by decide) (by decide)⟩

/-- Scenario A: `S = 16`, `T = 4`, `O = 4`, `C = 4` gives `1`, `4`, `0`, `1`. -/
theorem exact_tiling_single_sweep_witness :
    ∃ cu1 cu2, AnalyzeNumSpatialIterations (sampleSpatialState 16 4 4 4) = .ok cu1 ∧
      AnalyzeSpatialEdgeCase cu1 = .ok cu2 ∧
      cu2.num_spatial_iterations_ = 1 ∧
      cu2.num_spatial_edge_clusters_ = 4 ∧
      cu2.num_steady_spatial_iterations_ = 0 ∧
      cu2.num_edge_spatial_iterations_ = 1 :=
  exact_tiling_single_sweep (sampleSpatialState 16 4 4 4) ⟨"K", .SpatialMap, 4, 4⟩
    (by decide) (by decide) (by decide) (by decide) (by decide) (by decide)

/-- Scenario B on an analyzer whose upper spatial directive is `SpatialMap(4,4) K` with
`K = 18` and cluster width 4. -/
theorem non_exact_tiling_scenario_witness :
    each_sp_iter_full_coverage 4 4 4 = 16 ∧
      (18 : Int) > each_sp_iter_full_coverage 4 4 4 ∧
      ∃ cu', AnalyzeSpatialEdgeCase (sampleSpatialState 18 4 4 4) = .ok cu' ∧
        cu'.num_steady_spatial_iterations_ = 0 ∧
        cu'.num_edge_spatial_iterations_ = 1 ∧
        remaining_items 18 4 4 cu'.num_steady_spatial_iterations_ = 2 ∧
        cu'.num_spatial_edge_clusters_ = 1 :=
  non_exact_tiling_scenario (sampleSpatialState 18 4 4 4) ⟨"K", .SpatialMap, 4, 4⟩
    (by decide) (by decide) (by decide) (by decide) (by decide)

/-! ## Index discovery -/

theorem numSpatial_cons (d : Directive) (l : List Directive) :
    numSpatial (d :: l) =
      if d.GetClass = DirectiveClass.SpatialMap then numSpatial l + 1 else numSpatial l := by
  unfold numSpatial
  by_cases h : d.GetClass = DirectiveClass.SpatialMap
  · rw [if_pos h, List.countP_cons_of_pos _ _ (by simpa using h)]
  · rw [if_neg h, List.countP_cons_of_neg _ _ (by simpa using h)]

theorem spatialMapIdxLoop_spec (l : List Directive) :
    ∀ (idx : Int) (cu : ClusterUnit), 0 ≤ idx →
      (cu.upper_spatial_map_idx_ = invalid_map_pos → cu.lower_spatial_map_idx_ = invalid_map_pos) →
      (3 ≤ numFound cu + numSpatial l →
        spatialMapIdxLoop l idx cu =
          .error (.terminated TL.ErrorCode.MultiParallelismInSingleCluster)) ∧
      (numFound cu + numSpatial l < 3 →
        ∃ cu', spatialMapIdxLoop l idx cu = .ok cu' ∧
          numFound cu' = numFound cu + numSpatial l ∧
          (cu'.upper_spatial_map_idx_ = invalid_map_pos →
            cu'.lower_spatial_map_idx_ = invalid_map_pos)) := by
  induction l with
  | nil =>
    intro idx cu _ hinv
    have hf : numFound cu ≤ 2 := by
      unfold numFound
      split_ifs <;> omega
    refine ⟨fun h => ?_, fun _ => ⟨cu, rfl, by simp [numSpatial], hinv⟩⟩
    simp [numSpatial] at h
    omega
  | cons d rest ih =>
    intro idx cu hidx hinv
    have hidx1 : idx ≠ invalid_map_pos := by
      unfold invalid_map_pos
      omega
    rw [numSpatial_cons]
    by_cases hd : d.GetClass = DirectiveClass.SpatialMap
    · rw [if_pos hd]
      by_cases hu : cu.upper_spatial_map_idx_ = invalid_map_pos
      · have hl := hinv hu
        have hstep : spatialMapIdxLoop (d :: rest) idx cu =
            spatialMapIdxLoop rest (idx + 1) { cu with upper_spatial_map_idx_ := idx } := by
          simp only [spatialMapIdxLoop, if_pos hd, if_pos hu]
        have hf : numFound cu = 0 := by simp [numFound, hu]
        have hf1 : numFound { cu with upper_spatial_map_idx_ := idx } = 1 := by
          simp [numFound, hidx1, hl]
        have := ih (idx + 1) { cu with upper_spatial_map_idx_ := idx } (by omega)
          (fun h => absurd h hidx1)
        rw [hstep, hf]
        rw [hf1] at this
        refine ⟨fun h => this.1 (by omega), fun h => ?_⟩
        obtain ⟨cu', h1, h2, h3⟩ := this.2 (by omega)
        exact ⟨cu', h1, by omega, h3⟩
      · by_cases hl : cu.lower_spatial_map_idx_ = invalid_map_pos
        · have hstep : spatialMapIdxLoop (d :: rest) idx cu =
              spatialMapIdxLoop rest (idx + 1) { cu with lower_spatial_map_idx_ := idx } := by
            simp only [spatialMapIdxLoop, if_pos hd, if_neg hu, if_pos hl]
          have hf : numFound cu = 1 := by simp [numFound, hu, hl]
          have hf1 : numFound { cu with lower_spatial_map_idx_ := idx } = 2 := by
            simp [numFound, hidx1, hu]
          have := ih (idx + 1) { cu with lower_spatial_map_idx_ := idx } (by omega)
            (fun h => absurd h hu)
          rw [hstep, hf]
          rw [hf1] at this
          refine ⟨fun h => this.1 (by omega), fun h => ?_⟩
          obtain ⟨cu', h1, h2, h3⟩ := this.2 (by omega)
          exact ⟨cu', h1, by omega, h3⟩
        · have hstep : spatialMapIdxLoop (d :: rest) idx cu =
              .error (.terminated TL.ErrorCode.MultiParallelismInSingleCluster) := by
            simp only [spatialMapIdxLoop, if_pos hd, if_neg hu, if_neg hl]
          have hf : numFound cu = 2 := by simp [numFound, hu, hl]
          rw [hstep, hf]
          exact ⟨fun _ => rfl, fun h => by omega⟩
    · rw [if_neg hd]
      have hstep : spatialMapIdxLoop (d :: rest) idx cu =
          spatialMapIdxLoop rest (idx + 1) cu := by
        simp only [spatialMapIdxLoop, if_neg hd]
      rw [hstep]
      exact ih (idx + 1) cu (by omega) hinv

theorem numFound_eq_zero_iff (cu : ClusterUnit) :
    numFound cu = 0 ↔ cu.upper_spatial_map_idx_ = invalid_map_pos := by
  unfold numFound
  split_ifs with h1 h2 <;> simp [h1]

/-- The outcome of `AnalyzeSpatialMapIdx` on a freshly initialised analyzer, by the
number of spatial maps in the sequence. -/
theorem AnalyzeSpatialMapIdx_init_cases (cluster_level cluster_size : Int)
    (dataflow : DirectiveTable) (dimensions : DimensionTable) :
    (numSpatial dataflow = 0 →
      AnalyzeSpatialMapIdx (init cluster_level cluster_size dataflow dimensions) =
        .error (.terminated TL.ErrorCode.NoSpatialMap)) ∧
    (3 ≤ numSpatial dataflow →
      AnalyzeSpatialMapIdx (init cluster_level cluster_size dataflow dimensions) =
        .error (.terminated TL.ErrorCode.MultiParallelismInSingleCluster)) ∧
    (numSpatial dataflow = 1 ∨ numSpatial dataflow = 2 →
      ∃ cu', AnalyzeSpatialMapIdx (init cluster_level cluster_size dataflow dimensions) =
        .ok cu') := by
  have hspec := spatialMapIdxLoop_spec dataflow 0
    (init cluster_level cluster_size dataflow dimensions) (le_refl 0) (fun _ => rfl)
  have hf0 : numFound (init cluster_level cluster_size dataflow dimensions) = 0 := by
    simp [numFound, init]
  rw [hf0] at hspec
  have hdf : (init cluster_level cluster_size dataflow dimensions).dataflow_ = dataflow := rfl
  refine ⟨fun h => ?_, fun h => ?_, fun h => ?_⟩
  · obtain ⟨cu', h1, h2, _⟩ := hspec.2 (by omega)
    have hu : cu'.upper_spatial_map_idx_ = invalid_map_pos :=
      (numFound_eq_zero_iff cu').1 (by omega)
    simp only [AnalyzeSpatialMapIdx, hdf, h1, if_pos hu]
  · have h1 := hspec.1 (by omega)
    simp only [AnalyzeSpatialMapIdx, hdf, h1]
  · obtain ⟨cu', h1, h2, _⟩ := hspec.2 (by omega)
    have hu : ¬ cu'.upper_spatial_map_idx_ = invalid_map_pos := by
      rw [← numFound_eq_zero_iff]
      omega
    exact ⟨cu', by simp only [AnalyzeSpatialMapIdx, hdf, h1, if_neg hu]⟩

/-- C3: index discovery on a freshly initialised analyzer (as run by the constructor)
terminates with `NoSpatialMap` exactly when the sequence has no spatial map, terminates
with `MultiParallelismInSingleCluster` exactly when it has three or more, and returns
exactly when it has one or two. -/
theorem AnalyzeSpatialMapIdx_outcome (cluster_level cluster_size : Int)
    (dataflow : DirectiveTable) (dimensions : DimensionTable) :
    (AnalyzeSpatialMapIdx (init cluster_level cluster_size dataflow dimensions) =
        .error (.terminated TL.ErrorCode.NoSpatialMap) ↔ numSpatial dataflow = 0) ∧
    (AnalyzeSpatialMapIdx (init cluster_level cluster_size dataflow dimensions) =
        .error (.terminated TL.ErrorCode.MultiParallelismInSingleCluster) ↔
      3 ≤ numSpatial dataflow) ∧
    ((∃ cu', AnalyzeSpatialMapIdx (init cluster_level cluster_size dataflow dimensions) =
        .ok cu') ↔ numSpatial dataflow = 1 ∨ numSpatial dataflow = 2) := by
  obtain ⟨h0, h3, h12⟩ :=
    AnalyzeSpatialMapIdx_init_cases cluster_level cluster_size dataflow dimensions
  have hcases : numSpatial dataflow = 0 ∨ 3 ≤ numSpatial dataflow ∨
      (numSpatial dataflow = 1 ∨ numSpatial dataflow = 2) := by omega
  refine ⟨⟨fun h => ?_, h0⟩, ⟨fun h => ?_, h3⟩, ⟨fun h => ?_, h12⟩⟩
  · rcases hcases with hc | hc | hc
    · exact hc
    · rw [h3 hc] at h
      cases h
    · obtain ⟨cu', hcu⟩ := h12 hc
      rw [hcu] at h
      cases h
  · rcases hcases with hc | hc | hc
    · rw [h0 hc] at h
      cases h
    · exact hc
    · obtain ⟨cu', hcu⟩ := h12 hc
      rw [hcu] at h
      cases h
  · obtain ⟨cu', hcu⟩ := h
    rcases hcases with hc | hc | hc
    · rw [h0 hc] at hcu
      cases hcu
    · rw [h3 hc] at hcu
      cases hcu
    · exact hc

/-- Scenario D, from the characterisation of the outcomes: a sequence with three spatial maps ends in
`MultiParallelismInSingleCluster`, one with temporal maps only ends in `NoSpatialMap`. -/
theorem AnalyzeSpatialMapIdx_outcome_scenario_D :
    AnalyzeSpatialMapIdx (init 0 4 threeSpatialDataflow (sampleDims 16 9 3)) =
        .error (.terminated TL.ErrorCode.MultiParallelismInSingleCluster) ∧
      AnalyzeSpatialMapIdx (init 0 4 temporalOnlyDataflow (sampleDims 16 9 3)) =
        .error (.terminated TL.ErrorCode.NoSpatialMap) :=
  ⟨(AnalyzeSpatialMapIdx_outcome 0 4 threeSpatialDataflow (sampleDims 16 9 3)).2.1.2
      (by decide),
    (AnalyzeSpatialMapIdx_outcome 0 4 temporalOnlyDataflow (sampleDims 16 9 3)).1.2
      (by decide)⟩


/-! ## Mapping sizes and reuse -/

theorem ElementMap_get_set_self (m : ElementMap) (k : String) (v : Int) :
    (m.set k v).get k = v := by
  simp [ElementMap.get, ElementMap.set]

theorem ElementMap_get_set_of_ne (m : ElementMap) {k k' : String} (v : Int) (h : k' ≠ k) :
    (m.set k v).get k' = m.get k' := by
  simp [ElementMap.get, ElementMap.set, h]

theorem mappingSizesStep_reuseInvariant (cu : ClusterUnit) (d : Directive) (idx : Int)
    (v : String) (h : reuseInvariant cu v ∨ v = d.GetVariable) :
    reuseInvariant (mappingSizesStep cu d idx) v := by
  by_cases hv : v = d.GetVariable
  · subst hv
    unfold reuseInvariant mappingSizesStep
    dsimp only
    simp only [ElementMap_get_set_self]
    split_ifs <;> simp only [ElementMap_get_set_self] <;> omega
  · have hinv : reuseInvariant cu v := h.resolve_right hv
    unfold reuseInvariant mappingSizesStep
    dsimp only
    unfold reuseInvariant at hinv
    split_ifs <;> simp only [ElementMap_get_set_of_ne _ _ hv] <;> exact hinv

theorem mappingSizesLoop_reuseInvariant (l : List Directive) :
    ∀ (idx : Int) (cu : ClusterUnit) (v : String),
      reuseInvariant cu v ∨ v ∈ l.map Directive.GetVariable →
      reuseInvariant (mappingSizesLoop l idx cu) v := by
  induction l with
  | nil =>
    intro idx cu v h
    rcases h with h | h
    · exact h
    · simp at h
  | cons d rest ih =>
    intro idx cu v h
    unfold mappingSizesLoop
    apply ih
    rcases h with h | h
    · exact Or.inl (mappingSizesStep_reuseInvariant cu d idx v (Or.inl h))
    · rw [List.map_cons, List.mem_cons] at h
      rcases h with h | h
      · exact Or.inl (mappingSizesStep_reuseInvariant cu d idx v (Or.inr h))
      · exact Or.inr h

/-- C4: after `AnalyzeMappingSizes`, whatever the directive sequence is (a variable may
be mapped by several directives) and whatever the maps held before, every variable `v`
that occurs in the sequence has `sp_reused[v] + sp_unique[v] = mapped[v]` and
`tp_reused[v] + tp_unique[v] = mapped[v]`. -/
theorem AnalyzeMappingSizes_reuse_invariant (cu : ClusterUnit) (v : String)
    (hv : v ∈ cu.dataflow_.map Directive.GetVariable) :
    (AnalyzeMappingSizes cu).sp_mapped_reused_elements_.get v +
        (AnalyzeMappingSizes cu).sp_mapped_unique_elements_.get v =
      (AnalyzeMappingSizes cu).num_mapped_elements_.get v ∧
    (AnalyzeMappingSizes cu).tp_mapped_reused_elements_.get v +
        (AnalyzeMappingSizes cu).tp_mapped_unique_elements_.get v =
      (AnalyzeMappingSizes cu).num_mapped_elements_.get v :=
  mappingSizesLoop_reuseInvariant cu.dataflow_ 0 cu v (Or.inr hv)

/-- The reuse invariant for the variable `K`, which two directives of the sequence map. -/
theorem AnalyzeMappingSizes_reuse_invariant_witness :
    (AnalyzeMappingSizes
          (init 0 4 repeatedVariableDataflow (sampleDims 16 9 3))).sp_mapped_reused_elements_.get
          "K" +
        (AnalyzeMappingSizes
          (init 0 4 repeatedVariableDataflow (sampleDims 16 9 3))).sp_mapped_unique_elements_.get
          "K" =
      (AnalyzeMappingSizes
        (init 0 4 repeatedVariableDataflow (sampleDims 16 9 3))).num_mapped_elements_.get "K" ∧
    (AnalyzeMappingSizes
          (init 0 4 repeatedVariableDataflow (sampleDims 16 9 3))).tp_mapped_reused_elements_.get
          "K" +
        (AnalyzeMappingSizes
          (init 0 4 repeatedVariableDataflow (sampleDims 16 9 3))).tp_mapped_unique_elements_.get
          "K" =
      (AnalyzeMappingSizes
        (init 0 4 repeatedVariableDataflow (sampleDims 16 9 3))).num_mapped_elements_.get "K" :=
  AnalyzeMappingSizes_reuse_invariant (init 0 4 repeatedVariableDataflow (sampleDims 16 9 3))
    "K" (by decide)


/-! ## Inner temporal index -/

theorem isIteratedTemporal_iff (dimensions : DimensionTable) (d : Directive) :
    isIteratedTemporal dimensions d = true ↔
      d.GetClass = DirectiveClass.TemporalMap ∧ d.GetSize < dimensions.GetSize d.GetVariable := by
  unfold isIteratedTemporal
  by_cases h : d.GetClass = DirectiveClass.TemporalMap
  · simp [h]
  · simp [h]

theorem innerTemporalLoop_spec (dimensions : DimensionTable) (l : List Directive) :
    ∀ (idx acc : Int),
      (∀ (j : Nat) (d : Directive), l[j]? = some d → isIteratedTemporal dimensions d = true →
        idx + j ≤ innerTemporalLoop dimensions l idx acc) ∧
      ((innerTemporalLoop dimensions l idx acc = acc ∧
          ∀ (j : Nat) (d : Directive), l[j]? = some d →
            isIteratedTemporal dimensions d = false) ∨
        ∃ (j : Nat) (d : Directive), l[j]? = some d ∧
          isIteratedTemporal dimensions d = true ∧
          innerTemporalLoop dimensions l idx acc = idx + j) := by
  induction l with
  | nil =>
    intro idx acc
    refine ⟨fun j d h => by simp at h, Or.inl ⟨rfl, fun j d h => by simp at h⟩⟩
  | cons x rest ih =>
    intro idx acc
    by_cases hx : isIteratedTemporal dimensions x = true
    · have hstep : innerTemporalLoop dimensions (x :: rest) idx acc =
          innerTemporalLoop dimensions rest (idx + 1) idx := by
        simp only [innerTemporalLoop, if_pos hx]
      rw [hstep]
      obtain ⟨hmax, hsel⟩ := ih (idx + 1) idx
      have hge : idx ≤ innerTemporalLoop dimensions rest (idx + 1) idx := by
        rcases hsel with ⟨h, _⟩ | ⟨j, d, _, _, h⟩
        · omega
        · omega
      refine ⟨fun j d hj hd => ?_, Or.inr ?_⟩
      · cases j with
        | zero => simpa using hge
        | succ j =>
          have := hmax j d (by simpa using hj) hd
          push_cast
          omega
      · rcases hsel with ⟨h, _⟩ | ⟨j, d, hj, hd, h⟩
        · exact ⟨0, x, by simp, hx, by simpa using h⟩
        · exact ⟨j + 1, d, by simpa using hj, hd, by push_cast; omega⟩
    · have hstep : innerTemporalLoop dimensions (x :: rest) idx acc =
          innerTemporalLoop dimensions rest (idx + 1) acc := by
        simp only [innerTemporalLoop, if_neg hx]
      rw [hstep]
      obtain ⟨hmax, hsel⟩ := ih (idx + 1) acc
      refine ⟨fun j d hj hd => ?_, ?_⟩
      · cases j with
        | zero =>
          simp only [List.getElem?_cons_zero, Option.some.injEq] at hj
          subst hj
          exact absurd hd hx
        | succ j =>
          have := hmax j d (by simpa using hj) hd
          push_cast
          omega
      · rcases hsel with ⟨h, hnone⟩ | ⟨j, d, hj, hd, h⟩
        · refine Or.inl ⟨h, fun j d hj => ?_⟩
          cases j with
          | zero =>
            simp only [List.getElem?_cons_zero, Option.some.injEq] at hj
            subst hj
            simpa using hx
          | succ j => exact hnone j d (by simpa using hj)
        · exact Or.inr ⟨j + 1, d, by simpa using hj, hd, by push_cast; omega⟩

/-- C6: given the upper spatial index `u`, `AnalyzeInnerTemporalMapIdx` returns and
stores an index `r` such that every position `i >= u` holding a temporal map with tile
size below its dimension size has `i <= r`; either some such position exists and `r` is
one of them (hence the largest), or none exists and `r = u`; and the directive at `r` is
an unrolled temporal map (tile size at least the dimension size) only when `r` is the
default `u`. -/
theorem AnalyzeInnerTemporalMapIdx_largest (cu : ClusterUnit) (u : Nat)
    (hu : cu.upper_spatial_map_idx_ = (u : Int)) :
    ∃ cu', AnalyzeInnerTemporalMapIdx cu = .ok cu' ∧
      (∀ (i : Nat) (d : Directive), u ≤ i → cu.dataflow_[i]? = some d →
        d.GetClass = DirectiveClass.TemporalMap →
        d.GetSize < cu.dimensions_.GetSize d.GetVariable →
        (i : Int) ≤ cu'.inner_temporal_map_idx_) ∧
      ((cu'.inner_temporal_map_idx_ = (u : Int) ∧
          ∀ (i : Nat) (d : Directive), u ≤ i → cu.dataflow_[i]? = some d →
            ¬ (d.GetClass = DirectiveClass.TemporalMap ∧
              d.GetSize < cu.dimensions_.GetSize d.GetVariable)) ∨
        ∃ (i : Nat) (d : Directive), u ≤ i ∧ cu.dataflow_[i]? = some d ∧
          d.GetClass = DirectiveClass.TemporalMap ∧
          d.GetSize < cu.dimensions_.GetSize d.GetVariable ∧
          cu'.inner_temporal_map_idx_ = (i : Int)) ∧
      (∀ d : Directive,
        DirectiveTable.at? cu.dataflow_ cu'.inner_temporal_map_idx_ = some d →
        d.GetClass = DirectiveClass.TemporalMap →
        d.GetSize ≥ cu.dimensions_.GetSize d.GetVariable →
        cu'.inner_temporal_map_idx_ = (u : Int)) := by
  have hnn : ¬ cu.upper_spatial_map_idx_ < 0 := by omega
  obtain ⟨hmax, hsel⟩ := innerTemporalLoop_spec cu.dimensions_ (cu.dataflow_.drop u) u u
  have hres : AnalyzeInnerTemporalMapIdx cu =
      .ok { cu with
        inner_temporal_map_idx_ := innerTemporalLoop cu.dimensions_ (cu.dataflow_.drop u) u u } := by
    have hnn' : ¬ (u : Int) < 0 := by omega
    simp only [AnalyzeInnerTemporalMapIdx, hu, if_neg hnn', Int.toNat_ofNat]
  have hsel' : (innerTemporalLoop cu.dimensions_ (cu.dataflow_.drop u) u u = (u : Int) ∧
        ∀ (i : Nat) (d : Directive), u ≤ i → cu.dataflow_[i]? = some d →
          ¬ (d.GetClass = DirectiveClass.TemporalMap ∧
            d.GetSize < cu.dimensions_.GetSize d.GetVariable)) ∨
      ∃ (i : Nat) (d : Directive), u ≤ i ∧ cu.dataflow_[i]? = some d ∧
        d.GetClass = DirectiveClass.TemporalMap ∧
        d.GetSize < cu.dimensions_.GetSize d.GetVariable ∧
        innerTemporalLoop cu.dimensions_ (cu.dataflow_.drop u) u u = (i : Int) := by
    rcases hsel with ⟨h, hnone⟩ | ⟨j, d, hj, hd, h⟩
    · refine Or.inl ⟨h, fun i d hi hget hd => ?_⟩
      have := hnone (i - u) d (by rw [List.getElem?_drop, Nat.add_sub_cancel' hi]; exact hget)
      rw [← isIteratedTemporal_iff] at hd
      rw [hd] at this
      cases this
    · rw [List.getElem?_drop] at hj
      rw [isIteratedTemporal_iff] at hd
      exact Or.inr ⟨u + j, d, by omega, hj, hd.1, hd.2, by push_cast; exact h⟩
  refine ⟨_, hres, ?_, hsel', ?_⟩
  · intro i d hi hget hc hs
    have := hmax (i - u) d (by rw [List.getElem?_drop, Nat.add_sub_cancel' hi]; exact hget)
      ((isIteratedTemporal_iff _ _).2 ⟨hc, hs⟩)
    dsimp only
    have hcast : ((i - u : Nat) : Int) = (i : Int) - (u : Int) := by omega
    omega
  · intro d hat _ hs
    dsimp only at hat ⊢
    rcases hsel' with ⟨h, _⟩ | ⟨i, d', _, hget, _, hlt, h⟩
    · exact h
    · rw [h] at hat
      have : DirectiveTable.at? cu.dataflow_ (i : Int) = cu.dataflow_[i]? := by
        simp [DirectiveTable.at?]
      rw [this, hget] at hat
      cases hat
      omega

/-- Scenario C: below the spatial map at position 0 the only temporal map is unrolled,
and the inner temporal index is the upper spatial index 0. -/
theorem AnalyzeInnerTemporalMapIdx_largest_witness :
    ∃ cu', AnalyzeInnerTemporalMapIdx unrolledTemporalState = .ok cu' ∧
      cu'.inner_temporal_map_idx_ = 0 := by
  obtain ⟨cu', hok, _, hsel, _⟩ :=
    AnalyzeInnerTemporalMapIdx_largest unrolledTemporalState 0 (by decide)
  refine ⟨cu', hok, ?_⟩
  rcases hsel with ⟨h, _⟩ | ⟨i, d, _, hget, hcls, hlt, _⟩
  · simpa using h
  · exfalso
    have hdf : unrolledTemporalState.dataflow_ =
        [⟨"K", .SpatialMap, 1, 1⟩, ⟨"R", .TemporalMap, 3, 3⟩] := rfl
    rw [hdf] at hget
    match i, hget with
    | 0, hget =>
      simp only [List.getElem?_cons_zero, Option.some.injEq] at hget
      subst hget
      cases hcls
    | 1, hget =>
      simp only [List.getElem?_cons_succ, List.getElem?_cons_zero, Option.some.injEq] at hget
      subst hget
      revert hlt
      decide
    | n + 2, hget =>
      simp at hget


/-! ## What each preprocessing stage leaves unchanged -/

theorem spatialMapIdxLoop_frame (l : List Directive) :
    ∀ (idx : Int) (cu cu' : ClusterUnit), spatialMapIdxLoop l idx cu = .ok cu' →
      cu' = { cu with
        upper_spatial_map_idx_ := cu'.upper_spatial_map_idx_
        lower_spatial_map_idx_ := cu'.lower_spatial_map_idx_ } := by
  induction l with
  | nil =>
    intro idx cu cu' h
    simp only [spatialMapIdxLoop, Except.ok.injEq] at h
    subst h
    rfl
  | cons d rest ih =>
    intro idx cu cu' h
    simp only [spatialMapIdxLoop] at h
    split_ifs at h with h1 h2 h3
    · have h' := ih _ _ _ h
      exact h'
    · have h' := ih _ _ _ h
      exact h'
    · exact ih _ _ _ h

theorem AnalyzeSpatialMapIdx_frame (cu cu' : ClusterUnit)
    (h : AnalyzeSpatialMapIdx cu = .ok cu') :
    cu' = { cu with
      upper_spatial_map_idx_ := cu'.upper_spatial_map_idx_
      lower_spatial_map_idx_ := cu'.lower_spatial_map_idx_ } := by
  unfold AnalyzeSpatialMapIdx at h
  split at h
  · cases h
  · rename_i cu1 hloop
    split_ifs at h
    simp only [Except.ok.injEq] at h
    subst h
    exact spatialMapIdxLoop_frame _ _ _ _ hloop

theorem AnalyzeInnerTemporalMapIdx_frame (cu cu' : ClusterUnit)
    (h : AnalyzeInnerTemporalMapIdx cu = .ok cu') :
    cu' = { cu with inner_temporal_map_idx_ := cu'.inner_temporal_map_idx_ } := by
  unfold AnalyzeInnerTemporalMapIdx at h
  split_ifs at h
  simp only [Except.ok.injEq] at h
  subst h
  rfl

theorem AnalyzeNumSpatialIterations_frame (cu cu' : ClusterUnit)
    (h : AnalyzeNumSpatialIterations cu = .ok cu') :
    cu' = { cu with num_spatial_iterations_ := cu'.num_spatial_iterations_ } := by
  unfold AnalyzeNumSpatialIterations at h
  split at h
  · cases h
  · dsimp only at h
    split at h
    · cases h
    · simp only [Except.ok.injEq] at h
      subst h
      rfl

theorem AnalyzeSpatialEdgeCase_inv (cu cu' : ClusterUnit)
    (h : AnalyzeSpatialEdgeCase cu = .ok cu') :
    ∃ d r, DirectiveTable.at? cu.dataflow_ cu.upper_spatial_map_idx_ = some d ∧
      spatialEdgeCase (cu.dimensions_.GetSize d.GetVariable) d.GetSize d.GetOfs
        cu.cluster_size_ = .ok r ∧
      cu' = { cu with
        num_steady_spatial_iterations_ := r.num_steady_spatial_iterations
        num_edge_spatial_iterations_ := r.num_edge_spatial_iterations
        num_spatial_edge_clusters_ := r.num_spatial_edge_clusters } := by
  cases hat : DirectiveTable.at? cu.dataflow_ cu.upper_spatial_map_idx_ with
  | none =>
    simp only [AnalyzeSpatialEdgeCase, hat] at h
    cases h
  | some d =>
    cases hr : spatialEdgeCase (cu.dimensions_.GetSize d.GetVariable) d.GetSize d.GetOfs
        cu.cluster_size_ with
    | error e =>
      simp only [AnalyzeSpatialEdgeCase, hat, hr] at h
      cases h
    | ok r =>
      rw [AnalyzeSpatialEdgeCase_eq cu d hat r hr, Except.ok.injEq] at h
      exact ⟨d, r, rfl, hr, h.symm⟩

theorem mappingSizesLoop_frame (l : List Directive) :
    ∀ (idx : Int) (cu : ClusterUnit),
      mappingSizesLoop l idx cu =
        { cu with
          num_mapped_elements_ := (mappingSizesLoop l idx cu).num_mapped_elements_
          sp_mapped_unique_elements_ := (mappingSizesLoop l idx cu).sp_mapped_unique_elements_
          tp_mapped_unique_elements_ := (mappingSizesLoop l idx cu).tp_mapped_unique_elements_
          sp_mapped_reused_elements_ := (mappingSizesLoop l idx cu).sp_mapped_reused_elements_
          tp_mapped_reused_elements_ :=
            (mappingSizesLoop l idx cu).tp_mapped_reused_elements_ } := by
  induction l with
  | nil =>
    intro idx cu
    rfl
  | cons d rest ih =>
    intro idx cu
    have h := ih (idx + 1) (mappingSizesStep cu d idx)
    simp only [mappingSizesLoop]
    rw [h]
    rfl

/-- C9: on every analyzer the constructor returns, `GetNumClusters(false)` is the cluster
width given to the constructor, `GetNumClusters()` with the default argument is the same
value, and `GetNumClusters(true)` is the edge-cluster count that the spatial edge
analysis computed (without fault) from the upper spatial directive of the analysed
sequence. -/
theorem GetNumClusters_constructed (ConvertToInputCentric : DirectiveTable → DirectiveTable)
    (names : LayerDimNames) (cluster_level cluster_size : Int) (dataflow : DirectiveTable)
    (dimensions : DimensionTable) (cu : ClusterUnit)
    (h : construct ConvertToInputCentric names cluster_level cluster_size dataflow dimensions =
      .ok cu) :
    cu.GetNumClusters false = cluster_size ∧
      cu.GetNumClustersDefault = cu.GetNumClusters false ∧
      cu.GetNumClusters true = cu.num_spatial_edge_clusters_ ∧
      ∃ d r, DirectiveTable.at? (ConvertToInputCentric dataflow) cu.upper_spatial_map_idx_ =
          some d ∧
        spatialEdgeCase (dimensions.GetSize d.GetVariable) d.GetSize d.GetOfs cluster_size =
          .ok r ∧
        cu.GetNumClusters true = r.num_spatial_edge_clusters := by
  unfold construct Preprocess at h
  split at h
  · cases h
  · rename_i cu1 h1
    split at h
    · cases h
    · rename_i cu2 h2
      split at h
      · cases h
      · rename_i cu3 h3
        split at h
        · cases h
        · rename_i cu4 h4
          simp only [Except.ok.injEq] at h
          have f1 := AnalyzeSpatialMapIdx_frame _ _ h1
          have f2 := AnalyzeInnerTemporalMapIdx_frame _ _ h2
          have f3 := AnalyzeNumSpatialIterations_frame _ _ h3
          obtain ⟨d, r, hat, hr, f4⟩ := AnalyzeSpatialEdgeCase_inv _ _ h4
          have f5 := mappingSizesLoop_frame cu4.dataflow_ 0 cu4
          have hcu : cu = mappingSizesLoop cu4.dataflow_ 0 cu4 := h.symm
          have e3 : cu3 = { cu1 with
              inner_temporal_map_idx_ := cu2.inner_temporal_map_idx_
              num_spatial_iterations_ := cu3.num_spatial_iterations_ } := by
            rw [f3, f2]
          have hsize : cu3.cluster_size_ = cluster_size := by rw [e3, f1]; rfl
          have hdf : cu3.dataflow_ = ConvertToInputCentric dataflow := by rw [e3, f1]; rfl
          have hdim : cu3.dimensions_ = dimensions := by rw [e3, f1]; rfl
          have hsz4 : cu.cluster_size_ = cluster_size := by rw [hcu, f5, f4]; exact hsize
          have hup : cu.upper_spatial_map_idx_ = cu3.upper_spatial_map_idx_ := by
            rw [hcu, f5, f4]
          have hcl : cu.num_spatial_edge_clusters_ = r.num_spatial_edge_clusters := by
            rw [hcu, f5, f4]
          refine ⟨hsz4, rfl, rfl, d, r, ?_, ?_, hcl⟩
          · rw [hup, ← hdf]
            exact hat
          · rw [← hdim, ← hsize]
            exact hr

/-- The cluster counts of the analyzer constructed from `SpatialMap(4,2) K;
TemporalMap(3,1) Y` with `K = 30` and cluster width 4. -/
theorem GetNumClusters_constructed_witness :
    ∃ cu, construct id sampleNames 0 4 [⟨"K", .SpatialMap, 4, 2⟩, ⟨"Y", .TemporalMap, 3, 1⟩]
        (sampleDims 30 9 3) = .ok cu ∧
      cu.GetNumClusters false = 4 ∧
      cu.GetNumClustersDefault = cu.GetNumClusters false ∧
      cu.GetNumClusters true = cu.num_spatial_edge_clusters_ ∧
      cu.GetNumClusters true = 2 :=
  ⟨_, rfl,
    (GetNumClusters_constructed id sampleNames 0 4
      [⟨"K", .SpatialMap, 4, 2⟩, ⟨"Y", .TemporalMap, 3, 1⟩] (sampleDims 30 9 3) _ rfl).1,
    (GetNumClusters_constructed id sampleNames 0 4
      [⟨"K", .SpatialMap, 4, 2⟩, ⟨"Y", .TemporalMap, 3, 1⟩] (sampleDims 30 9 3) _ rfl).2.1,
    (GetNumClusters_constructed id sampleNames 0 4
      [⟨"K", .SpatialMap, 4, 2⟩, ⟨"Y", .TemporalMap, 3, 1⟩] (sampleDims 30 9 3) _ rfl).2.2.1,
    by decide⟩


/-! ## Total iteration count -/

/-- C1 (divergence): on the valid sequence `SpatialMap(4,2) Y; TemporalMap(3,3) R` with
`Y = 9`, `R = 3` and cluster width 2 the filter dimension `R` is fully resident, so the
specification takes `E = 9 - 3 + 1 = 7` for `Y` and a product of `ceil(7/4) * 1 = 2`;
`GetNumTotalIterations` compares the tile size of the directive of `Y` itself (4) with the
size of `R`, leaves the size at 9 and returns `ceil(9/4) * 1 = 3`. -/
theorem GetNumTotalIterations_resident_filter_divergence :
    validSequence 2 residentFilterDataflow (sampleDims 16 9 3) ∧
      specTotalIterations 2 residentFilterDataflow (sampleDims 16 9 3) residentFilterDataflow =
        some 2 ∧
      ∃ cu, construct id sampleNames 0 2 residentFilterDataflow (sampleDims 16 9 3) = .ok cu ∧
        GetNumTotalIterations cu = .ok 3 := by
  refine ⟨?_, ?_, _, rfl, rfl⟩
  · unfold validSequence
    decide
  · have h1 : specIterations 2 residentFilterDataflow (sampleDims 16 9 3)
        ⟨"Y", .SpatialMap, 4, 2⟩ = some 2 := by
      have hE : specEffectiveSize residentFilterDataflow (sampleDims 16 9 3)
          ⟨"Y", .SpatialMap, 4, 2⟩ = some 7 := by decide
      simp only [specIterations, hE, Directive.GetClass, Directive.GetOfs, Option.some.injEq]
      rw [Int.ceil_eq_iff]
      norm_num
    have h2 : specIterations 2 residentFilterDataflow (sampleDims 16 9 3)
        ⟨"R", .TemporalMap, 3, 3⟩ = some 1 := by
      have hE : specEffectiveSize residentFilterDataflow (sampleDims 16 9 3)
          ⟨"R", .TemporalMap, 3, 3⟩ = some 3 := by decide
      simp only [specIterations, hE, Directive.GetClass, Directive.GetOfs, Option.some.injEq]
      rw [Int.ceil_eq_iff]
      norm_num
    simp only [residentFilterDataflow, specTotalIterations] at h1 h2 ⊢
    rw [h1, h2]
    rfl


/-! ## Positions found by index discovery -/

theorem isSpatialAt_cons_succ (d : Directive) (l : List Directive) (k : Nat) :
    isSpatialAt (d :: l) (k + 1) ↔ isSpatialAt l k := by
  simp [isSpatialAt]

theorem isSpatialAt_lt_length {l : List Directive} {i : Nat} (h : isSpatialAt l i) :
    i < l.length := by
  obtain ⟨d, hd, _⟩ := h
  exact (List.getElem?_eq_some_iff.1 hd).1

theorem noSpatialBetween_cons_succ (d : Directive) (l : List Directive) (a b : Nat) :
    noSpatialBetween (d :: l) (a + 1) (b + 1) ↔ noSpatialBetween l a b := by
  constructor
  · intro h j x ha hb hj
    exact h (j + 1) x (by omega) (by omega) (by simpa using hj)
  · intro h j x ha hb hj
    cases j with
    | zero => omega
    | succ j => exact h j x (by omega) (by omega) (by simpa using hj)

theorem noSpatialBetween_cons_zero (d : Directive) (l : List Directive) (b : Nat)
    (hd : d.GetClass ≠ DirectiveClass.SpatialMap) (h : noSpatialBetween l 0 b) :
    noSpatialBetween (d :: l) 0 (b + 1) := by
  intro j x _ hb hj
  cases j with
  | zero =>
    simp only [List.getElem?_cons_zero, Option.some.injEq] at hj
    subst hj
    exact hd
  | succ j => exact h j x (by omega) (by omega) (by simpa using hj)

theorem noSpatialBetween_empty (l : List Directive) (a : Nat) : noSpatialBetween l a a := by
  intro j x ha hb _
  omega

/-- With both spatial indices already found, a run of the loop that returns leaves
them as they are. -/
theorem spatialMapIdxLoop_both_found (l : List Directive) :
    ∀ (idx : Int) (cu cu' : ClusterUnit),
      cu.upper_spatial_map_idx_ ≠ invalid_map_pos →
      cu.lower_spatial_map_idx_ ≠ invalid_map_pos →
      spatialMapIdxLoop l idx cu = .ok cu' →
      cu'.upper_spatial_map_idx_ = cu.upper_spatial_map_idx_ ∧
        cu'.lower_spatial_map_idx_ = cu.lower_spatial_map_idx_ := by
  induction l with
  | nil =>
    intro idx cu cu' _ _ h
    simp only [spatialMapIdxLoop, Except.ok.injEq] at h
    subst h
    exact ⟨rfl, rfl⟩
  | cons d rest ih =>
    intro idx cu cu' hu hl h
    simp only [spatialMapIdxLoop] at h
    split_ifs at h with h1
    exact ih _ _ _ hu hl h

/-- With the upper index found and the lower one not, a run of the loop that returns
keeps the upper index and stores the position of the first spatial map it meets, if
any, as the lower index. -/
theorem spatialMapIdxLoop_upper_found (l : List Directive) :
    ∀ (idx : Int) (cu cu' : ClusterUnit), 0 ≤ idx →
      cu.upper_spatial_map_idx_ ≠ invalid_map_pos →
      cu.lower_spatial_map_idx_ = invalid_map_pos →
      spatialMapIdxLoop l idx cu = .ok cu' →
      cu'.upper_spatial_map_idx_ = cu.upper_spatial_map_idx_ ∧
        ((cu'.lower_spatial_map_idx_ = invalid_map_pos ∧ noSpatialBetween l 0 l.length) ∨
          ∃ k : Nat, cu'.lower_spatial_map_idx_ = idx + k ∧ isSpatialAt l k ∧
            noSpatialBetween l 0 k) := by
  induction l with
  | nil =>
    intro idx cu cu' _ _ hl h
    simp only [spatialMapIdxLoop, Except.ok.injEq] at h
    subst h
    exact ⟨rfl, Or.inl ⟨hl, noSpatialBetween_empty _ _⟩⟩
  | cons d rest ih =>
    intro idx cu cu' hidx hu hl h
    have hidx1 : idx ≠ invalid_map_pos := by
      unfold invalid_map_pos
      omega
    by_cases hd : d.GetClass = DirectiveClass.SpatialMap
    · simp only [spatialMapIdxLoop, if_pos hd, if_neg hu, if_pos hl] at h
      obtain ⟨h1, h2⟩ := spatialMapIdxLoop_both_found rest (idx + 1)
        { cu with lower_spatial_map_idx_ := idx } cu' hu hidx1 h
      refine ⟨h1, Or.inr ⟨0, ?_, ⟨d, by simp, hd⟩, noSpatialBetween_empty _ _⟩⟩
      rw [h2]
      simp
    · simp only [spatialMapIdxLoop, if_neg hd] at h
      obtain ⟨h1, h2⟩ := ih (idx + 1) cu cu' (by omega) hu hl h
      refine ⟨h1, ?_⟩
      rcases h2 with ⟨h3, h4⟩ | ⟨k, h3, h4, h5⟩
      · exact Or.inl ⟨h3, noSpatialBetween_cons_zero d rest _ hd h4⟩
      · refine Or.inr ⟨k + 1, ?_, (isSpatialAt_cons_succ d rest k).2 h4,
          noSpatialBetween_cons_zero d rest _ hd h5⟩
        rw [h3]
        push_cast
        omega

/-- With no spatial index found yet, a run of the loop that returns stores the position
of the first spatial map as the upper index and the position of the second one, if any,
as the lower index. -/
theorem spatialMapIdxLoop_none_found (l : List Directive) :
    ∀ (idx : Int) (cu cu' : ClusterUnit), 0 ≤ idx →
      cu.upper_spatial_map_idx_ = invalid_map_pos →
      cu.lower_spatial_map_idx_ = invalid_map_pos →
      spatialMapIdxLoop l idx cu = .ok cu' →
      cu'.upper_spatial_map_idx_ = invalid_map_pos ∨
        ∃ i : Nat, cu'.upper_spatial_map_idx_ = idx + i ∧ isSpatialAt l i ∧
          noSpatialBetween l 0 i ∧
          ((cu'.lower_spatial_map_idx_ = invalid_map_pos ∧
              noSpatialBetween l (i + 1) l.length) ∨
            ∃ k : Nat, i < k ∧ cu'.lower_spatial_map_idx_ = idx + k ∧ isSpatialAt l k ∧
              noSpatialBetween l (i + 1) k) := by
  induction l with
  | nil =>
    intro idx cu cu' _ hu _ h
    simp only [spatialMapIdxLoop, Except.ok.injEq] at h
    subst h
    exact Or.inl hu
  | cons d rest ih =>
    intro idx cu cu' hidx hu hl h
    have hidx1 : idx ≠ invalid_map_pos := by
      unfold invalid_map_pos
      omega
    by_cases hd : d.GetClass = DirectiveClass.SpatialMap
    · simp only [spatialMapIdxLoop, if_pos hd, if_pos hu] at h
      obtain ⟨h1, h2⟩ := spatialMapIdxLoop_upper_found rest (idx + 1)
        { cu with upper_spatial_map_idx_ := idx } cu' (by omega) hidx1 hl h
      refine Or.inr ⟨0, ?_, ⟨d, by simp, hd⟩, noSpatialBetween_empty _ _, ?_⟩
      · rw [h1]
        simp
      · rcases h2 with ⟨h3, h4⟩ | ⟨k, h3, h4, h5⟩
        · exact Or.inl ⟨h3, (noSpatialBetween_cons_succ d rest 0 _).2 h4⟩
        · refine Or.inr ⟨k + 1, by omega, ?_, (isSpatialAt_cons_succ d rest k).2 h4,
            (noSpatialBetween_cons_succ d rest 0 k).2 h5⟩
          rw [h3]
          push_cast
          omega
    · simp only [spatialMapIdxLoop, if_neg hd] at h
      rcases ih (idx + 1) cu cu' (by omega) hu hl h with h1 | ⟨i, h1, h2, h3, h4⟩
      · exact Or.inl h1
      · refine Or.inr ⟨i + 1, ?_, (isSpatialAt_cons_succ d rest i).2 h2,
          noSpatialBetween_cons_zero d rest _ hd h3, ?_⟩
        · rw [h1]
          push_cast
          omega
        · rcases h4 with ⟨h5, h6⟩ | ⟨k, h5, h6, h7, h8⟩
          · exact Or.inl ⟨h5, (noSpatialBetween_cons_succ d rest (i + 1) _).2 h6⟩
          · refine Or.inr ⟨k + 1, by omega, ?_, (isSpatialAt_cons_succ d rest k).2 h7,
              (noSpatialBetween_cons_succ d rest (i + 1) k).2 h8⟩
            rw [h6]
            push_cast
            omega

/-- The indices stored by a run of `AnalyzeSpatialMapIdx` that returns, on a freshly
initialised analyzer. -/
theorem AnalyzeSpatialMapIdx_init_indices (cluster_level cluster_size : Int)
    (dataflow : DirectiveTable) (dimensions : DimensionTable) (cu' : ClusterUnit)
    (h : AnalyzeSpatialMapIdx (init cluster_level cluster_size dataflow dimensions) = .ok cu') :
    ∃ i : Nat, cu'.upper_spatial_map_idx_ = (i : Int) ∧ isSpatialAt dataflow i ∧
      noSpatialBetween dataflow 0 i ∧
      ((cu'.lower_spatial_map_idx_ = invalid_map_pos ∧
          noSpatialBetween dataflow (i + 1) dataflow.length) ∨
        ∃ k : Nat, i < k ∧ cu'.lower_spatial_map_idx_ = (k : Int) ∧ isSpatialAt dataflow k ∧
          noSpatialBetween dataflow (i + 1) k) := by
  unfold AnalyzeSpatialMapIdx at h
  split at h
  · cases h
  · rename_i cu1 hloop
    split_ifs at h with hu
    simp only [Except.ok.injEq] at h
    subst h
    have hdf : (init cluster_level cluster_size dataflow dimensions).dataflow_ = dataflow := rfl
    rw [hdf] at hloop
    rcases spatialMapIdxLoop_none_found dataflow 0 _ _ (le_refl 0) rfl rfl hloop with
      h1 | ⟨i, h1, h2, h3, h4⟩
    · exact absurd h1 hu
    · refine ⟨i, by simpa using h1, h2, h3, ?_⟩
      rcases h4 with h5 | ⟨k, h5, h6, h7, h8⟩
      · exact Or.inl h5
      · exact Or.inr ⟨k, h5, by simpa using h6, h7, h8⟩

/-- C11: for every directive sequence with one or two spatial maps, `AnalyzeSpatialMapIdx`
(on the freshly initialised analyzer) returns; the upper spatial index is the position of
the first spatial map of the sequence, and the lower spatial index is the position of the
second spatial map if there is one and the invalid marker `-1` otherwise. -/
theorem AnalyzeSpatialMapIdx_first_and_second (cluster_level cluster_size : Int)
    (dataflow : DirectiveTable) (dimensions : DimensionTable)
    (hn : numSpatial dataflow = 1 ∨ numSpatial dataflow = 2) :
    ∃ cu', AnalyzeSpatialMapIdx (init cluster_level cluster_size dataflow dimensions) =
        .ok cu' ∧
      ∃ i : Nat, cu'.upper_spatial_map_idx_ = (i : Int) ∧ isSpatialAt dataflow i ∧
        noSpatialBetween dataflow 0 i ∧
        ((cu'.lower_spatial_map_idx_ = -1 ∧
            noSpatialBetween dataflow (i + 1) dataflow.length) ∨
          ∃ k : Nat, i < k ∧ cu'.lower_spatial_map_idx_ = (k : Int) ∧
            isSpatialAt dataflow k ∧ noSpatialBetween dataflow (i + 1) k) := by
  obtain ⟨cu', hok⟩ :=
    (AnalyzeSpatialMapIdx_init_cases cluster_level cluster_size dataflow dimensions).2.2 hn
  exact ⟨cu', hok,
    AnalyzeSpatialMapIdx_init_indices cluster_level cluster_size dataflow dimensions cu' hok⟩


/-! ## Entries written by the mapping-size bookkeeping -/

theorem mappingSizesStep_get_of_ne (cu : ClusterUnit) (d : Directive) (idx : Int)
    (v : String) (hv : v ≠ d.GetVariable) :
    (mappingSizesStep cu d idx).num_mapped_elements_.get v = cu.num_mapped_elements_.get v ∧
      (mappingSizesStep cu d idx).sp_mapped_unique_elements_.get v =
        cu.sp_mapped_unique_elements_.get v ∧
      (mappingSizesStep cu d idx).tp_mapped_unique_elements_.get v =
        cu.tp_mapped_unique_elements_.get v := by
  unfold mappingSizesStep
  dsimp only
  split_ifs <;> simp [ElementMap_get_set_of_ne _ _ hv]

theorem mappingSizesStep_get_self (cu : ClusterUnit) (d : Directive) (idx : Int) :
    (mappingSizesStep cu d idx).num_mapped_elements_.get d.GetVariable = d.GetSize ∧
      (mappingSizesStep cu d idx).sp_mapped_unique_elements_.get d.GetVariable =
        (if d.GetClass = DirectiveClass.SpatialMap then d.GetOfs else 0) ∧
      (mappingSizesStep cu d idx).tp_mapped_unique_elements_.get d.GetVariable =
        (if d.GetClass = DirectiveClass.SpatialMap then d.GetSize
          else if idx = cu.inner_temporal_map_idx_ then d.GetOfs else d.GetSize) := by
  unfold mappingSizesStep
  dsimp only
  split_ifs <;> simp [ElementMap_get_set_self]

theorem mappingSizesLoop_get_of_not_mem (l : List Directive) :
    ∀ (idx : Int) (cu : ClusterUnit) (v : String), v ∉ l.map Directive.GetVariable →
      (mappingSizesLoop l idx cu).num_mapped_elements_.get v = cu.num_mapped_elements_.get v ∧
        (mappingSizesLoop l idx cu).sp_mapped_unique_elements_.get v =
          cu.sp_mapped_unique_elements_.get v ∧
        (mappingSizesLoop l idx cu).tp_mapped_unique_elements_.get v =
          cu.tp_mapped_unique_elements_.get v := by
  induction l with
  | nil =>
    intro idx cu v _
    exact ⟨rfl, rfl, rfl⟩
  | cons d rest ih =>
    intro idx cu v hv
    rw [List.map_cons, List.mem_cons, not_or] at hv
    obtain ⟨h1, h2, h3⟩ := ih (idx + 1) (mappingSizesStep cu d idx) v hv.2
    obtain ⟨g1, g2, g3⟩ := mappingSizesStep_get_of_ne cu d idx v hv.1
    simp only [mappingSizesLoop]
    exact ⟨h1.trans g1, h2.trans g2, h3.trans g3⟩

/-- The entries of the variable of the directive at position `j` after the loop, when
no two directives of the sequence map the same variable. -/
theorem mappingSizesLoop_entries (l : List Directive) :
    ∀ (idx : Int) (cu : ClusterUnit), (l.map Directive.GetVariable).Nodup →
      ∀ (j : Nat) (d : Directive), l[j]? = some d →
        (mappingSizesLoop l idx cu).num_mapped_elements_.get d.GetVariable = d.GetSize ∧
          (mappingSizesLoop l idx cu).sp_mapped_unique_elements_.get d.GetVariable =
            (if d.GetClass = DirectiveClass.SpatialMap then d.GetOfs else 0) ∧
          (mappingSizesLoop l idx cu).tp_mapped_unique_elements_.get d.GetVariable =
            (if d.GetClass = DirectiveClass.SpatialMap then d.GetSize
              else if idx + j = cu.inner_temporal_map_idx_ then d.GetOfs else d.GetSize) := by
  induction l with
  | nil =>
    intro idx cu _ j d h
    simp at h
  | cons x rest ih =>
    intro idx cu hnd j d h
    rw [List.map_cons, List.nodup_cons] at hnd
    simp only [mappingSizesLoop]
    cases j with
    | zero =>
      simp only [List.getElem?_cons_zero, Option.some.injEq] at h
      subst h
      obtain ⟨h1, h2, h3⟩ :=
        mappingSizesLoop_get_of_not_mem rest (idx + 1) (mappingSizesStep cu x idx)
          x.GetVariable hnd.1
      obtain ⟨g1, g2, g3⟩ := mappingSizesStep_get_self cu x idx
      rw [h1, h2, h3, g1, g2, g3]
      simp
    | succ j =>
      have h' : rest[j]? = some d := by simpa using h
      have := ih (idx + 1) (mappingSizesStep cu x idx) hnd.2 j d h'
      have hinner : (mappingSizesStep cu x idx).inner_temporal_map_idx_ =
          cu.inner_temporal_map_idx_ := rfl
      rw [hinner] at this
      have hidx : idx + ((j + 1 : Nat) : Int) = idx + 1 + (j : Int) := by
        push_cast
        ring
      rw [hidx]
      exact this

/-- C12: when the variables of the directive sequence are pairwise distinct, after
`AnalyzeMappingSizes` the directive `d` at position `i`, over variable `v` with tile size
`Tz` and stride `O`, has `mapped[v] = Tz`; if `d` is spatial, `sp_unique[v] = O` and
`tp_unique[v] = Tz`; if `d` is temporal, `sp_unique[v] = 0`, and `tp_unique[v] = O` when
`i` is the inner temporal index and `tp_unique[v] = Tz` otherwise. -/
theorem AnalyzeMappingSizes_entries (cu : ClusterUnit)
    (hnd : (cu.dataflow_.map Directive.GetVariable).Nodup) (i : Nat) (d : Directive)
    (hd : cu.dataflow_[i]? = some d) :
    (AnalyzeMappingSizes cu).num_mapped_elements_.get d.GetVariable = d.GetSize ∧
      (d.GetClass = DirectiveClass.SpatialMap →
        (AnalyzeMappingSizes cu).sp_mapped_unique_elements_.get d.GetVariable = d.GetOfs ∧
          (AnalyzeMappingSizes cu).tp_mapped_unique_elements_.get d.GetVariable = d.GetSize) ∧
      (d.GetClass = DirectiveClass.TemporalMap →
        (AnalyzeMappingSizes cu).sp_mapped_unique_elements_.get d.GetVariable = 0 ∧
          ((i : Int) = cu.inner_temporal_map_idx_ →
            (AnalyzeMappingSizes cu).tp_mapped_unique_elements_.get d.GetVariable = d.GetOfs) ∧
          ((i : Int) ≠ cu.inner_temporal_map_idx_ →
            (AnalyzeMappingSizes cu).tp_mapped_unique_elements_.get d.GetVariable =
              d.GetSize)) := by
  obtain ⟨h1, h2, h3⟩ := mappingSizesLoop_entries cu.dataflow_ 0 cu hnd i d hd
  rw [zero_add] at h3
  unfold AnalyzeMappingSizes
  refine ⟨h1, fun hs => ?_, fun ht => ?_⟩
  · rw [h2, h3, if_pos hs, if_pos hs]
    exact ⟨rfl, rfl⟩
  · have hns : ¬ d.GetClass = DirectiveClass.SpatialMap := by
      rw [ht]
      decide
    rw [h2, h3, if_neg hns, if_neg hns]
    refine ⟨rfl, fun hi => ?_, fun hi => ?_⟩
    · rw [if_pos hi]
    · rw [if_neg hi]



/-! ## Total iteration count without overlapped dimensions -/

theorem numIterThisDim_not_overlapped (cu : ClusterUnit) (d : Directive)
    (hC : 1 ≤ cu.cluster_size_) (h : plainDirective cu d) :
    numIterThisDim cu d = .ok (rawIterations cu.cluster_size_ cu.dimensions_ d) := by
  obtain ⟨hov, hS, hS', hO, hOC⟩ := h
  have hE : effectiveDimSize cu d = .ok (cu.dimensions_.GetSize d.GetVariable) := by
    simp [effectiveDimSize, hov]
  unfold numIterThisDim rawIterations
  rw [hE]
  dsimp only
  cases hcls : d.GetClass with
  | TemporalMap =>
    dsimp only
    rw [divRoundUp_eq_exact hS hS' hO, divRoundUpExact_eq_ceil hS (by omega)]
  | SpatialMap =>
    dsimp only
    have hb : 1 ≤ d.GetOfs * cu.cluster_size_ := Int.mul_pos (by omega) (by omega)
    rw [wrapInt_of_range (by omega) (hOC hcls), divRoundUp_eq_exact hS hS' hb,
      divRoundUpExact_eq_ceil hS (by omega)]
    push_cast
    rfl

theorem wrapLong_wrapLong (a : Int) : wrapLong (wrapLong a) = wrapLong a := by
  unfold wrapLong
  omega

theorem totalIterationsLoop_not_overlapped (cu : ClusterUnit) (hC : 1 ≤ cu.cluster_size_)
    (l : List Directive) :
    ∀ ret : Int, wrapLong ret = ret → (∀ d ∈ l, plainDirective cu d) →
      totalIterationsLoop cu l ret =
        .ok (wrapLong (ret * (l.map (rawIterations cu.cluster_size_ cu.dimensions_)).prod)) := by
  induction l with
  | nil =>
    intro ret hret _
    simp [totalIterationsLoop, hret]
  | cons d rest ih =>
    intro ret _ h
    have hrest := ih (wrapLong (ret * rawIterations cu.cluster_size_ cu.dimensions_ d))
      (wrapLong_wrapLong _) (fun x hx => h x (List.mem_cons_of_mem d hx))
    simp only [totalIterationsLoop,
      numIterThisDim_not_overlapped cu d hC (h d (List.mem_cons_self d rest)), hrest,
      List.map_cons, List.prod_cons, wrapLong_mul_left, mul_assoc]

theorem rawIterations_least (cluster_size : Int) (dimensions : DimensionTable)
    (d : Directive) (hC : 1 ≤ cluster_size) (hS : 0 ≤ dimensions.GetSize d.GetVariable)
    (hO : 1 ≤ d.GetOfs) :
    0 ≤ rawIterations cluster_size dimensions d ∧
      dimensions.GetSize d.GetVariable ≤
        rawIterations cluster_size dimensions d * iterationAdvance cluster_size d ∧
      ∀ n : Int, dimensions.GetSize d.GetVariable ≤ n * iterationAdvance cluster_size d →
        rawIterations cluster_size dimensions d ≤ n := by
  unfold rawIterations iterationAdvance
  cases hcls : d.GetClass with
  | TemporalMap =>
    dsimp only
    have hb : 0 < d.GetOfs := by omega
    rw [← divRoundUpExact_eq_ceil hS hb]
    exact ⟨divRoundUpExact_nonneg hS hb, divRoundUpExact_mul_ge hS hb,
      divRoundUpExact_least hS hb⟩
  | SpatialMap =>
    dsimp only
    have hb : 0 < d.GetOfs * cluster_size := Int.mul_pos (by omega) (by omega)
    have hcast : ((d.GetOfs : ℚ) * (cluster_size : ℚ)) = ((d.GetOfs * cluster_size : Int) : ℚ) := by
      push_cast
      rfl
    rw [hcast, ← divRoundUpExact_eq_ceil hS hb]
    exact ⟨divRoundUpExact_nonneg hS hb, divRoundUpExact_mul_ge hS hb,
      divRoundUpExact_least hS hb⟩

theorem prod_rawIterations_nonneg (cu : ClusterUnit) (hC : 1 ≤ cu.cluster_size_)
    (l : List Directive) (h : ∀ d ∈ l, plainDirective cu d) :
    0 ≤ (l.map (rawIterations cu.cluster_size_ cu.dimensions_)).prod := by
  apply List.prod_nonneg
  intro x hx
  obtain ⟨d, hd, rfl⟩ := List.mem_map.1 hx
  obtain ⟨_, hS, _, hO, _⟩ := h d hd
  exact (rawIterations_least cu.cluster_size_ cu.dimensions_ d hC hS hO).1

/-- C13 (as amended): when no directive's dimension is flagged overlapped, all dimension
sizes lie in `0 .. INT_MAX`, all strides are `>= 1`, the cluster width is `>= 1`, the
`int` product `stride * clusterWidth` of every spatial directive is at most `INT_MAX`,
and the product of the factors is at most `LONG_MAX = 2^63 - 1`, `GetNumTotalIterations`
returns the product over the directives of `ceil(size / stride)` (temporal) and
`ceil(size / (stride * clusterWidth))` (spatial); each factor is the least natural `n`
with `n * stride >= size`, respectively `n * stride * clusterWidth >= size`. -/
theorem GetNumTotalIterations_not_overlapped (cu : ClusterUnit) (hC : 1 ≤ cu.cluster_size_)
    (h : ∀ d ∈ cu.dataflow_, plainDirective cu d)
    (hlong : (cu.dataflow_.map (rawIterations cu.cluster_size_ cu.dimensions_)).prod ≤
      9223372036854775807) :
    GetNumTotalIterations cu =
        .ok ((cu.dataflow_.map (rawIterations cu.cluster_size_ cu.dimensions_)).prod) ∧
      ∀ d ∈ cu.dataflow_,
        0 ≤ rawIterations cu.cluster_size_ cu.dimensions_ d ∧
          cu.dimensions_.GetSize d.GetVariable ≤
            rawIterations cu.cluster_size_ cu.dimensions_ d *
              iterationAdvance cu.cluster_size_ d ∧
          ∀ n : Int,
            cu.dimensions_.GetSize d.GetVariable ≤ n * iterationAdvance cu.cluster_size_ d →
            rawIterations cu.cluster_size_ cu.dimensions_ d ≤ n := by
  refine ⟨?_, fun d hd => ?_⟩
  · have hnn := prod_rawIterations_nonneg cu hC cu.dataflow_ h
    unfold GetNumTotalIterations
    rw [totalIterationsLoop_not_overlapped cu hC cu.dataflow_ 1 (by decide) h, one_mul,
      wrapLong_of_range (by omega) hlong]
  · obtain ⟨_, h2, _, h3, _⟩ := h d hd
    exact rawIterations_least cu.cluster_size_ cu.dimensions_ d hC h2 h3

/-- The factor of a directive is `n` as soon as `n` advances cover the dimension and
`n - 1` do not. -/
theorem rawIterations_eq_of_bounds (cluster_size : Int) (dimensions : DimensionTable)
    (d : Directive) (hC : 1 ≤ cluster_size) (hS : 0 ≤ dimensions.GetSize d.GetVariable)
    (hO : 1 ≤ d.GetOfs) (n : Int)
    (h1 : dimensions.GetSize d.GetVariable ≤ n * iterationAdvance cluster_size d)
    (h2 : (n - 1) * iterationAdvance cluster_size d < dimensions.GetSize d.GetVariable) :
    rawIterations cluster_size dimensions d = n := by
  obtain ⟨_, hge, hleast⟩ := rawIterations_least cluster_size dimensions d hC hS hO
  have hle := hleast n h1
  have hadv : 0 ≤ iterationAdvance cluster_size d := by
    unfold iterationAdvance
    cases d.GetClass with
    | TemporalMap =>
      dsimp only
      omega
    | SpatialMap => exact Int.mul_nonneg (by omega) (by omega)
  by_contra hne
  have hlt : rawIterations cluster_size dimensions d ≤ n - 1 := by omega
  have := Int.mul_le_mul_of_nonneg_right hlt hadv
  omega

/-- The total iteration count of the sample analyzer without overlapped dimensions:
`ceil(16/(3*2)) * ceil(9/2) * ceil(3/3) = 3 * 5 * 1`. -/
theorem GetNumTotalIterations_not_overlapped_witness :
    GetNumTotalIterations plainState = .ok 15 ∧
      (plainState.dataflow_.map
        (rawIterations plainState.cluster_size_ plainState.dimensions_)).prod = 15 := by
  have hplain : ∀ d ∈ plainState.dataflow_, plainDirective plainState d := by
    unfold plainDirective
    decide
  have hK : rawIterations plainState.cluster_size_ plainState.dimensions_
      ⟨"K", .SpatialMap, 4, 3⟩ = 3 :=
    rawIterations_eq_of_bounds _ _ _ (by decide) (by decide) (by decide) 3 (by decide)
      (by decide)
  have hY : rawIterations plainState.cluster_size_ plainState.dimensions_
      ⟨"Y", .TemporalMap, 3, 2⟩ = 5 :=
    rawIterations_eq_of_bounds _ _ _ (by decide) (by decide) (by decide) 5 (by decide)
      (by decide)
  have hR : rawIterations plainState.cluster_size_ plainState.dimensions_
      ⟨"R", .TemporalMap, 3, 3⟩ = 1 :=
    rawIterations_eq_of_bounds _ _ _ (by decide) (by decide) (by decide) 1 (by decide)
      (by decide)
  have hprod : (plainState.dataflow_.map
      (rawIterations plainState.cluster_size_ plainState.dimensions_)).prod = 15 := by
    have hlist : plainState.dataflow_.map
        (rawIterations plainState.cluster_size_ plainState.dimensions_) =
        [rawIterations plainState.cluster_size_ plainState.dimensions_ ⟨"K", .SpatialMap, 4, 3⟩,
          rawIterations plainState.cluster_size_ plainState.dimensions_ ⟨"Y", .TemporalMap, 3, 2⟩,
          rawIterations plainState.cluster_size_ plainState.dimensions_
            ⟨"R", .TemporalMap, 3, 3⟩] := rfl
    rw [hlist, hK, hY, hR]
    rfl
  have h := (GetNumTotalIterations_not_overlapped plainState (by decide) hplain
    (by rw [hprod]; decide)).1
  rw [hprod] at h
  exact ⟨h, hprod⟩

/-- C13 (counterexample): with no overlapped dimension, sizes `>= 0`, strides `>= 1` and
cluster width `>= 1`, the returned value is not the product of the ceilings.  With three
dimensions of size `2^21` and unit strides the product is `2^63` and the `long` result is
`-2^63`; with one dimension of size `1000000` mapped spatially with stride `65537` on
`65537` clusters the factor is `ceil(1000000 / 65537^2) = 1` and the result is `8`. -/
theorem GetNumTotalIterations_overflow :
    (1 ≤ largeState.cluster_size_ ∧
        ∀ d ∈ largeState.dataflow_,
          largeState.dimensions_.IsOverlapped d.GetVariable = false ∧
            0 ≤ largeState.dimensions_.GetSize d.GetVariable ∧ 1 ≤ d.GetOfs) ∧
      (1 ≤ (sampleSpatialState 1000000 1 65537 65537).cluster_size_ ∧
        ∀ d ∈ (sampleSpatialState 1000000 1 65537 65537).dataflow_,
          (sampleSpatialState 1000000 1 65537 65537).dimensions_.IsOverlapped d.GetVariable =
              false ∧
            0 ≤ (sampleSpatialState 1000000 1 65537 65537).dimensions_.GetSize d.GetVariable ∧
            1 ≤ d.GetOfs) ∧
      (largeState.dataflow_.map
        (rawIterations largeState.cluster_size_ largeState.dimensions_)).prod =
        9223372036854775808 ∧
      GetNumTotalIterations largeState = .ok (-9223372036854775808) ∧
      ((sampleSpatialState 1000000 1 65537 65537).dataflow_.map
        (rawIterations (sampleSpatialState 1000000 1 65537 65537).cluster_size_
          (sampleSpatialState 1000000 1 65537 65537).dimensions_)).prod = 1 ∧
      GetNumTotalIterations (sampleSpatialState 1000000 1 65537 65537) = .ok 8 := by
  have hK : rawIterations largeState.cluster_size_ largeState.dimensions_
      ⟨"K", .SpatialMap, 1, 1⟩ = 2097152 :=
    rawIterations_eq_of_bounds _ _ _ (by decide) (by decide) (by decide) 2097152 (by decide)
      (by decide)
  have hY : rawIterations largeState.cluster_size_ largeState.dimensions_
      ⟨"Y", .TemporalMap, 1, 1⟩ = 2097152 :=
    rawIterations_eq_of_bounds _ _ _ (by decide) (by decide) (by decide) 2097152 (by decide)
      (by decide)
  have hR : rawIterations largeState.cluster_size_ largeState.dimensions_
      ⟨"R", .TemporalMap, 1, 1⟩ = 2097152 :=
    rawIterations_eq_of_bounds _ _ _ (by decide) (by decide) (by decide) 2097152 (by decide)
      (by decide)
  have hW : rawIterations (sampleSpatialState 1000000 1 65537 65537).cluster_size_
      (sampleSpatialState 1000000 1 65537 65537).dimensions_ ⟨"K", .SpatialMap, 1, 65537⟩ = 1 :=
    rawIterations_eq_of_bounds _ _ _ (by decide) (by decide) (by decide) 1 (by decide)
      (by decide)
  refine ⟨by decide, by decide, ?_, rfl, ?_, rfl⟩
  · have hlist : largeState.dataflow_.map
        (rawIterations largeState.cluster_size_ largeState.dimensions_) =
        [rawIterations largeState.cluster_size_ largeState.dimensions_ ⟨"K", .SpatialMap, 1, 1⟩,
          rawIterations largeState.cluster_size_ largeState.dimensions_ ⟨"Y", .TemporalMap, 1, 1⟩,
          rawIterations largeState.cluster_size_ largeState.dimensions_
            ⟨"R", .TemporalMap, 1, 1⟩] := rfl
    rw [hlist, hK, hY, hR]
    rfl
  · have hlist : (sampleSpatialState 1000000 1 65537 65537).dataflow_.map
        (rawIterations (sampleSpatialState 1000000 1 65537 65537).cluster_size_
          (sampleSpatialState 1000000 1 65537 65537).dimensions_) =
        [rawIterations (sampleSpatialState 1000000 1 65537 65537).cluster_size_
          (sampleSpatialState 1000000 1 65537 65537).dimensions_
          ⟨"K", .SpatialMap, 1, 65537⟩] := rfl
    rw [hlist, hW]
    rfl


/-! ## Partial-output count -/

theorem partialOutputFactor_eq_specContribution (dimensions : DimensionTable)
    (dim : Dimension)
    (hfit : dimensions.IsOverlapped dim.name = true → dimensions.IsSlidingDim dim.name = false →
      -2147483648 ≤ dim.size - dimensions.GetSize (dimensions.GetOverlappingDim dim.name) + 1 ∧
        dim.size - dimensions.GetSize (dimensions.GetOverlappingDim dim.name) + 1 ≤
          2147483647) :
    partialOutputFactor dimensions dim = specContribution dimensions dim := by
  unfold partialOutputFactor specContribution
  dsimp only
  cases h1 : dimensions.IsOverlapped dim.name <;> cases h2 : dimensions.IsSlidingDim dim.name
  · simp
  · simp
  · have hr := hfit h1 h2
    rw [wrapInt_add_left, wrapInt_of_range hr.1 hr.2]
    simp
  · simp

theorem partialOutputsLoop_eq_prod (names : LayerDimNames) (dimensions : DimensionTable)
    (l : List Dimension) :
    ∀ num_pouts : Int, wrapLong num_pouts = num_pouts →
      (∀ dim ∈ l, isOutputDim names dim = false →
        dimensions.IsOverlapped dim.name = true → dimensions.IsSlidingDim dim.name = false →
        -2147483648 ≤ dim.size - dimensions.GetSize (dimensions.GetOverlappingDim dim.name) + 1 ∧
          dim.size - dimensions.GetSize (dimensions.GetOverlappingDim dim.name) + 1 ≤
            2147483647) →
      partialOutputsLoop names dimensions l num_pouts =
        wrapLong (num_pouts *
          ((l.filter (fun dim => !isOutputDim names dim)).map
            (specContribution dimensions)).prod) := by
  induction l with
  | nil =>
    intro num_pouts hp _
    simp [partialOutputsLoop, hp]
  | cons dim rest ih =>
    intro num_pouts hp hfit
    have hrest : ∀ dim' ∈ rest, isOutputDim names dim' = false →
        dimensions.IsOverlapped dim'.name = true → dimensions.IsSlidingDim dim'.name = false →
        -2147483648 ≤
            dim'.size - dimensions.GetSize (dimensions.GetOverlappingDim dim'.name) + 1 ∧
          dim'.size - dimensions.GetSize (dimensions.GetOverlappingDim dim'.name) + 1 ≤
            2147483647 := fun x hx => hfit x (List.mem_cons_of_mem dim hx)
    by_cases hout : dim.name = names.layer_dim_output_width_ ∨
        dim.name = names.layer_dim_output_height_
    · have hb : isOutputDim names dim = true := by
        unfold isOutputDim
        simpa using hout
      simp only [partialOutputsLoop, if_pos hout, ih num_pouts hp hrest, List.filter_cons, hb,
        Bool.not_true, Bool.false_eq_true, if_false]
    · have hb : isOutputDim names dim = false := by
        unfold isOutputDim
        simpa using hout
      have hfac := partialOutputFactor_eq_specContribution dimensions dim
        (hfit dim (List.mem_cons_self dim rest) hb)
      simp only [partialOutputsLoop, if_neg hout,
        ih _ (wrapLong_wrapLong _) hrest, List.filter_cons, hb,
        Bool.not_false, if_true, List.map_cons, List.prod_cons, hfac, wrapLong_mul_left,
        mul_assoc]

/-- C14 (as amended): when, for every dimension of the registry other than the
output-width and output-height dimensions that is overlapped and not sliding, the
adjusted size `size - partnerSize + 1` is representable in `int`, and the product of the
contributions is representable in `long`, the partial-output count built by
`AnalyzeNumPartialOutputs` is that product: over the dimensions other than output width
and height, of `size - partnerSize + 1` (overlapped, not sliding, value positive) or
`size` (every other case).  For an empty registry the count is 1. -/
theorem localNumPouts_eq_prod (names : LayerDimNames) (cu : ClusterUnit)
    (hfit : ∀ dim ∈ cu.dimensions_.dims, isOutputDim names dim = false →
      cu.dimensions_.IsOverlapped dim.name = true →
      cu.dimensions_.IsSlidingDim dim.name = false →
      -2147483648 ≤
          dim.size - cu.dimensions_.GetSize (cu.dimensions_.GetOverlappingDim dim.name) + 1 ∧
        dim.size - cu.dimensions_.GetSize (cu.dimensions_.GetOverlappingDim dim.name) + 1 ≤
          2147483647)
    (hlong : -9223372036854775808 ≤
        ((cu.dimensions_.dims.filter (fun dim => !isOutputDim names dim)).map
          (specContribution cu.dimensions_)).prod ∧
      ((cu.dimensions_.dims.filter (fun dim => !isOutputDim names dim)).map
          (specContribution cu.dimensions_)).prod ≤ 9223372036854775807) :
    localNumPouts names cu =
        ((cu.dimensions_.dims.filter (fun dim => !isOutputDim names dim)).map
          (specContribution cu.dimensions_)).prod ∧
      localNumPouts names
        { cu with dimensions_ := { cu.dimensions_ with dims := [] } } = 1 := by
  refine ⟨?_, rfl⟩
  unfold localNumPouts
  rw [partialOutputsLoop_eq_prod names cu.dimensions_ cu.dimensions_.dims 1 (by decide) hfit,
    one_mul, wrapLong_of_range hlong.1 hlong.2]

/-- The partial-output count of the sample registry: `16 * (9 - 3 + 1) * 3`. -/
theorem localNumPouts_eq_prod_sample :
    localNumPouts sampleNames (sampleSpatialState 16 4 4 4) = 336 ∧
      (((sampleSpatialState 16 4 4 4).dimensions_.dims.filter
        (fun dim => !isOutputDim sampleNames dim)).map
          (specContribution (sampleSpatialState 16 4 4 4).dimensions_)).prod = 336 := by
  have hprod : (((sampleSpatialState 16 4 4 4).dimensions_.dims.filter
      (fun dim => !isOutputDim sampleNames dim)).map
        (specContribution (sampleSpatialState 16 4 4 4).dimensions_)).prod = 336 := by decide
  have h := (localNumPouts_eq_prod sampleNames (sampleSpatialState 16 4 4 4) (by decide)
    (by rw [hprod]; decide)).1
  rw [hprod] at h
  exact ⟨h, hprod⟩

/-- C14 (counterexample): the count is not the product of the contributions in general.
For three dimensions of size `2^21`, none overlapped, the product is `2^63` and the
`long` count is `-2^63`; for a dimension of size `INT_MAX` overlapped by a dimension of
size `0` the contribution is `INT_MAX - 0 + 1 = 2^31`, while the `int` adjusted size
wraps to a negative value and the count is the raw size `INT_MAX`. -/
theorem localNumPouts_overflow :
    ((largeState.dimensions_.dims.filter (fun dim => !isOutputDim sampleNames dim)).map
        (specContribution largeState.dimensions_)).prod = 9223372036854775808 ∧
      localNumPouts sampleNames largeState = -9223372036854775808 ∧
      ((edgeDims.dims.filter (fun dim => !isOutputDim sampleNames dim)).map
        (specContribution edgeDims)).prod = 2147483648 ∧
      localNumPouts sampleNames { largeState with dimensions_ := edgeDims } = 2147483647 := by
  refine ⟨by decide, by decide, by decide, by decide⟩

/-! ## The partial-output stage and the analyzer state -/

/-- The members that no preprocessing stage assigns keep the values they had before
`Preprocess`. -/
theorem Preprocess_preserves (names : LayerDimNames) (cu0 cu : ClusterUnit)
    (h : Preprocess names cu0 = .ok cu) :
    cu.num_pouts_ = cu0.num_pouts_ ∧ cu.cluster_level_ = cu0.cluster_level_ ∧
      cu.cluster_size_ = cu0.cluster_size_ ∧ cu.dataflow_ = cu0.dataflow_ ∧
      cu.dimensions_ = cu0.dimensions_ ∧
      cu.outer_temporal_map_idx_ = cu0.outer_temporal_map_idx_ := by
  unfold Preprocess at h
  split at h
  · cases h
  · rename_i cu1 h1
    split at h
    · cases h
    · rename_i cu2 h2
      split at h
      · cases h
      · rename_i cu3 h3
        split at h
        · cases h
        · rename_i cu4 h4
          simp only [Except.ok.injEq] at h
          have f1 := AnalyzeSpatialMapIdx_frame _ _ h1
          have f2 := AnalyzeInnerTemporalMapIdx_frame _ _ h2
          have f3 := AnalyzeNumSpatialIterations_frame _ _ h3
          obtain ⟨d, r, _, _, f4⟩ := AnalyzeSpatialEdgeCase_inv _ _ h4
          have f5 := mappingSizesLoop_frame cu4.dataflow_ 0 cu4
          have hcu : cu = mappingSizesLoop cu4.dataflow_ 0 cu4 := h.symm
          have e : cu3 = { cu0 with
              upper_spatial_map_idx_ := cu1.upper_spatial_map_idx_
              lower_spatial_map_idx_ := cu1.lower_spatial_map_idx_
              inner_temporal_map_idx_ := cu2.inner_temporal_map_idx_
              num_spatial_iterations_ := cu3.num_spatial_iterations_ } := by
            rw [f3, f2, f1]
          refine ⟨?_, ?_, ?_, ?_, ?_, ?_⟩ <;> rw [hcu, f5, f4] <;> dsimp only <;> rw [e]

/-- C15: `AnalyzeNumPartialOutputs` returns the analyzer state it was given, whatever the
registry and the state are.  Hence on every constructed analyzer `num_pouts_` still holds
its initial value `0`, every function of the state has the same value before and after
the stage, and the analyzer constructed does not depend on the names that select the
dimensions entering the product. -/
theorem AnalyzeNumPartialOutputs_no_effect
    (ConvertToInputCentric : DirectiveTable → DirectiveTable) (names : LayerDimNames)
    (cluster_level cluster_size : Int) (dataflow : DirectiveTable)
    (dimensions : DimensionTable) (cu : ClusterUnit)
    (h : construct ConvertToInputCentric names cluster_level cluster_size dataflow dimensions =
      .ok cu) :
    (∀ (names' : LayerDimNames) (cu' : ClusterUnit),
        AnalyzeNumPartialOutputs names' cu' = cu') ∧
      cu.num_pouts_ = 0 ∧
      (∀ (α : Type) (accessor : ClusterUnit → α) (names' : LayerDimNames),
        accessor (AnalyzeNumPartialOutputs names' cu) = accessor cu) ∧
      ∀ names' : LayerDimNames,
        construct ConvertToInputCentric names' cluster_level cluster_size dataflow dimensions =
          .ok cu := by
  refine ⟨fun _ _ => rfl, ?_, fun _ _ _ => rfl, fun names' => ?_⟩
  · exact (Preprocess_preserves names _ cu h).1
  · rw [← h]
    rfl

/-- The analyzer constructed from `SpatialMap(4,2) K; TemporalMap(3,1) Y` has
`num_pouts_ = 0`, although the product over its registry is `30 * 7 * 3`. -/
theorem AnalyzeNumPartialOutputs_no_effect_witness :
    ∃ cu, construct id sampleNames 0 4 [⟨"K", .SpatialMap, 4, 2⟩, ⟨"Y", .TemporalMap, 3, 1⟩]
        (sampleDims 30 9 3) = .ok cu ∧
      cu.num_pouts_ = 0 ∧ localNumPouts sampleNames cu = 630 :=
  ⟨_, rfl,
    (AnalyzeNumPartialOutputs_no_effect id sampleNames 0 4
      [⟨"K", .SpatialMap, 4, 2⟩, ⟨"Y", .TemporalMap, 3, 1⟩] (sampleDims 30 9 3) _ rfl).2.1,
    by decide⟩



/-! ## Further properties of the spatial edge analysis -/

/-- C16 (as amended): for `S, T, O, C` in `1 .. INT_MAX` such that the `int` expressions
of lines 288 and 294 do not overflow, that is `O*(C-1) + T <= INT_MAX` and, when
`S > O*(C-1) + T`, `(steady+1)*O*C + O*(C-1) + T <= INT_MAX` for
`steady = floor((floor((S-T)/O) + 1) / C) - 1`, `AnalyzeSpatialEdgeCase` returns with
`num_edge_spatial_iterations_ = 1`: in the multi-sweep branch the steady count is that
`steady` and the test `(steady+1)*O*C + O*(C-1) + T > S` of line 294 holds. -/
theorem AnalyzeSpatialEdgeCase_edge_iterations (cu : ClusterUnit) (d : Directive)
    (hat : DirectiveTable.at? cu.dataflow_ cu.upper_spatial_map_idx_ = some d)
    (hS' : cu.dimensions_.GetSize d.GetVariable ≤ 2147483647) (hT : 1 ≤ d.GetSize)
    (hO : 1 ≤ d.GetOfs) (hO' : d.GetOfs ≤ 2147483647) (hC : 1 ≤ cu.cluster_size_)
    (hfit : d.GetOfs * (cu.cluster_size_ - 1) + d.GetSize ≤ 2147483647)
    (hsum : cu.dimensions_.GetSize d.GetVariable >
        d.GetOfs * (cu.cluster_size_ - 1) + d.GetSize →
      ((cu.dimensions_.GetSize d.GetVariable - d.GetSize) / d.GetOfs + 1) /
            cu.cluster_size_ * (d.GetOfs * cu.cluster_size_) +
          (d.GetOfs * (cu.cluster_size_ - 1) + d.GetSize) ≤ 2147483647) :
    ∃ cu', AnalyzeSpatialEdgeCase cu = .ok cu' ∧
      cu'.num_edge_spatial_iterations_ = 1 ∧
      (cu.dimensions_.GetSize d.GetVariable >
          d.GetOfs * (cu.cluster_size_ - 1) + d.GetSize →
        cu'.num_steady_spatial_iterations_ =
            ((cu.dimensions_.GetSize d.GetVariable - d.GetSize) / d.GetOfs + 1) /
              cu.cluster_size_ - 1 ∧
          (cu'.num_steady_spatial_iterations_ + 1) * (d.GetOfs * cu.cluster_size_) +
              (d.GetOfs * (cu.cluster_size_ - 1) + d.GetSize) >
            cu.dimensions_.GetSize d.GetVariable) := by
  generalize hSdef : cu.dimensions_.GetSize d.GetVariable = S at *
  generalize hTdef : d.GetSize = T at *
  generalize hOdef : d.GetOfs = O at *
  generalize hCdef : cu.cluster_size_ = C at *
  have hF := fullCoverageExact_pos T hO hC
  have hfit' : fullCoverageExact T O C ≤ 2147483647 := hfit
  by_cases hmulti : fullCoverageExact T O C < S
  · have hfloor := steadyExact_eq_floor hO hC hmulti
    have htest := multi_sweep_edge_test hO hC hmulti
    have hsum' : (steadyExact S T O C + 1) * (O * C) + fullCoverageExact T O C ≤
        2147483647 := by
      have h := hsum hmulti
      rw [hfloor]
      have e : (((S - T) / O + 1) / C - 1 + 1) = ((S - T) / O + 1) / C := by ring
      rw [e]
      exact h
    have hr := spatialEdgeCase_true_multi hS' hT hO hO' hC hmulti
    rw [wrapInt_of_range (by omega) hsum', if_pos htest] at hr
    have hres := AnalyzeSpatialEdgeCase_eq cu d hat _
      (by rw [hSdef, hTdef, hOdef, hCdef]; exact hr)
    refine ⟨_, hres, rfl, fun _ => ?_⟩
    dsimp only
    rw [spatialEdgeCaseExact_multi_sweep hO hC hmulti]
    dsimp only
    rw [← hfloor]
    exact ⟨rfl, htest⟩
  · have hbr : ¬ S > each_sp_iter_full_coverage T O C := by
      rw [each_sp_iter_full_coverage_eq_wrap, wrapInt_of_range (by omega) hfit']
      omega
    have hr := spatialEdgeCase_single_branch hS' hT hO hC hbr
    have hres := AnalyzeSpatialEdgeCase_eq cu d hat _
      (by rw [hSdef, hTdef, hOdef, hCdef]; exact hr)
    refine ⟨_, hres, ?_, fun h => ?_⟩
    · dsimp only
      rw [spatialEdgeCaseExact_single_sweep hO (by omega)]
    · exact absurd h hmulti

/-- C16 (counterexample): at `S = 100000`, `T = 1`, `O = C = 65537` the span of line 288
wraps to `65537` and `AnalyzeSpatialEdgeCase` stores `num_edge_spatial_iterations_ = 0`;
at `S = 2^31 - 1`, `T = 1`, `O = 2^30`, `C = 2` the span `2^30 + 1` is representable but
the sum of line 294 wraps, and the stored value is `0` again. -/
theorem AnalyzeSpatialEdgeCase_edge_iterations_wrapped :
    (∃ cu', AnalyzeSpatialEdgeCase (sampleSpatialState 100000 1 65537 65537) = .ok cu' ∧
        cu'.num_edge_spatial_iterations_ = 0) ∧
      ∃ cu', AnalyzeSpatialEdgeCase (sampleSpatialState 2147483647 1 1073741824 2) = .ok cu' ∧
        cu'.num_edge_spatial_iterations_ = 0 :=
  ⟨⟨_, rfl, rfl⟩, ⟨_, rfl, rfl⟩⟩

/-- C17: in the multi-sweep branch (`S > O*(C-1) + T`, with `T, O, C >= 1` and `S`, `O`
of type `int`), with `n = floor((S-T)/O) + 1` the number of tile positions,
`AnalyzeSpatialEdgeCase` returns with `num_spatial_edge_clusters_ = n mod C` when
`n mod C` is not zero and with `num_spatial_edge_clusters_ = 1` when it is zero. -/
theorem AnalyzeSpatialEdgeCase_multi_sweep_clusters (cu : ClusterUnit) (d : Directive)
    (hat : DirectiveTable.at? cu.dataflow_ cu.upper_spatial_map_idx_ = some d)
    (hS' : cu.dimensions_.GetSize d.GetVariable ≤ 2147483647) (hT : 1 ≤ d.GetSize)
    (hO : 1 ≤ d.GetOfs) (hO' : d.GetOfs ≤ 2147483647) (hC : 1 ≤ cu.cluster_size_)
    (hmulti : cu.dimensions_.GetSize d.GetVariable >
      d.GetOfs * (cu.cluster_size_ - 1) + d.GetSize) :
    ∃ cu', AnalyzeSpatialEdgeCase cu = .ok cu' ∧
      (((cu.dimensions_.GetSize d.GetVariable - d.GetSize) / d.GetOfs + 1) %
            cu.cluster_size_ ≠ 0 →
        cu'.num_spatial_edge_clusters_ =
          ((cu.dimensions_.GetSize d.GetVariable - d.GetSize) / d.GetOfs + 1) %
            cu.cluster_size_) ∧
      (((cu.dimensions_.GetSize d.GetVariable - d.GetSize) / d.GetOfs + 1) %
            cu.cluster_size_ = 0 →
        cu'.num_spatial_edge_clusters_ = 1) := by
  have hfull : fullCoverageExact d.GetSize d.GetOfs cu.cluster_size_ <
      cu.dimensions_.GetSize d.GetVariable := hmulti
  have hr := spatialEdgeCase_true_multi hS' hT hO hO' hC hfull
  refine ⟨_, AnalyzeSpatialEdgeCase_eq cu d hat _ hr, fun hne => ?_, fun heq => ?_⟩
  · dsimp only
    rw [spatialEdgeCaseExact_multi_sweep hO hC hfull]
    dsimp only
    rw [if_neg hne]
  · dsimp only
    rw [spatialEdgeCaseExact_multi_sweep hO hC hfull]
    dsimp only
    rw [if_pos heq]

/-- C18 (as amended): in the single-sweep branch (`S <= O*(C-1) + T`, `T, O, C >= 1`)
with a span `O*(C-1) + T <= INT_MAX` (the `int` expression of line 288 does not
overflow), `AnalyzeSpatialEdgeCase` returns with an edge-cluster count `k` that is the
least `k >= 1` whose span covers the dimension, `O*(k-1) + T >= S`; it is `1` when
`S <= T` and `ceil((S-T)/O) + 1` when `S > T`. -/
theorem AnalyzeSpatialEdgeCase_single_sweep_clusters (cu : ClusterUnit) (d : Directive)
    (hat : DirectiveTable.at? cu.dataflow_ cu.upper_spatial_map_idx_ = some d)
    (hT : 1 ≤ d.GetSize) (hO : 1 ≤ d.GetOfs) (hC : 1 ≤ cu.cluster_size_)
    (hsingle : cu.dimensions_.GetSize d.GetVariable ≤
      d.GetOfs * (cu.cluster_size_ - 1) + d.GetSize)
    (hfit : d.GetOfs * (cu.cluster_size_ - 1) + d.GetSize ≤ 2147483647) :
    ∃ cu', AnalyzeSpatialEdgeCase cu = .ok cu' ∧
      1 ≤ cu'.num_spatial_edge_clusters_ ∧
      cu.dimensions_.GetSize d.GetVariable ≤
        d.GetOfs * (cu'.num_spatial_edge_clusters_ - 1) + d.GetSize ∧
      (∀ m : Int, 1 ≤ m →
        cu.dimensions_.GetSize d.GetVariable ≤ d.GetOfs * (m - 1) + d.GetSize →
        cu'.num_spatial_edge_clusters_ ≤ m) ∧
      (cu.dimensions_.GetSize d.GetVariable ≤ d.GetSize →
        cu'.num_spatial_edge_clusters_ = 1) ∧
      (d.GetSize < cu.dimensions_.GetSize d.GetVariable →
        cu'.num_spatial_edge_clusters_ =
          ⌈((cu.dimensions_.GetSize d.GetVariable - d.GetSize : Int) : ℚ) /
            (d.GetOfs : ℚ)⌉ + 1) := by
  have hfull : cu.dimensions_.GetSize d.GetVariable ≤
      fullCoverageExact d.GetSize d.GetOfs cu.cluster_size_ := hsingle
  have hfit' : fullCoverageExact d.GetSize d.GetOfs cu.cluster_size_ ≤ 2147483647 := hfit
  have hO0 : 0 < d.GetOfs := by omega
  generalize hSdef : cu.dimensions_.GetSize d.GetVariable = S at *
  generalize hTdef : d.GetSize = T at *
  generalize hOdef : d.GetOfs = O at *
  generalize hCdef : cu.cluster_size_ = C at *
  have hF := fullCoverageExact_pos T hO hC
  have hbr : ¬ S > each_sp_iter_full_coverage T O C := by
    rw [each_sp_iter_full_coverage_eq_wrap, wrapInt_of_range (by omega) hfit']
    omega
  have hr := spatialEdgeCase_single_branch (by omega) hT hO hC hbr
  have hk : (spatialEdgeCaseExact S T O C).num_spatial_edge_clusters =
      if S ≤ T then 1 else divRoundUpExact (S - T) O + 1 := by
    rw [spatialEdgeCaseExact_single_sweep hO hfull]
    dsimp only
    by_cases hST : S ≤ T
    · rw [if_pos hST, if_pos hST]
    · rw [if_neg hST, if_neg hST, divRoundUpExact_eq_ediv (by omega) hO0]
      split_ifs <;> omega
  have hres := AnalyzeSpatialEdgeCase_eq cu d hat _
    (by rw [hSdef, hTdef, hOdef, hCdef]; exact hr)
  refine ⟨_, hres, ?_, ?_, ?_, ?_, ?_⟩ <;> dsimp only <;> rw [hk]
  · by_cases hST : S ≤ T
    · rw [if_pos hST]
    · rw [if_neg hST]
      have := divRoundUpExact_nonneg (by omega : 0 ≤ S - T) hO0
      omega
  · by_cases hST : S ≤ T
    · rw [if_pos hST]
      omega
    · rw [if_neg hST]
      have h1 := divRoundUpExact_mul_ge (by omega : 0 ≤ S - T) hO0
      have h2 : O * (divRoundUpExact (S - T) O + 1 - 1) = divRoundUpExact (S - T) O * O := by
        ring
      omega
  · intro m hm hcover
    by_cases hST : S ≤ T
    · rw [if_pos hST]
      exact hm
    · rw [if_neg hST]
      have h1 := divRoundUpExact_least (by omega : 0 ≤ S - T) hO0 (m - 1)
        (by have : (m - 1) * O = O * (m - 1) := by ring
            omega)
      omega
  · intro hST
    rw [if_pos hST]
  · intro hST
    rw [if_neg (by omega), divRoundUpExact_eq_ceil (by omega) hO0]

/-- C18 (counterexample): `S = 100000`, `T = 1`, `O = C = 65537` satisfies
`1 <= S <= O*(C-1) + T`, but the span of line 288 wraps to `65537 < S`, the multi-sweep
path is taken and the stored count is `2`, whose span `O*(2-1) + T = 65538` does not
cover `S`. -/
theorem AnalyzeSpatialEdgeCase_single_sweep_wrapped :
    (1 : Int) ≤ 100000 ∧ (100000 : Int) ≤ 65537 * (65537 - 1) + 1 ∧
      ∃ cu', AnalyzeSpatialEdgeCase (sampleSpatialState 100000 1 65537 65537) = .ok cu' ∧
        cu'.num_spatial_edge_clusters_ = 2 ∧
        ¬ ((100000 : Int) ≤ 65537 * (cu'.num_spatial_edge_clusters_ - 1) + 1) :=
  ⟨by decide, by decide, _, rfl, rfl, by decide⟩

/-- C19 (as amended): for `S, T, O, C >= 1` with `S <= INT_MAX`, `O*C <= INT_MAX` and
`O*(C-1) + T <= INT_MAX` (the `int` products of lines 237 and 288 do not overflow),
after `AnalyzeNumSpatialIterations` and `AnalyzeSpatialEdgeCase` on the same inputs,
`0 <= num_steady_spatial_iterations_ <= num_spatial_iterations_ - 1`. -/
theorem steady_iterations_within_spatial_iterations (cu : ClusterUnit) (d : Directive)
    (hat : DirectiveTable.at? cu.dataflow_ cu.upper_spatial_map_idx_ = some d)
    (hS : 1 ≤ cu.dimensions_.GetSize d.GetVariable)
    (hS' : cu.dimensions_.GetSize d.GetVariable ≤ 2147483647) (hT : 1 ≤ d.GetSize)
    (hO : 1 ≤ d.GetOfs) (hC : 1 ≤ cu.cluster_size_)
    (hOC : d.GetOfs * cu.cluster_size_ ≤ 2147483647)
    (hfit : d.GetOfs * (cu.cluster_size_ - 1) + d.GetSize ≤ 2147483647) :
    ∃ cu1 cu2, AnalyzeNumSpatialIterations cu = .ok cu1 ∧
      AnalyzeSpatialEdgeCase cu1 = .ok cu2 ∧
      0 ≤ cu2.num_steady_spatial_iterations_ ∧
      cu2.num_steady_spatial_iterations_ ≤ cu2.num_spatial_iterations_ - 1 := by
  have hO' : d.GetOfs ≤ 2147483647 := by
    have := Int.mul_le_mul_of_nonneg_left hC (by omega : 0 ≤ d.GetOfs)
    omega
  have hfit' : fullCoverageExact d.GetSize d.GetOfs cu.cluster_size_ ≤ 2147483647 := hfit
  have hF := fullCoverageExact_pos d.GetSize hO hC
  have hbounds := spatialEdgeCaseExact_steady_bounds hS hT hO hC
  have h1 := AnalyzeNumSpatialIterations_eq_exact cu d hat (by omega) hS' hO hC hOC
  have hr : ∃ r, spatialEdgeCase (cu.dimensions_.GetSize d.GetVariable) d.GetSize d.GetOfs
      cu.cluster_size_ = .ok r ∧ r.num_steady_spatial_iterations =
        (spatialEdgeCaseExact (cu.dimensions_.GetSize d.GetVariable) d.GetSize d.GetOfs
          cu.cluster_size_).num_steady_spatial_iterations := by
    by_cases hmulti : fullCoverageExact d.GetSize d.GetOfs cu.cluster_size_ <
        cu.dimensions_.GetSize d.GetVariable
    · exact ⟨_, spatialEdgeCase_true_multi hS' hT hO hO' hC hmulti, rfl⟩
    · have hbr : ¬ cu.dimensions_.GetSize d.GetVariable >
          each_sp_iter_full_coverage d.GetSize d.GetOfs cu.cluster_size_ := by
        rw [each_sp_iter_full_coverage_eq_wrap, wrapInt_of_range (by omega) hfit']
        omega
      exact ⟨_, spatialEdgeCase_single_branch hS' hT hO hC hbr, rfl⟩
  obtain ⟨r, hr1, hr2⟩ := hr
  have h2 := AnalyzeSpatialEdgeCase_eq
    { cu with
      num_spatial_iterations_ :=
        divRoundUpExact (cu.dimensions_.GetSize d.GetVariable)
          (d.GetOfs * cu.cluster_size_) } d hat r hr1
  refine ⟨_, _, h1, h2, ?_, ?_⟩
  · dsimp only
    rw [hr2]
    exact hbounds.1
  · dsimp only
    rw [hr2]
    exact hbounds.2

/-- C19 (counterexample): for `S, T, O, C >= 1` the bounds on the steady count can fail.
At `S = 100000`, `T = 1`, `O = C = 65537` the two stages return with a steady count of
`-1`.  At `S = 1`, `T = INT_MAX`, `O = 1`, `C = 2` (only the span of line 288 overflows)
the steady count is `-1073741823`.  At `S = 2147483638`, `T = 1`, `O = 1073741829`,
`C = 2` (only the product of line 237 overflows) the steady count is `0` and the number
of spatial iterations is `-1`. -/
theorem steady_iterations_wrapped :
    (∃ cu1 cu2,
        AnalyzeNumSpatialIterations (sampleSpatialState 100000 1 65537 65537) = .ok cu1 ∧
        AnalyzeSpatialEdgeCase cu1 = .ok cu2 ∧
        cu2.num_steady_spatial_iterations_ = -1 ∧ cu2.num_spatial_iterations_ = 1 ∧
        ¬ (0 ≤ cu2.num_steady_spatial_iterations_)) ∧
      (∃ cu1 cu2,
        AnalyzeNumSpatialIterations (sampleSpatialState 1 2147483647 1 2) = .ok cu1 ∧
        AnalyzeSpatialEdgeCase cu1 = .ok cu2 ∧
        cu2.num_steady_spatial_iterations_ = -1073741823 ∧ cu2.num_spatial_iterations_ = 1 ∧
        ¬ (0 ≤ cu2.num_steady_spatial_iterations_)) ∧
      ∃ cu1 cu2,
        AnalyzeNumSpatialIterations (sampleSpatialState 2147483638 1 1073741829 2) = .ok cu1 ∧
        AnalyzeSpatialEdgeCase cu1 = .ok cu2 ∧
        cu2.num_steady_spatial_iterations_ = 0 ∧ cu2.num_spatial_iterations_ = -1 ∧
        ¬ (cu2.num_steady_spatial_iterations_ ≤ cu2.num_spatial_iterations_ - 1) :=
  ⟨⟨_, _, rfl, rfl, rfl, rfl, by decide⟩, ⟨_, _, rfl, rfl, rfl, rfl, by decide⟩,
    ⟨_, _, rfl, rfl, rfl, rfl, by decide⟩⟩

theorem intDiv_error {a b : Int} {e : Abort} (h : intDiv a b = .error e) :
    e = Abort.arithmetic := by
  unfold intDiv at h
  split_ifs at h
  cases h
  rfl

theorem intMod_error {a b : Int} {e : Abort} (h : intMod a b = .error e) :
    e = Abort.arithmetic := by
  unfold intMod at h
  split_ifs at h
  cases h
  rfl

theorem divRoundUp_error {a b : Int} {e : Abort} (h : divRoundUp a b = .error e) :
    e = Abort.arithmetic := by
  unfold divRoundUp at h
  cases hq : intDiv a b with
  | error e1 =>
    rw [hq] at h
    cases h
    exact intDiv_error hq
  | ok q =>
    cases hr : intMod a b with
    | error e1 =>
      rw [hq, hr] at h
      cases h
      exact intMod_error hr
    | ok r =>
      rw [hq, hr] at h
      dsimp only at h
      split_ifs at h

/-- The rounded-up quotient of two `int` is computed exactly when the division does not
fault. -/
theorem divRoundUp_returns_iff (a b : Int) :
    (∃ n, divRoundUp a b = .ok n) ↔ ¬ (b = 0 ∨ (a = -2147483648 ∧ b = -1)) := by
  constructor
  · rintro ⟨n, hn⟩ hbad
    simp only [divRoundUp, intDiv, if_pos hbad] at hn
    cases hn
  · intro hok
    simp only [divRoundUp, intDiv, intMod, if_neg hok]
    split_ifs
    · exact ⟨_, rfl⟩
    · exact ⟨_, rfl⟩

theorem steadyMultiSweep_error {S T O C : Int} {e : Abort}
    (h : steadyMultiSweep S T O C = .error e) : e = Abort.arithmetic := by
  unfold steadyMultiSweep at h
  cases hq : intDiv (wrapInt (S - T)) O with
  | error e1 =>
    rw [hq] at h
    cases h
    exact intDiv_error hq
  | ok q =>
    rw [hq] at h
    dsimp only at h
    cases ha : intDiv (wrapInt (q + 1)) C with
    | error e1 =>
      rw [ha] at h
      cases h
      exact intDiv_error ha
    | ok a =>
      rw [ha] at h
      cases h

theorem multiSweepCase_error {S T O C : Int} {e : Abort}
    (h : multiSweepCase S T O C = .error e) : e = Abort.arithmetic := by
  unfold multiSweepCase at h
  cases hs : steadyMultiSweep S T O C with
  | error e1 =>
    rw [hs] at h
    cases h
    exact steadyMultiSweep_error hs
  | ok steady =>
    rw [hs] at h
    dsimp only at h
    split_ifs at h
    all_goals
      cases hq : intDiv (wrapInt (remaining_items S O C steady - T)) O with
      | error e1 =>
        rw [hq] at h
        cases h
        exact intDiv_error hq
      | ok q =>
        rw [hq] at h
        cases h

theorem singleSweepCase_error {S T O : Int} {e : Abort}
    (h : singleSweepCase S T O = .error e) : e = Abort.arithmetic := by
  unfold singleSweepCase at h
  split_ifs at h
  cases hq : intDiv (wrapInt (S - T)) O with
  | error e1 =>
    rw [hq] at h
    cases h
    exact intDiv_error hq
  | ok q =>
    rw [hq] at h
    cases h

theorem spatialEdgeCase_error {S T O C : Int} {e : Abort}
    (h : spatialEdgeCase S T O C = .error e) : e = Abort.arithmetic := by
  unfold spatialEdgeCase at h
  dsimp only at h
  split at h
  · rename_i e1 hb
    cases h
    split_ifs at hb
    · exact multiSweepCase_error hb
    · exact singleSweepCase_error hb
  · split_ifs at h

/-- The only fault of `AnalyzeNumSpatialIterations` after a successful access is an
arithmetic one, and there is none exactly when the division of line 237 is defined. -/
theorem AnalyzeNumSpatialIterations_of_at (cu : ClusterUnit) (d : Directive)
    (hat : DirectiveTable.at? cu.dataflow_ cu.upper_spatial_map_idx_ = some d) :
    (∀ e, AnalyzeNumSpatialIterations cu = .error e → e = Abort.arithmetic) ∧
      ((∃ cu', AnalyzeNumSpatialIterations cu = .ok cu') ↔
        ¬ (wrapInt (d.GetOfs * cu.cluster_size_) = 0 ∨
          (cu.dimensions_.GetSize d.GetVariable = -2147483648 ∧
            wrapInt (d.GetOfs * cu.cluster_size_) = -1))) := by
  rw [← divRoundUp_returns_iff]
  cases hn : divRoundUp (cu.dimensions_.GetSize d.GetVariable)
      (wrapInt (d.GetOfs * cu.cluster_size_)) with
  | error e1 =>
    have h : AnalyzeNumSpatialIterations cu = .error e1 := by
      simp only [AnalyzeNumSpatialIterations, hat, hn]
    rw [h]
    refine ⟨fun e he => ?_, ?_⟩
    · cases he
      exact divRoundUp_error hn
    · constructor
      · rintro ⟨cu', hcu⟩
        cases hcu
      · rintro ⟨n, hn'⟩
        cases hn'
  | ok n =>
    rw [AnalyzeNumSpatialIterations_eq cu d hat n hn]
    refine ⟨fun e he => ?_, ?_⟩
    · cases he
    · exact ⟨fun _ => ⟨n, rfl⟩, fun _ => ⟨_, rfl⟩⟩

/-- The only fault of `AnalyzeSpatialEdgeCase` after a successful access is an arithmetic
one, and there is none when the stride and the cluster width are positive. -/
theorem AnalyzeSpatialEdgeCase_of_at (cu : ClusterUnit) (d : Directive)
    (hat : DirectiveTable.at? cu.dataflow_ cu.upper_spatial_map_idx_ = some d) :
    (∀ e, AnalyzeSpatialEdgeCase cu = .error e → e = Abort.arithmetic) ∧
      (1 ≤ d.GetOfs → 1 ≤ cu.cluster_size_ → ∃ cu', AnalyzeSpatialEdgeCase cu = .ok cu') := by
  constructor
  · intro e he
    cases hr : spatialEdgeCase (cu.dimensions_.GetSize d.GetVariable) d.GetSize d.GetOfs
        cu.cluster_size_ with
    | error e1 =>
      have h : AnalyzeSpatialEdgeCase cu = .error e1 := by
        simp only [AnalyzeSpatialEdgeCase, hat, hr]
      rw [h] at he
      cases he
      exact spatialEdgeCase_error hr
    | ok r =>
      rw [AnalyzeSpatialEdgeCase_eq cu d hat r hr] at he
      cases he
  · intro hO hC
    obtain ⟨r, hr, _⟩ := spatialEdgeCase_returns (cu.dimensions_.GetSize d.GetVariable)
      d.GetSize hO hC
    exact ⟨_, AnalyzeSpatialEdgeCase_eq cu d hat r hr⟩

/-- Once `dataflow_->at(upper)` succeeds, it succeeds in both stages that perform it, and
these can only fail by an arithmetic fault. -/
theorem upper_access_stages (cu : ClusterUnit) (du : Directive)
    (hat : DirectiveTable.at? cu.dataflow_ cu.upper_spatial_map_idx_ = some du) :
    DirectiveTable.at? cu.dataflow_ cu.upper_spatial_map_idx_ = some du ∧
      (∀ e, AnalyzeNumSpatialIterations cu = .error e → e = Abort.arithmetic) ∧
      ((∃ cu3, AnalyzeNumSpatialIterations cu = .ok cu3) ↔
        ¬ (wrapInt (du.GetOfs * cu.cluster_size_) = 0 ∨
          (cu.dimensions_.GetSize du.GetVariable = -2147483648 ∧
            wrapInt (du.GetOfs * cu.cluster_size_) = -1))) ∧
      ∀ cu3, AnalyzeNumSpatialIterations cu = .ok cu3 →
        DirectiveTable.at? cu3.dataflow_ cu3.upper_spatial_map_idx_ = some du ∧
        (∀ e, AnalyzeSpatialEdgeCase cu3 = .error e → e = Abort.arithmetic) ∧
        (1 ≤ du.GetOfs → 1 ≤ cu.cluster_size_ →
          ∃ cu4, AnalyzeSpatialEdgeCase cu3 = .ok cu4) := by
  have hN := AnalyzeNumSpatialIterations_of_at cu du hat
  refine ⟨hat, hN.1, hN.2, fun cu3 h3 => ?_⟩
  have f3 := AnalyzeNumSpatialIterations_frame _ _ h3
  have hat3 : DirectiveTable.at? cu3.dataflow_ cu3.upper_spatial_map_idx_ = some du := by
    rw [f3]
    exact hat
  have hsz3 : cu3.cluster_size_ = cu.cluster_size_ := by
    rw [f3]
  have hE := AnalyzeSpatialEdgeCase_of_at cu3 du hat3
  rw [hsz3] at hE
  exact ⟨hat3, hE.1, hE.2⟩

theorem AnalyzeInnerTemporalMapIdx_eq (cu : ClusterUnit) (u : Nat)
    (hu : cu.upper_spatial_map_idx_ = (u : Int)) :
    AnalyzeInnerTemporalMapIdx cu =
      .ok { cu with
        inner_temporal_map_idx_ :=
          innerTemporalLoop cu.dimensions_ (cu.dataflow_.drop u) u u } := by
  have hnn : ¬ (u : Int) < 0 := by omega
  simp only [AnalyzeInnerTemporalMapIdx, hu, if_neg hnn, Int.toNat_ofNat]

theorem at?_natCast (l : DirectiveTable) (i : Nat) :
    DirectiveTable.at? l (i : Int) = l[i]? := by
  simp [DirectiveTable.at?]

/-- C20: whenever `AnalyzeSpatialMapIdx` returns on a sequence of length `len` (freshly
initialised analyzer), `AnalyzeInnerTemporalMapIdx` returns too and the indices found are
in bounds and ordered: `0 <= upper < len` with a spatial map at `upper`; `lower` is `-1`
or `upper < lower < len` with a spatial map at `lower`; `upper <= inner < len`, and the
directive at `inner` is the upper spatial map or a temporal map whose tile size is
smaller than its dimension size.  Hence the accesses `dataflow_->at(upper)` of the later
stages do not fail: in `AnalyzeNumSpatialIterations`, and in `AnalyzeSpatialEdgeCase` on
any state the former returns, the access yields the directive at `upper`, and the only
way either stage can fail is an arithmetic fault of its divisions.
`AnalyzeNumSpatialIterations` returns exactly when the division of line 237 is defined,
and `AnalyzeSpatialEdgeCase` returns when the stride and the cluster width are
positive. -/
theorem index_discovery_in_bounds (cluster_level cluster_size : Int)
    (dataflow : DirectiveTable) (dimensions : DimensionTable) (cu1 : ClusterUnit)
    (h1 : AnalyzeSpatialMapIdx (init cluster_level cluster_size dataflow dimensions) =
      .ok cu1) :
    ∃ cu2, AnalyzeInnerTemporalMapIdx cu1 = .ok cu2 ∧
      ∃ u : Nat, cu2.upper_spatial_map_idx_ = (u : Int) ∧ u < dataflow.length ∧
        (∃ du, dataflow[u]? = some du ∧ du.GetClass = DirectiveClass.SpatialMap) ∧
        (cu2.lower_spatial_map_idx_ = -1 ∨
          ∃ k : Nat, cu2.lower_spatial_map_idx_ = (k : Int) ∧ u < k ∧ k < dataflow.length ∧
            ∃ dk, dataflow[k]? = some dk ∧ dk.GetClass = DirectiveClass.SpatialMap) ∧
        (∃ r : Nat, cu2.inner_temporal_map_idx_ = (r : Int) ∧ u ≤ r ∧ r < dataflow.length ∧
          (r = u ∨
            ∃ dr, dataflow[r]? = some dr ∧ dr.GetClass = DirectiveClass.TemporalMap ∧
              dr.GetSize < dimensions.GetSize dr.GetVariable)) ∧
        ∃ du, dataflow[u]? = some du ∧
          DirectiveTable.at? cu2.dataflow_ cu2.upper_spatial_map_idx_ = some du ∧
          (∀ e, AnalyzeNumSpatialIterations cu2 = .error e → e = Abort.arithmetic) ∧
          ((∃ cu3, AnalyzeNumSpatialIterations cu2 = .ok cu3) ↔
            ¬ (wrapInt (du.GetOfs * cluster_size) = 0 ∨
              (dimensions.GetSize du.GetVariable = -2147483648 ∧
                wrapInt (du.GetOfs * cluster_size) = -1))) ∧
          ∀ cu3, AnalyzeNumSpatialIterations cu2 = .ok cu3 →
            DirectiveTable.at? cu3.dataflow_ cu3.upper_spatial_map_idx_ = some du ∧
            (∀ e, AnalyzeSpatialEdgeCase cu3 = .error e → e = Abort.arithmetic) ∧
            (1 ≤ du.GetOfs → 1 ≤ cluster_size → ∃ cu4, AnalyzeSpatialEdgeCase cu3 = .ok cu4) := by
  obtain ⟨u, hu, hsp, _, hlow⟩ :=
    AnalyzeSpatialMapIdx_init_indices cluster_level cluster_size dataflow dimensions cu1 h1
  have hframe := AnalyzeSpatialMapIdx_frame _ _ h1
  have hdf : cu1.dataflow_ = dataflow := by rw [hframe]; rfl
  have hdim : cu1.dimensions_ = dimensions := by rw [hframe]; rfl
  have hsz : cu1.cluster_size_ = cluster_size := by rw [hframe]; rfl
  have hulen := isSpatialAt_lt_length hsp
  obtain ⟨du, hdu, hducls⟩ := hsp
  have h2 := AnalyzeInnerTemporalMapIdx_eq cu1 u hu
  rw [hdf, hdim] at h2
  obtain ⟨_, hsel⟩ := innerTemporalLoop_spec dimensions (dataflow.drop u) u u
  have hat : DirectiveTable.at? dataflow cu1.upper_spatial_map_idx_ = some du := by
    rw [hu, at?_natCast]
    exact hdu
  refine ⟨_, h2, u, hu, hulen, ⟨du, hdu, hducls⟩, ?_, ?_, du, hdu, ?_⟩
  · rcases hlow with ⟨hl, _⟩ | ⟨k, hk, hl, hksp, _⟩
    · exact Or.inl hl
    · exact Or.inr ⟨k, hl, hk, isSpatialAt_lt_length hksp, hksp⟩
  · rcases hsel with ⟨h, _⟩ | ⟨j, d, hj, hd, h⟩
    · exact ⟨u, h, le_refl u, hulen, Or.inl rfl⟩
    · rw [List.getElem?_drop] at hj
      rw [isIteratedTemporal_iff] at hd
      refine ⟨u + j, ?_, by omega, (List.getElem?_eq_some_iff.1 hj).1,
        Or.inr ⟨d, hj, hd.1, hd.2⟩⟩
      dsimp only
      rw [h]
      push_cast
      rfl
  · rw [← hsz]
    exact upper_access_stages _ du hat
/-! ## Instances on the sample inputs -/

/-- On `TemporalMap K; SpatialMap Y; SpatialMap R` the upper spatial index is 1 and the
lower spatial index is 2. -/
theorem AnalyzeSpatialMapIdx_first_and_second_witness :
    ∃ cu', AnalyzeSpatialMapIdx (init 0 4 twoSpatialDataflow (sampleDims 16 9 3)) = .ok cu' ∧
      ∃ i : Nat, cu'.upper_spatial_map_idx_ = (i : Int) ∧ isSpatialAt twoSpatialDataflow i ∧
        noSpatialBetween twoSpatialDataflow 0 i ∧
        ((cu'.lower_spatial_map_idx_ = -1 ∧
            noSpatialBetween twoSpatialDataflow (i + 1) twoSpatialDataflow.length) ∨
          ∃ k : Nat, i < k ∧ cu'.lower_spatial_map_idx_ = (k : Int) ∧
            isSpatialAt twoSpatialDataflow k ∧ noSpatialBetween twoSpatialDataflow (i + 1) k) :=
  AnalyzeSpatialMapIdx_first_and_second 0 4 twoSpatialDataflow (sampleDims 16 9 3)
    (by decide)

/-- The entries of `Y`, mapped by the inner temporal directive `TemporalMap(3,1) Y` at
position 1: mapped 3, spatially unique 0, temporally unique 1 (the stride). -/
theorem AnalyzeMappingSizes_entries_witness :
    (AnalyzeMappingSizes sampleMappingState).num_mapped_elements_.get "Y" = 3 ∧
      (AnalyzeMappingSizes sampleMappingState).sp_mapped_unique_elements_.get "Y" = 0 ∧
      (AnalyzeMappingSizes sampleMappingState).tp_mapped_unique_elements_.get "Y" = 1 :=
  ⟨(AnalyzeMappingSizes_entries sampleMappingState (by decide) 1 ⟨"Y", .TemporalMap, 3, 1⟩
      (by decide)).1,
    ((AnalyzeMappingSizes_entries sampleMappingState (by decide) 1 ⟨"Y", .TemporalMap, 3, 1⟩
      (by decide)).2.2 rfl).1,
    ((AnalyzeMappingSizes_entries sampleMappingState (by decide) 1 ⟨"Y", .TemporalMap, 3, 1⟩
      (by decide)).2.2 rfl).2.1 (by decide)⟩

/-- At `S = 30`, `T = 4`, `O = 2`, `C = 4` (multi-sweep): one edge iteration, and the
steady count is `floor(14 / 4) - 1 = 2`. -/
theorem AnalyzeSpatialEdgeCase_edge_iterations_witness :
    ∃ cu', AnalyzeSpatialEdgeCase (sampleSpatialState 30 4 2 4) = .ok cu' ∧
      cu'.num_edge_spatial_iterations_ = 1 ∧ cu'.num_steady_spatial_iterations_ = 2 := by
  obtain ⟨cu', h1, h2, h3⟩ := AnalyzeSpatialEdgeCase_edge_iterations
    (sampleSpatialState 30 4 2 4) ⟨"K", .SpatialMap, 4, 2⟩ (by decide) (by decide) (by decide)
    (by decide) (by decide) (by decide) (by decide) (fun _ => by decide)
  exact ⟨cu', h1, h2, (h3 (by decide)).1.trans (by decide)⟩

/-- At `S = 32`, `T = 4`, `O = 4`, `C = 4` there are `n = 8` tile positions, `8 mod 4 = 0`,
and the edge-cluster count is 1. -/
theorem AnalyzeSpatialEdgeCase_multi_sweep_clusters_witness :
    ∃ cu', AnalyzeSpatialEdgeCase (sampleSpatialState 32 4 4 4) = .ok cu' ∧
      cu'.num_spatial_edge_clusters_ = 1 := by
  obtain ⟨cu', h1, _, h3⟩ := AnalyzeSpatialEdgeCase_multi_sweep_clusters
    (sampleSpatialState 32 4 4 4) ⟨"K", .SpatialMap, 4, 4⟩ (by decide) (by decide) (by decide)
    (by decide) (by decide) (by decide) (by decide)
  exact ⟨cu', h1, h3 (by decide)⟩

/-- At `S = 10`, `T = 4`, `O = 4`, `C = 4` (single sweep) the edge-cluster count is 3:
two clusters span `4*1 + 4 = 8 < 10`, three span `4*2 + 4 = 12 >= 10`. -/
theorem AnalyzeSpatialEdgeCase_single_sweep_clusters_witness :
    ∃ cu', AnalyzeSpatialEdgeCase (sampleSpatialState 10 4 4 4) = .ok cu' ∧
      cu'.num_spatial_edge_clusters_ = 3 := by
  obtain ⟨cu', h1, _, h3, h4, _, _⟩ := AnalyzeSpatialEdgeCase_single_sweep_clusters
    (sampleSpatialState 10 4 4 4) ⟨"K", .SpatialMap, 4, 4⟩ (by decide) (by decide) (by decide)
    (by decide) (by decide) (by decide)
  refine ⟨cu', h1, ?_⟩
  have hle := h4 3 (by decide) (by decide)
  have hS : (sampleSpatialState 10 4 4 4).dimensions_.GetSize
      (Directive.GetVariable ⟨"K", .SpatialMap, 4, 4⟩) = 10 := by decide
  have hO : Directive.GetOfs ⟨"K", .SpatialMap, 4, 4⟩ = 4 := rfl
  have hT : Directive.GetSize ⟨"K", .SpatialMap, 4, 4⟩ = 4 := rfl
  rw [hS, hO, hT] at h3
  omega

/-- At `S = 30`, `T = 4`, `O = 2`, `C = 4` the steady count lies between 0 and the
number of spatial iterations minus one. -/
theorem steady_iterations_within_spatial_iterations_witness :
    ∃ cu1 cu2, AnalyzeNumSpatialIterations (sampleSpatialState 30 4 2 4) = .ok cu1 ∧
      AnalyzeSpatialEdgeCase cu1 = .ok cu2 ∧
      0 ≤ cu2.num_steady_spatial_iterations_ ∧
      cu2.num_steady_spatial_iterations_ ≤ cu2.num_spatial_iterations_ - 1 :=
  steady_iterations_within_spatial_iterations (sampleSpatialState 30 4 2 4)
    ⟨"K", .SpatialMap, 4, 2⟩ (by decide) (by decide) (by decide) (by decide) (by decide)
    (by decide) (by decide) (by decide)

/-- Index discovery on `TemporalMap K; SpatialMap Y; SpatialMap R` returns with all
indices inside the sequence of length 3; the access `dataflow_->at(upper)` succeeds in
`AnalyzeNumSpatialIterations`, which returns, and in `AnalyzeSpatialEdgeCase` on the
state it returns, which returns too. -/
theorem index_discovery_in_bounds_witness :
    ∃ cu1, AnalyzeSpatialMapIdx (init 0 4 twoSpatialDataflow (sampleDims 16 9 3)) = .ok cu1 ∧
      ∃ cu2, AnalyzeInnerTemporalMapIdx cu1 = .ok cu2 ∧
        ∃ u : Nat, cu2.upper_spatial_map_idx_ = (u : Int) ∧ u < 3 ∧
          ∃ du, DirectiveTable.at? cu2.dataflow_ cu2.upper_spatial_map_idx_ = some du ∧
            ∃ cu3, AnalyzeNumSpatialIterations cu2 = .ok cu3 ∧
              DirectiveTable.at? cu3.dataflow_ cu3.upper_spatial_map_idx_ = some du ∧
              ∃ cu4, AnalyzeSpatialEdgeCase cu3 = .ok cu4 := by
  refine ⟨_, rfl, ?_⟩
  obtain ⟨cu2, h2, u, hu, hlen, _, _, _, du, _, hat2, _, _, h3⟩ :=
    index_discovery_in_bounds 0 4 twoSpatialDataflow (sampleDims 16 9 3) _ rfl
  cases h2
  obtain ⟨hat3, _, h4⟩ := h3 _ rfl
  cases hat2
  exact ⟨_, rfl, u, hu, hlen, _, rfl, _, rfl, hat3, h4 (by decide) (by decide)⟩

end ClusterUnit
end DFA
end maestro
